import Mathlib

/-!
# Bus reservation system: booking and cancellation engine

A shallow embedding of `Source Code/assignment.c` and a verification
development over it.

Modelling conventions.

* Text files are lists of parsed records, one element per line, in file order.
  A file that does not exist reads as the empty list, except
  `frequent_bookings.txt`, whose absence the code distinguishes.
* A record of `reservation.txt` holds the fields of the line as they were
  written. `IsUnique` reads the ticket number back with the conversion it
  performs on the text (`ticketField`), which depends on the user name at the
  head of the line; `searchLedger` is the search of `cancelBooking` read in
  the same way. `findReservation` and the filter of
  `updateFilesAfterCancellation` compare the fields as written, which is what
  the code reads from a line whose user name is not empty and holds no comma.
* `float` amounts in the state (fares, ledger amounts, refunds, totals) are
  exact rationals, and the rounding of `%.2f` is not modelled. The arithmetic
  of `calculateFare` is also given as the program computes it, in IEEE 754
  binary32 and binary64 with rounding to nearest (`calculateFareFloat`).
* The array `reservedSeats[MAX_SEATS]` together with `reservedCount` is the
  list of its first `reservedCount` elements; `reservedCount` is its length.
* The writes of `bookSeat` are checked against the arrays they go to
  (`seatNumbers[MAX_SEATS]` of the caller, `reservedSeats[MAX_SEATS]`,
  `ticketNumbers[MAX_BOOKINGS]`, `seatCounts[MAX_BOOKINGS]`): a call that
  would write past one of them has no result. `bookingCount`, which the
  program never initialises, is whatever the record holds.
* Standard input is a list of tokens, standard output the list of the status
  messages printed, `rand()` the list of the values it will return.
* A function returns `none` where the C program has no defined result:
  it reads an indeterminate value, reads freed memory, writes past the end
  of an array, runs out of input or of random draws inside a loop that waits
  for them, or is given a token of a kind the conversion cannot be modelled
  on.
* Where the order of file operations matters (the ledger rewrite of
  `updateFilesAfterCancellation`), the files are a record of optional
  contents and the function is the list of states they go through; a write
  counts as done when the call is made.
* Where a load starts from memory that `main` has not initialised
  (`loadBuses`, `loadSeats`), the array is a function from slot index to
  record, and the fields a load does not write keep what the slot held.
* Strings are ordered character by character, as `strcmp` orders the text
  the program stores.
-/

namespace Assignment

/-! ## Constants -/

/-- Maximum number of seats per bus. -/
def MAX_SEATS : Int := 50

/-- Maximum bookings per bus. -/
def MAX_BOOKINGS : Int := 100

/-- Sales and Service Tax rate (6%). -/
def SST_RATE : Rat := 6 / 100

/-! ## Data model -/

/-- The fields of `struct user` that the booking engine reads. -/
structure user where
  username : String
  password : String
  email : String
  phone : String
  address : String
  deriving DecidableEq, Repr

/-- The `struct BusReservation` record. `reservedSeats` holds the first
`reservedCount` elements of the C array. The report counters and the
`bookings` table, which no function modelled here reads or writes, are left
out. -/
structure BusReservation where
  busID : Int
  busNumberPlate : String
  date : String
  source : String
  destination : String
  departureTime : String
  arrivalTime : String
  totalSeats : Int
  availableSeats : Int
  fare : Rat
  reservedSeats : List Int
  ticketNumbers : List Int
  seatCounts : List Int
  bookingCount : Int
  deriving DecidableEq, Repr

/-- The C field `reservedCount`: the number of live elements of
`reservedSeats`. -/
def BusReservation.reservedCount (bus : BusReservation) : Int := bus.reservedSeats.length

/-- One line of `reservation.txt` (and of `cancellations.txt`, which has the
same eight fields): `username,ticket,busID,plate,date,numSeats,seats,amount`. -/
structure Reservation where
  username : String
  ticketNumber : Int
  busID : Int
  busNumberPlate : String
  bookingDate : String
  numSeats : Int
  seatNumbers : List Int
  finalAmount : Rat
  deriving DecidableEq, Repr

/-- One line of `buses.txt`. -/
structure BusLine where
  busID : Int
  busNumberPlate : String
  date : String
  source : String
  destination : String
  departureTime : String
  arrivalTime : String
  totalSeats : Int
  availableSeats : Int
  fare : Rat
  deriving DecidableEq, Repr

/-- One line of `seats.txt`: `busID,reservedCount,seat1,seat2,...`. -/
structure SeatLine where
  busID : Int
  reservedSeats : List Int
  deriving DecidableEq, Repr

/-- One line of `email.txt` or `sms.txt`:
`recipient, type - category - ticketNumber`. -/
structure NotificationLine where
  recipient : String
  type : String
  category : String
  ticketNumber : Int
  deriving DecidableEq, Repr

/-- One line of `frequent_bookings.txt`: `username,plate,source,destination`. -/
structure FrequentLine where
  username : String
  busNumberPlate : String
  source : String
  destination : String
  deriving DecidableEq, Repr

/-- A token of standard input. `num n` is text that `%d` converts to `n`;
`chr c` is a one-character answer that `%d` cannot convert; `str s` is text
read by `%s`. -/
inductive Tok where
  | num (n : Int)
  | chr (c : Char)
  | str (s : String)
  deriving DecidableEq, Repr

/-- The status messages the modelled functions print (prompts and the layout
of the booking summary are not recorded). -/
inductive Msg where
  | invalidSeatCount
  | notEnoughSeats
  | seatOutOfRange (seat : Int)
  | seatAlreadyBooked (seat : Int)
  | invalidChoice
  | invalidInput
  | noMatchingBus
  | noSeatsBooked
  | bookingSummary
  | bookingSuccessful
  | bookingCanceled
  | invalidCardNumber
  | invalidWallet
  | paymentCompleted (amount : Rat)
  | paymentCanceled
  | invalidPaymentChoice
  | paymentSuccessful
  | frequentSaved
  | noBookingFound (ticket : Int)
  | cancellationAborted
  | reservationCanceled
  | reservationNotFound
  | cancelSuccessRefund (amount : Rat)
  | noFrequentBookings
  | invalidSelection
  | noAvailableDates
  | invalidDateSelection
  | noMatchingBusForDate
  | noSeatsOutbound
  | invalidReturnDate
  | noSeatsReturn
  | noReturnBuses
  | noReturnTrips
  deriving DecidableEq, Repr

/-- The whole program state: the in-memory bus array, the text files, the
two `static` arrays of `finalizeBooking`, and the environment (input, random
generator, output, current date). -/
structure State where
  buses : List BusReservation
  reservationTxt : List Reservation
  cancellationsTxt : List Reservation
  busesTxt : List BusLine
  seatsTxt : List SeatLine
  emailTxt : List NotificationLine
  smsTxt : List NotificationLine
  frequentTxt : Option (List FrequentLine)
  seatCounts : Int × Int
  seatNumbersForAllTrips : Option (List Int) × Option (List Int)
  stdin : List Tok
  rand : List Nat
  stdout : List Msg
  today : String
  deriving DecidableEq, Repr

/-- Read of slot `i` of a two-element C array. -/
def get2 {α : Type} (a : α × α) (i : Nat) : α := if i = 0 then a.1 else a.2

/-- Write of slot `i` of a two-element C array. -/
def set2 {α : Type} (a : α × α) (i : Nat) (v : α) : α × α :=
  if i = 0 then (v, a.2) else (a.1, v)

/-- Array write `a[i] = v` on a per-bus table; an index outside the table
leaves it as it is. -/
def writeAt (a : List Int) (i : Int) (v : Int) : List Int :=
  if 0 ≤ i then a.set i.toNat v else a

/-- Print one status message. -/
def State.print (s : State) (m : Msg) : State := { s with stdout := s.stdout ++ [m] }

/-! ## Ticket numbers -/

/-- Outcome of a `%d` conversion of `sscanf` or `fscanf` into an `int`: a
value is stored, or the input does not match and nothing is stored, or the
digits do not fit an `int`, which the C library leaves undefined. -/
inductive Conv where
  | value (v : Int)
  | nothing
  | undefined
  deriving DecidableEq, Repr

/-- The characters `isspace` accepts, which `%d` skips. -/
def isSpace (c : Char) : Bool := c.toNat = 32 ∨ (9 ≤ c.toNat ∧ c.toNat ≤ 13)

/-- The conversion `%d` on a text: white space is skipped, then an optional
sign and the longest run of decimal digits are read. -/
def scanInt (text : List Char) : Conv :=
  let body := text.dropWhile isSpace
  let negative : Bool := body.head? = some '-'
  let unsigned := if body.head? = some '-' ∨ body.head? = some '+' then body.tail else body
  let digits := unsigned.takeWhile Char.isDigit
  if digits = [] then Conv.nothing
  else
    let magnitude : Nat := digits.foldl (fun acc c => 10 * acc + (c.toNat - 48)) 0
    let v : Int := if negative then -(magnitude : Int) else magnitude
    if v < -2147483648 ∨ v > 2147483647 then Conv.undefined else Conv.value v

/-- What `sscanf(line, "%*[^,],%d", &existingTicket)` stores when `line` is
the line `saveReservation` writes for the record, `username,ticket,...`.
The directive `%*[^,]` takes the text up to the first comma and needs at
least one character; `%d` then converts what follows that comma. For a user
name without a comma this is the ticket number written; for a user name
that holds a comma (`registerUser` reads the name with `%s` and accepts one)
it is the rest of the name. The line is taken to fit the 256-byte buffer. -/
def ticketField (line : Reservation) : Conv :=
  let name := line.username.toList
  if name.takeWhile (fun c => c ≠ ',') = [] then Conv.nothing
  else
    match name.dropWhile (fun c => c ≠ ',') with
    | [] => Conv.value line.ticketNumber
    | _ :: text => scanInt text

/-- The `while (fgets(...))` loop of `IsUnique`. The result of `sscanf` is
not checked: on a line where nothing is stored `existingTicket` keeps the
value of the line before, and before any value has been stored it is
uninitialised (`none`), so the comparison has no defined result. -/
def scanTickets (ticketNumber : Int) : Option Int → List Reservation → Option Bool
  | _, [] => some true
  | existingTicket, line :: rest =>
    match ticketField line with
    | Conv.undefined => none
    | Conv.value v =>
      if v = ticketNumber then some false else scanTickets ticketNumber (some v) rest
    | Conv.nothing =>
      match existingTicket with
      | none => none
      | some v =>
        if v = ticketNumber then some false else scanTickets ticketNumber (some v) rest

/-- Function `IsUnique`: scans `reservation.txt` and answers `false` at the first line
on which `existingTicket` equals `ticketNumber`, `true` at the end of the
file. -/
def IsUnique (reservationTxt : List Reservation) (ticketNumber : Int) : Option Bool :=
  scanTickets ticketNumber none reservationTxt

/-- The `do ... while (!IsUnique(ticketNumber))` loop of
`generateTicketNumber` over the values `rand()` returns. -/
def drawTicket (reservationTxt : List Reservation) : List Nat → Option (Int × List Nat)
  | [] => none
  | r :: rest =>
    let ticketNumber : Int := 100000 + (r : Int) % 900000
    match IsUnique reservationTxt ticketNumber with
    | none => none
    | some true => some (ticketNumber, rest)
    | some false => drawTicket reservationTxt rest

/-- Function `generateTicketNumber`: draws until the number is not in
`reservation.txt`. -/
def generateTicketNumber (s : State) : Option (Int × State) :=
  match drawTicket s.reservationTxt s.rand with
  | none => none
  | some (ticketNumber, rest) => some (ticketNumber, { s with rand := rest })

/-! ## Fare -/

/-- Function `calculateFare` in exact arithmetic: base fare plus SST. This is the amount
the state model records; `calculateFareFloat` is the value the `float`
arithmetic of the program gives. -/
def calculateFare (numSeats : Int) (farePerSeat : Rat) : Rat :=
  let tripFare : Rat := numSeats * farePerSeat
  let sst : Rat := tripFare * SST_RATE
  tripFare + sst

/-! ## Seat reservation -/

/-- Outcome of the seat-reading loop of `bookSeat`. -/
inductive SeatScan where
  | ok (seatNumbers : List Int) (stdin : List Tok)
  | outOfRange (seat : Int) (seatNumbers : List Int) (stdin : List Tok)
  | alreadyBooked (seat : Int) (seatNumbers : List Int) (stdin : List Tok)
  | undefined
  deriving DecidableEq, Repr

/-- The loop `for (i = 0; i < *numSeats; i++)` of `bookSeat`: reads one seat
number into `seatNumbers[i]`, checks it against `[1, MAX_SEATS]`, then
against every reserved seat, and stops at the first seat that fails.
`seatNumbers` is what has been stored in the caller's array so far, so its
length is `i`; the callers declare the array as `int seatNumbers[MAX_SEATS]`,
and a read into `seatNumbers[i]` with `i ≥ MAX_SEATS` is a write past its
end. -/
def readSeats (reservedSeats : List Int) : Nat → List Tok → List Int → SeatScan
  | 0, stdin, seatNumbers => SeatScan.ok seatNumbers stdin
  | k + 1, Tok.num seat :: stdin, seatNumbers =>
    if (seatNumbers.length : Int) ≥ MAX_SEATS then SeatScan.undefined
    else if seat < 1 ∨ seat > MAX_SEATS then
      SeatScan.outOfRange seat (seatNumbers ++ [seat]) stdin
    else if seat ∈ reservedSeats then
      SeatScan.alreadyBooked seat (seatNumbers ++ [seat]) stdin
    else readSeats reservedSeats k stdin (seatNumbers ++ [seat])
  | _ + 1, _, _ => SeatScan.undefined

/-- What `bookSeat` leaves behind: its return value, the bus it was given a
pointer to, the caller's `seatNumbers` and `numSeats`, and the state. -/
structure BookSeatResult where
  ret : Int
  bus : BusReservation
  seatNumbers : List Int
  numSeats : Int
  state : State
  deriving DecidableEq, Repr

/-- Function `bookSeat`. Returns `0` on every failure and the generated ticket number
on success. When the seat count cannot be read, `*numSeats` is left
unassigned by the code (callers read it only after a success); the model
reports `0` for it. The function has no result when a write leaves its
array: a seat read into `seatNumbers[i]` with `i ≥ MAX_SEATS`, a store
`reservedSeats[reservedCount++]` with `reservedCount ≥ MAX_SEATS`, or a write
to `ticketNumbers[bookingCount]` and `seatCounts[bookingCount]` with
`bookingCount` outside `[0, MAX_BOOKINGS)`. -/
def bookSeat (bus : BusReservation) (s : State) : Option BookSeatResult :=
  match s.stdin with
  | Tok.str _ :: _ => none
  | Tok.num numSeats :: stdin =>
    if numSeats ≤ 0 then
      some ⟨0, bus, [], numSeats, { s with stdin := stdin }.print Msg.invalidSeatCount⟩
    else if numSeats > bus.availableSeats then
      some ⟨0, bus, [], numSeats, { s with stdin := stdin }.print Msg.notEnoughSeats⟩
    else
      match readSeats bus.reservedSeats numSeats.toNat stdin [] with
      | SeatScan.undefined => none
      | SeatScan.outOfRange seat seatNumbers stdin1 =>
        some ⟨0, bus, seatNumbers, numSeats,
          { s with stdin := stdin1 }.print (Msg.seatOutOfRange seat)⟩
      | SeatScan.alreadyBooked seat seatNumbers stdin1 =>
        some ⟨0, bus, seatNumbers, numSeats,
          { s with stdin := stdin1 }.print (Msg.seatAlreadyBooked seat)⟩
      | SeatScan.ok seatNumbers stdin1 =>
        match generateTicketNumber { s with stdin := stdin1 } with
        | none => none
        | some (ticketNumber, s1) =>
          if bus.reservedCount + numSeats > MAX_SEATS then none
          else if bus.bookingCount < 0 ∨ bus.bookingCount ≥ MAX_BOOKINGS then none
          else
            some ⟨ticketNumber,
              { bus with
                reservedSeats := bus.reservedSeats ++ seatNumbers
                ticketNumbers := writeAt bus.ticketNumbers bus.bookingCount ticketNumber
                seatCounts := writeAt bus.seatCounts bus.bookingCount numSeats
                bookingCount := bus.bookingCount + 1
                availableSeats := bus.availableSeats - numSeats },
              seatNumbers, numSeats, s1⟩
  | _ => some ⟨0, bus, [], 0, s.print Msg.invalidSeatCount⟩

/-! ## Seat release -/

/-- Removal of one seat from `reservedSeats`: the first element equal to
`seat` is found, the elements after it are shifted left and `reservedCount`
is decremented; a seat that is not found changes nothing. -/
def removeSeat : List Int → Int → List Int
  | [], _ => []
  | x :: rest, seat => if x = seat then rest else x :: removeSeat rest seat

/-- The removal loop over the seats of one booking, in order. -/
def removeSeats (reservedSeats : List Int) (seats : List Int) : List Int :=
  seats.foldl removeSeat reservedSeats

/-- Read of `p[0] .. p[n-1]` from a block of `int`s; `none` when the block is
not live (null or freed) or shorter than `n`. No read happens for `n ≤ 0`. -/
def readBlock (p : Option (List Int)) (n : Int) : Option (List Int) :=
  if n ≤ 0 then some []
  else
    match p with
    | none => none
    | some xs => if n.toNat ≤ xs.length then some (xs.take n.toNat) else none

/-- The seat release of `cancelBooking` on the bus found: the removal loop
over `canceledSeats[0 .. numSeats)` and `availableSeats += numSeats`. -/
def cancelRelease (bus : BusReservation) (numSeats : Int) (canceledSeats : List Int) : BusReservation :=
  { bus with
    reservedSeats := removeSeats bus.reservedSeats canceledSeats
    availableSeats := bus.availableSeats + numSeats }

/-- One iteration of the rollback loop of `finalizeBooking` on the bus of
the trip: the removal loop over the held seats, `availableSeats +=
seatCounts[i]`, and the decrement of a positive `bookingCount`. -/
def rollbackRelease (bus : BusReservation) (seatCount : Int) (seats : List Int) : BusReservation :=
  { bus with
    reservedSeats := removeSeats bus.reservedSeats seats
    availableSeats := bus.availableSeats + seatCount
    bookingCount := if bus.bookingCount > 0 then bus.bookingCount - 1 else bus.bookingCount }

/-! ## Persistence -/

/-- Function `saveReservation`: appends one line to `reservation.txt`, with the first
`numSeats` elements of `seatNumbers`. The record holds the fields as they
are printed, the user name verbatim. What the readers get back from the line
depends on the name: `ticketField` is the ticket number that `IsUnique` and
the search of `cancelBooking` convert from it. -/
def saveReservation (s : State) (currentUser : user) (ticketNumber : Int) (busID : Int)
    (busNumberPlate : String) (numSeats : Int) (seatNumbers : Option (List Int))
    (bookingDate : String) (finalAmount : Rat) : Option State :=
  match readBlock seatNumbers numSeats with
  | none => none
  | some seats =>
    some { s with
      reservationTxt := s.reservationTxt ++
        [⟨currentUser.username, ticketNumber, busID, busNumberPlate, bookingDate, numSeats,
          seats, finalAmount⟩] }

/-- The `struct notification` record; the union `recipient` holds the
e-mail address or the phone number. -/
structure notification where
  recipient : String
  type : String
  category : String
  isEmail : Bool
  deriving DecidableEq, Repr

/-- Function `saveNotification`: appends the notification to `email.txt` or
to `sms.txt`. -/
def saveNotification (s : State) (notif : notification) (ticketNumber : Int) : State :=
  if notif.isEmail then
    { s with
      emailTxt := s.emailTxt ++ [⟨notif.recipient, notif.type, notif.category, ticketNumber⟩] }
  else
    { s with
      smsTxt := s.smsTxt ++ [⟨notif.recipient, notif.type, notif.category, ticketNumber⟩] }

/-- The e-mail and the SMS notification of one category, saved in this
order for the current user. -/
def notifyBoth (s : State) (currentUser : user) (category : String) (ticketNumber : Int) :
    State :=
  saveNotification
    (saveNotification s ⟨currentUser.email, "email", category, true⟩ ticketNumber)
    ⟨currentUser.phone, "sms", category, false⟩ ticketNumber

/-- The line `saveBuses` writes for one bus. -/
def BusReservation.toLine (bus : BusReservation) : BusLine :=
  ⟨bus.busID, bus.busNumberPlate, bus.date, bus.source, bus.destination, bus.departureTime,
    bus.arrivalTime, bus.totalSeats, bus.availableSeats, bus.fare⟩

/-- Function `saveBuses`: rewrites `buses.txt` from memory. -/
def saveBuses (s : State) : State := { s with busesTxt := s.buses.map BusReservation.toLine }

/-- Function `saveSeats`: rewrites `seats.txt` from memory. -/
def saveSeats (s : State) : State :=
  { s with seatsTxt := s.buses.map (fun bus => ⟨bus.busID, bus.reservedSeats⟩) }

/-- Function `saveFrequentBooking`: counts the lines of `reservation.txt` of this user
on this plate; from five on, appends the route to `frequent_bookings.txt`
unless the file is missing or already lists it. The parameters `busID` and
`bookingDate`, which the body does not use, are dropped. -/
def saveFrequentBooking (s : State) (currentUser : user) (busNumberPlate : String)
    (source : String) (destination : String) : State :=
  let count := (s.reservationTxt.filter
    (fun l => l.username = currentUser.username ∧ l.busNumberPlate = busNumberPlate)).length
  if count ≥ 5 then
    match s.frequentTxt with
    | none => s
    | some lines =>
      if lines.any (fun l => l.username = currentUser.username ∧
          l.busNumberPlate = busNumberPlate ∧ l.source = source ∧
          l.destination = destination) then s
      else
        State.print
          { s with
            frequentTxt := some (lines ++
              [FrequentLine.mk currentUser.username busNumberPlate source destination]) }
          Msg.frequentSaved
  else s

/-! ## Payment -/

/-- Function `processPayment`: the `do ... while (!valid)` loop. Every round reads at
least one token, so `fuel` rounds suffice for an input of `fuel - 1` tokens. -/
def processPaymentLoop (totalFare : Rat) : Nat → State → Option State
  | 0, _ => none
  | fuel + 1, s =>
    match s.stdin with
    | Tok.num paymentMethod :: stdin =>
      if paymentMethod = 1 then
        match stdin with
        | Tok.str cardNumber :: stdin1 =>
          if cardNumber.length ≠ 16 then
            processPaymentLoop totalFare fuel
              ({ s with stdin := stdin1 }.print Msg.invalidCardNumber)
          else
            some ((({ s with stdin := stdin1 }.print (Msg.paymentCompleted totalFare)).print
              Msg.paymentSuccessful))
        | _ => none
      else if paymentMethod = 2 then
        match stdin with
        | Tok.num walletChoice :: stdin1 =>
          if walletChoice < 1 ∨ walletChoice > 3 then
            processPaymentLoop totalFare fuel
              ({ s with stdin := stdin1 }.print Msg.invalidWallet)
          else
            some ((({ s with stdin := stdin1 }.print (Msg.paymentCompleted totalFare)).print
              Msg.paymentSuccessful))
        | _ => none
      else if paymentMethod = 3 then
        some ({ s with stdin := stdin }.print Msg.paymentCanceled)
      else
        processPaymentLoop totalFare fuel
          ({ s with stdin := stdin }.print Msg.invalidPaymentChoice)
    | _ => none

/-- Function `processPayment`. -/
def processPayment (totalFare : Rat) (s : State) : Option State :=
  processPaymentLoop totalFare (s.stdin.length + 1) s

/-! ## Finalising a booking -/

/-- The caller's arrays `ticketNumbers[2]`, `totalFares[2]` and
`busIndices[2]`; a slot is `none` until it is first assigned. -/
structure TripArrays where
  ticketNumbers : Option Int × Option Int
  totalFares : Option Rat × Option Rat
  busIndices : Option Nat × Option Nat
  deriving DecidableEq, Repr

/-- The three arrays as declared, before any assignment. -/
def TripArrays.uninit : TripArrays := ⟨(none, none), (none, none), (none, none)⟩

/-- Index of the first bus that satisfies `p` (the search loops with
`break`). -/
def findIndex (p : BusReservation → Bool) : List BusReservation → Option Nat
  | [] => none
  | bus :: rest => if p bus then some 0 else (findIndex p rest).map (fun j => j + 1)

/-- Index of the first bus whose `busID` is `busID`. -/
def findBus (buses : List BusReservation) (busID : Int) : Option Nat :=
  findIndex (fun bus => bus.busID = busID) buses

/-- The summary loop of `finalizeBooking`: reads, for every trip, its bus
index, ticket number, held seats and fare, and adds the fares up. -/
def summaryLoop (s : State) (a : TripArrays) : List Nat → Rat → Option Rat
  | [], totalPayment => some totalPayment
  | i :: rest, totalPayment =>
    match get2 a.busIndices i, get2 a.ticketNumbers i, get2 a.totalFares i with
    | some currentBusIndex, some _, some totalFare =>
      match s.buses[currentBusIndex]?,
        readBlock (get2 s.seatNumbersForAllTrips i) (get2 s.seatCounts i) with
      | some _, some _ => summaryLoop s a rest (totalPayment + totalFare)
      | _, _ => none
    | _, _, _ => none

/-- The loop `for (i = 0; i < totalTrips; i++)` that saves the reservation
of every trip and its two confirmations. `numSeats` and `finalAmount` are
the values of the call of `finalizeBooking` that runs the loop. -/
def commitLoop (currentUser : user) (numSeats : Int) (bookingDate : String)
    (finalAmount : Rat) (a : TripArrays) : List Nat → State → Option State
  | [], s => some s
  | i :: rest, s =>
    match get2 a.ticketNumbers i, get2 a.busIndices i with
    | some ticketNumber, some currentBusIndex =>
      match s.buses[currentBusIndex]? with
      | none => none
      | some bus =>
        match saveReservation s currentUser ticketNumber bus.busID bus.busNumberPlate numSeats
          (get2 s.seatNumbersForAllTrips i) bookingDate finalAmount with
        | none => none
        | some s1 =>
          commitLoop currentUser numSeats bookingDate finalAmount a rest
            (notifyBoth s1 currentUser "Confirmation" ticketNumber)
    | _, _ => none

/-- The rollback loop of `finalizeBooking`. -/
def rollbackLoop (a : TripArrays) : List Nat → State → Option State
  | [], s => some s
  | i :: rest, s =>
    match get2 a.busIndices i with
    | none => none
    | some currentBusIndex =>
      match s.buses[currentBusIndex]?,
        readBlock (get2 s.seatNumbersForAllTrips i) (get2 s.seatCounts i) with
      | some bus, some seats =>
        rollbackLoop a rest
          { s with
            buses := s.buses.set currentBusIndex
              (rollbackRelease bus (get2 s.seatCounts i) seats) }
      | _, _ => none

/-- The loop that frees `seatNumbersForAllTrips[i]` for every trip. -/
def freeTrips (s : State) (totalTrips : Nat) : State :=
  (List.range totalTrips).foldl
    (fun st i => { st with seatNumbersForAllTrips := set2 st.seatNumbersForAllTrips i none }) s

/-- Function `finalizeBooking`. `malloc` is taken to succeed. The call for the last
trip prints the summary, asks whether to proceed, and either pays and saves
every trip or rolls every trip back. -/
def finalizeBooking (currentUser : user) (s : State) (busIndex : Nat) (numSeats : Int)
    (seatNumbers : List Int) (bookingDate : String) (tripIndex : Nat) (totalTrips : Nat)
    (a : TripArrays) : Option (State × TripArrays) :=
  match generateTicketNumber s with
  | none => none
  | some (ticketNumber, s1) =>
    match s1.buses[busIndex]?, readBlock (some seatNumbers) numSeats with
    | some bus, some copy =>
      let baseFare : Rat := numSeats * bus.fare
      let sst : Rat := baseFare * SST_RATE
      let finalAmount : Rat := baseFare + sst
      let a1 : TripArrays :=
        { ticketNumbers := set2 a.ticketNumbers tripIndex (some ticketNumber)
          totalFares := set2 a.totalFares tripIndex (some finalAmount)
          busIndices := set2 a.busIndices tripIndex (some busIndex) }
      let s2 : State :=
        { s1 with
          seatCounts := set2 s1.seatCounts tripIndex numSeats
          seatNumbersForAllTrips := set2 s1.seatNumbersForAllTrips tripIndex (some copy) }
      if tripIndex + 1 = totalTrips then
        match summaryLoop s2 a1 (List.range totalTrips) 0 with
        | none => none
        | some totalPayment =>
          match s2.stdin with
          | Tok.chr proceed :: stdin =>
            let s3 := State.print { s2 with stdin := stdin } Msg.bookingSummary
            if proceed = 'y' ∨ proceed = 'Y' then
              match processPayment totalPayment s3 with
              | none => none
              | some s4 =>
                match commitLoop currentUser numSeats bookingDate finalAmount a1
                  (List.range totalTrips) s4 with
                | none => none
                | some s5 =>
                  let s6 := saveFrequentBooking (saveSeats (saveBuses s5)) currentUser
                    bus.busNumberPlate bus.source bus.destination
                  some ((freeTrips s6 totalTrips).print Msg.bookingSuccessful, a1)
            else
              match rollbackLoop a1 (List.range totalTrips) (s3.print Msg.bookingCanceled) with
              | none => none
              | some s4 => some (freeTrips s4 totalTrips, a1)
          | _ => none
      else some (s2, a1)
    | _, _ => none

/-! ## Booking -/

/-- The trip loop of `processBooking`. Every round reads the bus ID, so
`fuel` rounds suffice for an input of `fuel - 1` tokens. An unknown bus ID
runs `continue`, which advances `tripIndex`; a failed `bookSeat` repeats the
round with the same `tripIndex`. -/
def processBookingLoop (currentUser : user) (bookingDate : String) (tripType : Nat) :
    Nat → Nat → State → TripArrays → Option State
  | 0, _, _, _ => none
  | fuel + 1, tripIndex, s, a =>
    if tripIndex < (if tripType = 2 then 2 else 1) then
      match s.stdin with
      | Tok.str _ :: _ => none
      | Tok.num busID :: stdin =>
        let s1 : State := { s with stdin := stdin }
        match findBus s1.buses busID with
        | none =>
          processBookingLoop currentUser bookingDate tripType fuel (tripIndex + 1)
            (s1.print Msg.noMatchingBus) a
        | some busIndex =>
          let a1 : TripArrays := { a with busIndices := set2 a.busIndices tripIndex (some busIndex) }
          match s1.buses[busIndex]? with
          | none => none
          | some bus =>
            match bookSeat bus s1 with
            | none => none
            | some r =>
              let s2 : State := { r.state with buses := r.state.buses.set busIndex r.bus }
              if r.ret > 0 then
                match finalizeBooking currentUser s2 busIndex r.numSeats r.seatNumbers
                  bookingDate tripIndex tripType a1 with
                | none => none
                | some (s3, a2) =>
                  processBookingLoop currentUser bookingDate tripType fuel (tripIndex + 1) s3 a2
              else
                processBookingLoop currentUser bookingDate tripType fuel tripIndex
                  (s2.print Msg.noSeatsBooked) a1
      | _ => some (s.print Msg.invalidInput)
    else some s

/-- The return-trip part of `bookFrequentBooking`, entered when the user has
two frequent routes. `busIndex`, `numSeats` and `seatNumbers` are those of
the outbound trip: the code passes them, not the return trip's, to the
second `finalizeBooking`. -/
def bookFrequentReturn (currentUser : user) (s : State) (first second : FrequentLine)
    (busIndex : Nat) (numSeats : Int) (seatNumbers : List Int) (a : TripArrays) :
    Option State :=
  match s.stdin with
  | Tok.chr confirmRoundTrip :: stdin =>
    let s1 : State := { s with stdin := stdin }
    if confirmRoundTrip = 'Y' ∨ confirmRoundTrip = 'y' then
      let onRoute : BusReservation → Bool := fun bus =>
        bus.busNumberPlate = second.busNumberPlate ∧ bus.source = first.destination ∧
          bus.destination = first.source
      let returnAvailableDates := (s1.buses.filter onRoute).map (fun bus => bus.date)
      if returnAvailableDates.length > 0 then
        match s1.stdin with
        | Tok.str _ :: _ => none
        | Tok.num returnDateChoice :: stdin2 =>
          let s2 : State := { s1 with stdin := stdin2 }
          if returnDateChoice < 1 ∨ returnDateChoice > returnAvailableDates.length then
            some (s2.print Msg.invalidReturnDate)
          else
            match returnAvailableDates[(returnDateChoice - 1).toNat]? with
            | none => none
            | some returnTravelDate =>
              match findIndex (fun bus => onRoute bus ∧ bus.date = returnTravelDate)
                s2.buses with
              | none => some (s2.print Msg.noReturnBuses)
              | some returnBusIndex =>
                match s2.buses[returnBusIndex]? with
                | none => none
                | some returnBus =>
                  match bookSeat returnBus s2 with
                  | none => none
                  | some r =>
                    let s3 : State :=
                      { r.state with buses := r.state.buses.set returnBusIndex r.bus }
                    if r.ret > 0 then
                      (finalizeBooking currentUser s3 busIndex numSeats seatNumbers s3.today
                        1 2 a).map (fun out => out.1)
                    else some (s3.print Msg.noSeatsReturn)
        | _ => some (s1.print Msg.invalidReturnDate)
      else some (s1.print Msg.noReturnTrips)
    else some s1
  | _ => none

/-- Function `bookFrequentBooking`, with `findFrequentBookings` inlined: the routes
saved for the user are copied into arrays of two slots. -/
def bookFrequentBooking (currentUser : user) (s : State) : Option State :=
  match s.frequentTxt with
  | none => some (s.print Msg.noFrequentBookings)
  | some lines =>
    let mine := lines.filter (fun l => l.username = currentUser.username)
    match mine with
    | [] => some (s.print Msg.noFrequentBookings)
    | _ :: _ :: _ :: _ => none
    | first :: others =>
      match s.stdin with
      | Tok.str _ :: _ => none
      | Tok.num tripChoice :: stdin =>
        let s1 : State := { s with stdin := stdin }
        if tripChoice < 1 ∨ tripChoice > mine.length then some (s1.print Msg.invalidSelection)
        else
          match mine[(tripChoice - 1).toNat]? with
          | none => none
          | some selected =>
            let onRoute : BusReservation → Bool := fun bus =>
              bus.busNumberPlate = selected.busNumberPlate ∧ bus.source = selected.source ∧
                bus.destination = selected.destination
            let availableDates := (s1.buses.filter onRoute).map (fun bus => bus.date)
            if availableDates.length = 0 then some (s1.print Msg.noAvailableDates)
            else
              match s1.stdin with
              | Tok.str _ :: _ => none
              | Tok.num dateChoice :: stdin2 =>
                let s2 : State := { s1 with stdin := stdin2 }
                if dateChoice < 1 ∨ dateChoice > availableDates.length then
                  some (s2.print Msg.invalidDateSelection)
                else
                  match availableDates[(dateChoice - 1).toNat]? with
                  | none => none
                  | some travelDate =>
                    match findIndex (fun bus => onRoute bus ∧ bus.date = travelDate)
                      s2.buses with
                    | none => some (s2.print Msg.noMatchingBusForDate)
                    | some busIndex =>
                      match s2.buses[busIndex]? with
                      | none => none
                      | some bus =>
                        match bookSeat bus s2 with
                        | none => none
                        | some r =>
                          let s3 : State :=
                            { r.state with buses := r.state.buses.set busIndex r.bus }
                          if r.ret > 0 then
                            match finalizeBooking currentUser s3 busIndex r.numSeats
                              r.seatNumbers s3.today 0 1 TripArrays.uninit with
                            | none => none
                            | some (s4, a) =>
                              match others with
                              | [second] =>
                                bookFrequentReturn currentUser s4 first second busIndex
                                  r.numSeats r.seatNumbers a
                              | _ => some s4
                          else some (s3.print Msg.noSeatsOutbound)
              | _ => some (s1.print Msg.invalidDateSelection)
      | _ => some (s.print Msg.invalidSelection)

/-- Function `processBooking`. The booking date is the current date. -/
def processBooking (currentUser : user) (s : State) : Option State :=
  match s.stdin with
  | Tok.str _ :: _ => none
  | Tok.num tripType :: stdin =>
    let s1 : State := { s with stdin := stdin }
    if tripType < 1 ∨ tripType > 4 then some (s1.print Msg.invalidChoice)
    else if tripType = 4 then some s1
    else if tripType = 3 then bookFrequentBooking currentUser s1
    else
      processBookingLoop currentUser s1.today tripType.toNat (s1.stdin.length + 1) 0 s1
        TripArrays.uninit
  | _ => some (s.print Msg.invalidChoice)

/-! ## Cancellation -/

/-- The search loop of `cancelBooking` on lines that read back as they were
written (user names that are not empty and hold no comma, where it is
`searchLedger`): the first line of `reservation.txt` whose ticket number and
username both match. -/
def findReservation : List Reservation → Int → String → Option Reservation
  | [], _, _ => none
  | line :: rest, ticketNumber, username =>
    if line.ticketNumber = ticketNumber ∧ line.username = username then some line
    else findReservation rest ticketNumber username

/-- The search loop of `cancelBooking` (lines 1951-1977) over the lines as
`saveReservation` writes them. The `fscanf` reads the user name up to the
first comma with `%49[^,]` and converts what follows that comma with `%d`;
when nothing is converted it returns less than 6 and the line is skipped.
A line whose name holds a comma followed by a number is read out of step,
which is not modelled. On lines whose user name is not empty and holds no
comma this is `findReservation`. -/
def searchLedger : List Reservation → Int → String → Option (Option Reservation)
  | [], _, _ => some none
  | line :: rest, ticketNumber, username =>
    match ticketField line with
    | Conv.nothing => searchLedger rest ticketNumber username
    | Conv.undefined => none
    | Conv.value fileTicketNumber =>
      if ',' ∈ line.username.toList then none
      else if fileTicketNumber = ticketNumber ∧ line.username = username then some (some line)
      else searchLedger rest ticketNumber username

/-- Function `logCancellation`: appends the cancellation record, with the refund as
its last field. -/
def logCancellation (s : State) (username : String) (ticketNumber : Int) (busID : Int)
    (busNumberPlate : String) (date : String) (numSeats : Int) (canceledSeats : List Int)
    (refundAmount : Rat) : State :=
  { s with
    cancellationsTxt := s.cancellationsTxt ++
      [⟨username, ticketNumber, busID, busNumberPlate, date, numSeats, canceledSeats,
        refundAmount⟩] }

/-- Step 3 of `updateFilesAfterCancellation` on one line of `buses.txt`: a
line that `sscanf` parses (departure and arrival of at most nine characters)
and that carries `busID` gets `numSeats` added to its available seats. -/
def updateBusLine (busID : Int) (numSeats : Int) (line : BusLine) : BusLine :=
  if line.departureTime.length ≤ 9 ∧ line.arrivalTime.length ≤ 9 ∧ line.busID = busID then
    { line with availableSeats := line.availableSeats + numSeats }
  else line

/-- Function `updateFilesAfterCancellation`: copies every matching line of
`reservation.txt` to `cancellations.txt` and drops it, rewrites `seats.txt`
from memory, and adds `numSeats` to the matching lines of `buses.txt`. -/
def updateFilesAfterCancellation (s : State) (busID : Int) (numSeats : Int)
    (ticketNumber : Int) (username : String) : State :=
  let isCanceled : Reservation → Bool := fun line =>
    line.ticketNumber = ticketNumber ∧ line.username = username
  let removed := s.reservationTxt.filter isCanceled
  let s1 : State :=
    { s with
      reservationTxt := s.reservationTxt.filter (fun line => !isCanceled line)
      cancellationsTxt := s.cancellationsTxt ++ removed }
  let s2 : State :=
    s1.print (if removed.length > 0 then Msg.reservationCanceled else Msg.reservationNotFound)
  { s2 with
    seatsTxt := s2.buses.map (fun bus => ⟨bus.busID, bus.reservedSeats⟩)
    busesTxt := s2.busesTxt.map (updateBusLine busID numSeats) }

/-- Function `cancelBooking`. A matching line whose seat list does not have
`numSeats` entries leaves `canceledSeats` or `totalFare` indeterminate. -/
def cancelBooking (currentUser : user) (s : State) : Option State :=
  match s.stdin with
  | Tok.num ticketNumber :: stdin =>
    let s1 : State := { s with stdin := stdin }
    match findReservation s1.reservationTxt ticketNumber currentUser.username with
    | none => some (s1.print (Msg.noBookingFound ticketNumber))
    | some line =>
      if line.seatNumbers.length ≠ line.numSeats.toNat then none
      else
        match s1.stdin with
        | Tok.chr confirm :: stdin2 =>
          let s2 : State := { s1 with stdin := stdin2 }
          if confirm ≠ 'Y' ∧ confirm ≠ 'y' then some (s2.print Msg.cancellationAborted)
          else
            let s3 := notifyBoth s2 currentUser "Cancellation" ticketNumber
            let s4 : State :=
              match findBus s3.buses line.busID with
              | none => s3
              | some i =>
                match s3.buses[i]? with
                | none => s3
                | some bus =>
                  { s3 with
                    buses := s3.buses.set i (cancelRelease bus line.numSeats line.seatNumbers) }
            let s5 := logCancellation s4 currentUser.username ticketNumber line.busID
              line.busNumberPlate line.bookingDate line.numSeats line.seatNumbers
              line.finalAmount
            let s6 := updateFilesAfterCancellation s5 line.busID line.numSeats ticketNumber
              currentUser.username
            some (s6.print (Msg.cancelSuccessRefund line.finalAmount))
        | _ => none
  | _ => none

/-! ## Predicates used in the statements -/

/-- The capacity invariant of a trip:
`availableSeats + reservedCount == totalSeats`. -/
def CapacityInv (bus : BusReservation) : Prop := bus.availableSeats + bus.reservedCount = bus.totalSeats

instance (bus : BusReservation) : Decidable (CapacityInv bus) := by
  unfold CapacityInv; infer_instance

/-- The seat state of every trip: `availableSeats` and the `reservedSeats`
sequence. -/
def seatView (s : State) : List (Int × List Int) :=
  s.buses.map (fun bus => (bus.availableSeats, bus.reservedSeats))

/-- All ticket numbers of a ledger are pairwise distinct and six digits long. -/
def TicketInv (ledger : List Reservation) : Prop :=
  (ledger.map (fun line => line.ticketNumber)).Nodup ∧
    ∀ line ∈ ledger, 100000 ≤ line.ticketNumber ∧ line.ticketNumber ≤ 999999

instance (ledger : List Reservation) : Decidable (TicketInv ledger) := by
  unfold TicketInv; infer_instance

/-- The bus a successful `bookSeat` leaves behind. -/
def bookedBus (bus : BusReservation) (numSeats : Int) (seats : List Int) (ticketNumber : Int) : BusReservation :=
  { bus with
    reservedSeats := bus.reservedSeats ++ seats
    ticketNumbers := writeAt bus.ticketNumbers bus.bookingCount ticketNumber
    seatCounts := writeAt bus.seatCounts bus.bookingCount numSeats
    bookingCount := bus.bookingCount + 1
    availableSeats := bus.availableSeats - numSeats }

/-! ## Scenarios

Concrete trips, users and states on which the functions are evaluated. -/

/-- Trip A: bus 1, 40 seats, all free, fare 30.00. -/
def tripA : BusReservation :=
  { busID := 1, busNumberPlate := "WXY1234", date := "2025-03-01", source := "KL",
    destination := "Penang", departureTime := "08:00", arrivalTime := "12:00",
    totalSeats := 40, availableSeats := 40, fare := 30, reservedSeats := [],
    ticketNumbers := [], seatCounts := [], bookingCount := 0 }

/-- Trip B: bus 2, 40 seats, all free, fare 45.00. -/
def tripB : BusReservation :=
  { busID := 2, busNumberPlate := "JKL5678", date := "2025-03-05", source := "Penang",
    destination := "KL", departureTime := "09:00", arrivalTime := "13:00",
    totalSeats := 40, availableSeats := 40, fare := 45, reservedSeats := [],
    ticketNumbers := [], seatCounts := [], bookingCount := 0 }

/-- Trip A with seats 3 and 4 already reserved. -/
def tripA34 : BusReservation := { tripA with availableSeats := 38, reservedSeats := [3, 4] }

/-- A trip of 60 seats, all free, as `addBusSchedule` stores it for a bus
entered with 60 seats. -/
def trip60 : BusReservation := { tripA with totalSeats := 60, availableSeats := 60 }

/-- The seat numbers 1 to 10. -/
def seats10 : List Int := (List.range 10).map (fun i => (i : Int) + 1)

/-- The trip of 60 seats after a booking has held seats 1 to 10. -/
def held60 : BusReservation :=
  { trip60 with availableSeats := 50, reservedSeats := seats10, bookingCount := 1 }

/-- A request of 41 seat numbers: seats 11 to 50 and seat 11 again. -/
def seats41 : List Int := (List.range 40).map (fun i => (i : Int) + 11) ++ [11]

/-- A registered user. -/
def ann : user :=
  { username := "ann", password := "pw", email := "ann@mail.com", phone := "0123456789",
    address := "KL" }

/-- A state with the given buses in memory and on file, the given active
ledger, input and random draws, and everything else empty. -/
def mkState (buses : List BusReservation) (ledger : List Reservation) (stdin : List Tok)
    (rand : List Nat) : State :=
  { buses := buses, reservationTxt := ledger, cancellationsTxt := [],
    busesTxt := buses.map BusReservation.toLine,
    seatsTxt := buses.map (fun bus => ⟨bus.busID, bus.reservedSeats⟩),
    emailTxt := [], smsTxt := [], frequentTxt := none, seatCounts := (0, 0),
    seatNumbersForAllTrips := (none, none), stdin := stdin, rand := rand, stdout := [],
    today := "2025-02-20" }

/-- A ledger line of `ann` for ticket 123456: seat 7 of bus 1. -/
def annSeat7 : Reservation :=
  { username := "ann", ticketNumber := 123456, busID := 1, busNumberPlate := "WXY1234",
    bookingDate := "2025-02-01", numSeats := 1, seatNumbers := [7], finalAmount := 159 / 5 }

/-- Everything the program keeps (memory, files, statics, random generator,
date), with the input consumed and the text printed left out. -/
def State.stores (s : State) : State := { s with stdin := [], stdout := [] }

/-- Trip A with seat 7 reserved, the seat of ledger line `annSeat7`. -/
def tripA7 : BusReservation := { tripA with availableSeats := 39, reservedSeats := [7] }

/-- What the claims observe of a state: the seat state of every trip, the
active ledger and the messages printed. -/
def observe (s : State) : List (Int × List Int) × List Reservation × List Msg :=
  (seatView s, s.reservationTxt, s.stdout)

/-- A sixteen-digit card number, as read by `%s`. -/
def card : Tok := Tok.str "1234567812345678"

/-- Input of a round trip: seats 5 and 6 on bus 1, then seat 1 on bus 2,
followed by `answer`. -/
def roundTripInput (answer : List Tok) : List Tok :=
  [Tok.num 2, Tok.num 1, Tok.num 2, Tok.num 5, Tok.num 6, Tok.num 2, Tok.num 1, Tok.num 1] ++
    answer

/-- The bus array after the seat release of `cancelBooking` for ledger line
`line`: the first bus with the line's `busID`, if any, is released. -/
def releasedBuses (buses : List BusReservation) (line : Reservation) : List BusReservation :=
  match findBus buses line.busID with
  | none => buses
  | some i =>
    match buses[i]? with
    | none => buses
    | some bus => buses.set i (cancelRelease bus line.numSeats line.seatNumbers)

/-- The test of `cancelBooking` and `updateFilesAfterCancellation` on a ledger
line: ticket number and username both match. -/
def isCanceled (ticketNumber : Int) (username : String) (line : Reservation) : Bool :=
  line.ticketNumber = ticketNumber ∧ line.username = username

/-- The state `cancelBooking` returns after a confirmed cancellation of the
ledger line `line` found for `ticketNumber`, with `rest` the input left. -/
def confirmedCancel (currentUser : user) (s : State) (ticketNumber : Int) (rest : List Tok)
    (line : Reservation) : State :=
  State.print
    (updateFilesAfterCancellation
      (logCancellation
        { s with
          stdin := rest
          buses := releasedBuses s.buses line
          emailTxt := s.emailTxt ++ [⟨currentUser.email, "email", "Cancellation", ticketNumber⟩]
          smsTxt := s.smsTxt ++ [⟨currentUser.phone, "sms", "Cancellation", ticketNumber⟩] }
        currentUser.username ticketNumber line.busID line.busNumberPlate line.bookingDate
        line.numSeats line.seatNumbers line.finalAmount)
      line.busID line.numSeats ticketNumber currentUser.username)
    (Msg.cancelSuccessRefund line.finalAmount)

/-- A ledger line of `bob` for ticket 654321: seat 9 of bus 1. -/
def bobSeat9 : Reservation :=
  { username := "bob", ticketNumber := 654321, busID := 1, busNumberPlate := "WXY1234",
    bookingDate := "2025-02-02", numSeats := 1, seatNumbers := [9], finalAmount := 159 / 5 }

/-- The seat-set invariant of a trip: the elements of `reservedSeats` are
pairwise distinct and each lies in `[1, totalSeats]`. -/
def SeatSetInv (bus : BusReservation) : Prop :=
  bus.reservedSeats.Nodup ∧ ∀ x ∈ bus.reservedSeats, 1 ≤ x ∧ x ≤ bus.totalSeats

instance (bus : BusReservation) : Decidable (SeatSetInv bus) := by
  unfold SeatSetInv; infer_instance

/-- Trip C: bus 3, 40 seats, all free, fare 50.00. -/
def tripC : BusReservation :=
  { busID := 3, busNumberPlate := "PQR4321", date := "2025-03-09", source := "KL",
    destination := "Ipoh", departureTime := "07:30", arrivalTime := "10:00",
    totalSeats := 40, availableSeats := 40, fare := 50, reservedSeats := [],
    ticketNumbers := [], seatCounts := [], bookingCount := 0 }

/-- Input of a one-way booking of seats 1, 2 and 3 on bus 3, followed by
`answer`. -/
def oneWayInput (answer : List Tok) : List Tok :=
  [Tok.num 1, Tok.num 3, Tok.num 3, Tok.num 1, Tok.num 2, Tok.num 3] ++ answer

/-- Trip C after `bookSeat` has held seats 1, 2 and 3 under its own draw
100000. -/
def tripC37 : BusReservation := bookedBus tripC 3 [1, 2, 3] 100000

/-- The ledger line of the committed one-way booking of the C11 scenario:
ticket 100001, seats 1, 2 and 3 of bus 3, amount 159.00. -/
def annTripC : Reservation :=
  { username := "ann", ticketNumber := 100001, busID := 3, busNumberPlate := "PQR4321",
    bookingDate := "2025-02-20", numSeats := 3, seatNumbers := [1, 2, 3], finalAmount := 159 }

/-- A registered user whose name holds a comma: `registerUser` reads the
name with `scanf("%s", ...)`, which stops at white space only. -/
def cab : user :=
  { username := "a,b", password := "pw", email := "cab@mail.com", phone := "0112223334",
    address := "Ipoh" }

/-- The ledger line of a one-way booking of `cab`: ticket 100005, seats 1, 2
and 3 of bus 3, amount 159.00. It is written as
`a,b,100005,3,PQR4321,2025-02-20,3,1 2 3 ,159.00`. -/
def cabTripC : Reservation :=
  { username := "a,b", ticketNumber := 100005, busID := 3, busNumberPlate := "PQR4321",
    bookingDate := "2025-02-20", numSeats := 3, seatNumbers := [1, 2, 3], finalAmount := 159 }

/-- The state in which `bookSeat` has held seats 1, 2 and 3 of trip C and
`finalizeBooking` is about to run, with `answer` on the input. -/
def heldOneWay (answer : List Tok) : State :=
  { mkState [tripC] [] answer [1] with buses := [tripC37] }

/-- The state after the one-way booking of the C11 scenario is paid by card
and committed. -/
def paidOneWay : State :=
  { mkState [tripC37] [annTripC] [] [] with
    emailTxt := [⟨"ann@mail.com", "email", "Confirmation", 100001⟩]
    smsTxt := [⟨"0123456789", "sms", "Confirmation", 100001⟩]
    seatCounts := (3, 0)
    stdout := [Msg.bookingSummary, Msg.paymentCompleted 159, Msg.paymentSuccessful,
      Msg.bookingSuccessful] }

/-- The caller's arrays after that booking. -/
def paidArrays : TripArrays := ⟨(some 100001, none), (some 159, none), (some 0, none)⟩

/-- The state after `ann` has cancelled ticket 123456 (seat 7 of trip A):
the active ledger is empty, `cancellations.txt` holds the record of
`logCancellation` and the copied ledger line, and the next value of `rand()`
is 23456. -/
def canceledAnn : State :=
  { mkState [tripA] [] [] [23456] with
    cancellationsTxt := [annSeat7, annSeat7]
    emailTxt := [⟨"ann@mail.com", "email", "Cancellation", 123456⟩]
    smsTxt := [⟨"0123456789", "sms", "Cancellation", 123456⟩]
    stdout := [Msg.reservationCanceled, Msg.cancelSuccessRefund (159 / 5)] }

/-- The state after the one-way booking of seats 1, 2 and 3 on trip C is
declined at the proceed prompt: trip C as before, the ledger empty, the
`static` seat count left behind, and no random draw left of the two
supplied. -/
def declinedOneWay : State :=
  { mkState [tripC] [] [] [] with
    seatCounts := (3, 0)
    stdout := [Msg.bookingSummary, Msg.bookingCanceled] }

/-- What `bookSeat` returns when it holds seats 1, 2 and 3 of trip C with
the draw 0, leaving the answer `N` on the input and the draw 1. -/
def heldResult : BookSeatResult :=
  ⟨100000, tripC37, [1, 2, 3], 3, mkState [tripC] [] [Tok.chr 'N'] [1]⟩

/-! ## The ledger rewrite as file-system steps -/

/-- The three files that step 1 of `updateFilesAfterCancellation` touches;
`none` is a file that does not exist. -/
structure LedgerFiles where
  reservationTxt : Option (List Reservation)
  tempTxt : Option (List Reservation)
  cancellationsTxt : Option (List Reservation)
  deriving DecidableEq, Repr

/-- The `while (fgets(...))` loop of step 1 over the lines of the old
ledger: a line with the ticket number and the username is appended to
`cancellations.txt` (opened in append mode, which creates it), every other
line is written to `temp.txt`. The result lists the files after each line.
A write counts as done when `fputs` is called. -/
def copyLoop (ticketNumber : Int) (username : String) :
    List Reservation → LedgerFiles → List LedgerFiles
  | [], _ => []
  | line :: rest, f =>
    let f1 : LedgerFiles :=
      if line.ticketNumber = ticketNumber ∧ line.username = username then
        { f with cancellationsTxt := some (f.cancellationsTxt.getD [] ++ [line]) }
      else { f with tempTxt := some (f.tempTxt.getD [] ++ [line]) }
    f1 :: copyLoop ticketNumber username rest f1

/-- Step 1 of `updateFilesAfterCancellation` as the sequence of states the
files go through: the files as found, `fopen("temp.txt", "w")`, the copy
loop, `remove("reservation.txt")`, and
`rename("temp.txt", "reservation.txt")`. When `reservation.txt` cannot be
opened the function returns after creating `temp.txt`. -/
def rewriteSteps (f : LedgerFiles) (ticketNumber : Int) (username : String) :
    List LedgerFiles :=
  let f1 : LedgerFiles := { f with tempTxt := some [] }
  match f.reservationTxt with
  | none => [f, f1]
  | some old =>
    let copied := copyLoop ticketNumber username old f1
    let f2 : LedgerFiles := copied.getLast?.getD f1
    let f3 : LedgerFiles := { f2 with reservationTxt := none }
    let f4 : LedgerFiles := { f3 with reservationTxt := f3.tempTxt, tempTxt := none }
    [f, f1] ++ copied ++ [f3, f4]

/-- The seats the active ledger lists for trip `busID`, in ledger order. -/
def ledgerSeats (ledger : List Reservation) (busID : Int) : List Int :=
  ((ledger.filter (fun l => l.busID = busID)).map (fun l => l.seatNumbers)).flatten

/-- Cross-store consistency: for every trip of the seat-occupancy store
(`seats.txt`) the seats the active ledger lists for the trip are exactly the
trip's reserved seats, and for every trip of the trip store (`buses.txt`)
`availableSeats` is `totalSeats` minus their number. -/
def StoresAgree (s : State) : Prop :=
  (∀ line ∈ s.seatsTxt, (ledgerSeats s.reservationTxt line.busID).Perm line.reservedSeats) ∧
    ∀ line ∈ s.busesTxt,
      line.availableSeats =
        line.totalSeats - ((ledgerSeats s.reservationTxt line.busID).length : Int)

instance (s : State) : Decidable (StoresAgree s) := by
  unfold StoresAgree; infer_instance

/-- A state in which `ann` has two saved frequent routes, KL to Penang on
the plate of trip A and Penang to KL on the plate of trip B, with both trips
free and the ledger empty. -/
def frequentState (stdin : List Tok) (rand : List Nat) : State :=
  { mkState [tripA, tripB] [] stdin rand with
    frequentTxt := some [⟨"ann", "WXY1234", "KL", "Penang"⟩, ⟨"ann", "JKL5678", "Penang", "KL"⟩] }

/-- Input of a booking from the first frequent route: route 1, date 1,
seats 5 and 6, proceed, payment by card; followed by `answer`. -/
def frequentInput (answer : List Tok) : List Tok :=
  [Tok.num 1, Tok.num 1, Tok.num 2, Tok.num 5, Tok.num 6, Tok.chr 'Y', Tok.num 1, card] ++
    answer

/-! ## Loading the stores -/

/-- Maximum number of buses in the system. -/
def MAX_BUSES : Nat := 100

/-- The array `buses[MAX_BUSES]` of `main`, slot by slot. `main` does not
initialise it: a load starts from whatever the slots hold. -/
abbrev BusArray := Nat → BusReservation

/-- The fields `loadBuses` reads from one line of `buses.txt` into a slot,
and `reservedCount = 0`; the other fields of the slot stay as they are. -/
def readBusLine (slot : BusReservation) (line : BusLine) : BusReservation :=
  { slot with
    busID := line.busID
    busNumberPlate := line.busNumberPlate
    date := line.date
    source := line.source
    destination := line.destination
    departureTime := line.departureTime
    arrivalTime := line.arrivalTime
    totalSeats := line.totalSeats
    availableSeats := line.availableSeats
    fare := line.fare
    reservedSeats := [] }

/-- The loop of `loadBuses`: `while (count < maxBuses && fscanf(...) == 10)`
over the lines of `buses.txt`. -/
def loadBusesLoop (maxBuses : Nat) : List BusLine → Nat → BusArray → BusArray × Nat
  | [], count, buses => (buses, count)
  | line :: rest, count, buses =>
    if count < maxBuses then
      loadBusesLoop maxBuses rest (count + 1)
        (fun k => if k = count then readBusLine (buses count) line else buses k)
    else (buses, count)

/-- Function `loadBuses`: the array after the load and the number of buses
loaded. -/
def loadBuses (buses : BusArray) (busesTxt : List BusLine) (maxBuses : Nat) : BusArray × Nat :=
  loadBusesLoop maxBuses busesTxt 0 buses

/-- What `loadSeats` reads from one record of `seats.txt` into a slot: the
trip ID, the reserved count and that many seat numbers. -/
def readSeatLine (slot : BusReservation) (line : SeatLine) : BusReservation :=
  { slot with busID := line.busID, reservedSeats := line.reservedSeats }

/-- The loop of `loadSeats`: every record is read into slot `count`, then
`count` is incremented and the loop stops once `count >= maxBuses`. -/
def loadSeatsLoop (maxBuses : Nat) : List SeatLine → Nat → BusArray → BusArray × Nat
  | [], count, buses => (buses, count)
  | line :: rest, count, buses =>
    let buses1 : BusArray :=
      fun k => if k = count then readSeatLine (buses count) line else buses k
    if count + 1 ≥ maxBuses then (buses1, count + 1)
    else loadSeatsLoop maxBuses rest (count + 1) buses1

/-- Function `loadSeats`: the array after the load and the number of records
read. -/
def loadSeats (buses : BusArray) (seatsTxt : List SeatLine) (maxBuses : Nat) : BusArray × Nat :=
  loadSeatsLoop maxBuses seatsTxt 0 buses

/-- The start of `main`: `loadBuses` followed by `loadSeats` on the same
array; the buses of the program are the first `busCount` slots, `busCount`
being what `loadBuses` returned. -/
def loadStores (memory : BusArray) (busesTxt : List BusLine) (seatsTxt : List SeatLine) :
    List BusReservation :=
  let loaded := loadBuses memory busesTxt MAX_BUSES
  let seated := loadSeats loaded.1 seatsTxt MAX_BUSES
  (List.range loaded.2).map seated.1

/-- What the two stores keep of a trip: its line of `buses.txt` and its
reserved seats. -/
def persisted (bus : BusReservation) : BusLine × List Int := (bus.toLine, bus.reservedSeats)

/-! ## The sort of `generateBusReport` -/

/-- The test of the exchange sort: `strcmp` of the number plates is
positive, or it is zero and `strcmp` of the dates is positive. Strings are
ordered character by character, as `strcmp` orders them. -/
def outOfOrder (x y : BusReservation) : Bool :=
  decide (x.busNumberPlate > y.busNumberPlate ∨
    (x.busNumberPlate = y.busNumberPlate ∧ x.date > y.date))

/-- The inner loop `for (j = i + 1; j < busCount; j++)` at outer index `i`,
with `steps` iterations left and `j` the current index: `buses[i]` and
`buses[j]` are exchanged when they are out of order. -/
def sortInner (i : Nat) : Nat → Nat → List BusReservation → List BusReservation
  | 0, _, buses => buses
  | steps + 1, j, buses =>
    match buses[i]?, buses[j]? with
    | some x, some y =>
      if outOfOrder x y then sortInner i steps (j + 1) ((buses.set i y).set j x)
      else sortInner i steps (j + 1) buses
    | _, _ => sortInner i steps (j + 1) buses

/-- The outer loop `for (i = 0; i < busCount - 1; i++)`, with `steps`
iterations left and `i` the current index. -/
def sortOuter : Nat → Nat → List BusReservation → List BusReservation
  | 0, _, buses => buses
  | steps + 1, i, buses =>
    sortOuter steps (i + 1) (sortInner i (buses.length - (i + 1)) (i + 1) buses)

/-- The in-place exchange sort at the start of `generateBusReport`. -/
def sortBuses (buses : List BusReservation) : List BusReservation :=
  sortOuter (buses.length - 1) 0 buses

/-- The order the sort aims at: plate ascending and, for equal plates, date
ascending. -/
def plateDateLe (x y : BusReservation) : Prop :=
  x.busNumberPlate < y.busNumberPlate ∨
    (x.busNumberPlate = y.busNumberPlate ∧ x.date ≤ y.date)

/-- One run of the inner loop seen on the part of the array from index `i`
on: `x` is the current `buses[i]`, `done` the elements already compared, in
array order. The result is the final `buses[i]` and the elements after it. -/
def passList (x : BusReservation) (done : List BusReservation) :
    List BusReservation → BusReservation × List BusReservation
  | [] => (x, done)
  | y :: rest =>
    if outOfOrder x y then passList y (done ++ [x]) rest else passList x (done ++ [y]) rest

/-- The outer loop seen on the part of the array from index `i` on. -/
def sortList : Nat → List BusReservation → List BusReservation
  | 0, buses => buses
  | _ + 1, [] => []
  | steps + 1, x :: rest => (passList x [] rest).1 :: sortList steps (passList x [] rest).2

/-- A request that passes every check of `bookSeat` and fits its arrays: a
positive count of at most `availableSeats`, that many seat numbers, each in
`[1, MAX_SEATS]` and not reserved, room for them in `reservedSeats`, and
`bookingCount` inside the booking tables. -/
def ValidRequest (bus : BusReservation) (numSeats : Int) (seats : List Int) : Prop :=
  0 < numSeats ∧ (seats.length : Int) = numSeats ∧ numSeats ≤ bus.availableSeats ∧
    (∀ x ∈ seats, 1 ≤ x ∧ x ≤ MAX_SEATS ∧ x ∉ bus.reservedSeats) ∧
    bus.reservedCount + numSeats ≤ MAX_SEATS ∧
    0 ≤ bus.bookingCount ∧ bus.bookingCount < MAX_BOOKINGS

instance (bus : BusReservation) (numSeats : Int) (seats : List Int) :
    Decidable (ValidRequest bus numSeats seats) := by
  unfold ValidRequest; infer_instance

/-! ## The fare in the program's arithmetic -/

/-- Rounding to the nearest integer, ties to the even one. -/
def roundHalfEven (x : Rat) : Int :=
  if x - ⌊x⌋ < 1 / 2 then ⌊x⌋
  else if 1 / 2 < x - ⌊x⌋ then ⌊x⌋ + 1
  else if ⌊x⌋ % 2 = 0 then ⌊x⌋ else ⌊x⌋ + 1

/-- Rounding of a value to the IEEE 754 binary format with `p` significant
bits and least normal exponent `emin`, to nearest, ties to even: the value
is rounded to a multiple of the unit in the last place of its binade, and
below `2 ^ emin` to a multiple of the least unit (gradual underflow).
Overflow to infinity is not modelled. -/
def roundBinary (p : Nat) (emin : Int) (x : Rat) : Rat :=
  let e := max (Int.log 2 |x|) emin
  let ulp : Rat := (2 : Rat) ^ (e - ((p : Int) - 1))
  roundHalfEven (x / ulp) * ulp

/-- Rounding to `float` (binary32). -/
def roundFloat (x : Rat) : Rat := roundBinary 24 (-126) x

/-- Rounding to `double` (binary64). -/
def roundDouble (x : Rat) : Rat := roundBinary 53 (-1022) x

/-- Function `calculateFare` as the program computes it, every expression evaluated in
the format of its type: `numSeats` is converted to `float` and multiplied by
`farePerSeat` in `float`; `tripFare * SST_RATE` is a `double` product, of
the `double` nearest to `0.06`, and is converted to `float` by the
assignment to `sst`; the sum is a `float` sum. `finalizeBooking` computes
`finalAmount` with the same three statements. -/
def calculateFareFloat (numSeats : Int) (farePerSeat : Rat) : Rat :=
  let tripFare := roundFloat (roundFloat numSeats * farePerSeat)
  let sst := roundFloat (roundDouble (tripFare * roundDouble SST_RATE))
  roundFloat (tripFare + sst)

/-! ## Lemmas on ticket numbers -/

/-- A line is readable when the ticket field `IsUnique` reads from it is the
ticket number written: the user name is not empty and holds no comma. -/
theorem ticketField_of_no_comma (line : Reservation) (hne : line.username ≠ "")
    (hc : ',' ∉ line.username.toList) : ticketField line = Conv.value line.ticketNumber := by
  unfold ticketField
  have hl : line.username.toList ≠ [] := by
    intro h
    apply hne
    exact String.ext h
  have hall : ∀ c ∈ line.username.toList, (decide (c ≠ ',')) = true := by
    intro c hcm
    simp only [decide_eq_true_eq]
    rintro rfl
    exact hc hcm
  have htake : line.username.toList.takeWhile (fun c => decide (c ≠ ',')) =
      line.username.toList := List.takeWhile_eq_self_iff.2 hall
  have hdrop : line.username.toList.dropWhile (fun c => decide (c ≠ ',')) = [] :=
    List.dropWhile_eq_nil_iff.2 hall
  simp only [htake, hl, if_false, hdrop]

theorem scanTickets_readable (t : Int) (ledger : List Reservation)
    (hread : ∀ line ∈ ledger, ticketField line = Conv.value line.ticketNumber)
    (e : Option Int) :
    scanTickets t e ledger = some (decide (∀ line ∈ ledger, line.ticketNumber ≠ t)) := by
  induction ledger generalizing e with
  | nil => simp [scanTickets]
  | cons line rest ih =>
    have h1 := hread line (by simp)
    have h2 : ∀ l ∈ rest, ticketField l = Conv.value l.ticketNumber :=
      fun l hl => hread l (by simp [hl])
    by_cases h : line.ticketNumber = t
    · simp [scanTickets, h1, h]
    · simp [scanTickets, h1, h, ih h2]

/-- On a ledger of readable lines `IsUnique` answers whether the number is on
no line. -/
theorem IsUnique_readable (ledger : List Reservation) (t : Int)
    (hread : ∀ line ∈ ledger, ticketField line = Conv.value line.ticketNumber) :
    IsUnique ledger t = some (decide (∀ line ∈ ledger, line.ticketNumber ≠ t)) :=
  scanTickets_readable t ledger hread none

theorem scanTickets_true (t : Int) (ledger : List Reservation) (e : Option Int)
    (h : scanTickets t e ledger = some true) :
    ∀ line ∈ ledger, ∀ v, ticketField line = Conv.value v → v ≠ t := by
  induction ledger generalizing e with
  | nil => simp
  | cons line rest ih =>
    intro l hl v hv
    simp only [scanTickets] at h
    split at h
    · simp at h
    · rename_i v1 hf
      split at h
      · simp at h
      · rename_i hne
        rcases List.mem_cons.1 hl with hl | hl
        · subst hl
          rw [hf] at hv
          simp only [Conv.value.injEq] at hv
          omega
        · exact ih _ h l hl v hv
    · rename_i hf
      split at h
      · simp at h
      · split at h
        · simp at h
        · rcases List.mem_cons.1 hl with hl | hl
          · subst hl
            rw [hf] at hv
            simp at hv
          · exact ih _ h l hl v hv

/-- When `IsUnique` answers `true`, the number differs from every ticket
field the scan has read; a line whose field is not read is not compared. -/
theorem IsUnique_true (ledger : List Reservation) (t : Int)
    (h : IsUnique ledger t = some true) :
    ∀ line ∈ ledger, ∀ v, ticketField line = Conv.value v → v ≠ t :=
  scanTickets_true t ledger none h

theorem drawTicket_some (ledger : List Reservation) (draws : List Nat) (t : Int)
    (rest : List Nat) (h : drawTicket ledger draws = some (t, rest)) :
    100000 ≤ t ∧ t ≤ 999999 ∧ IsUnique ledger t = some true ∧
      ∃ used : List Nat, used ≠ [] ∧ draws = used ++ rest := by
  induction draws with
  | nil => simp [drawTicket] at h
  | cons r more ih =>
    simp only [drawTicket] at h
    split at h
    · simp at h
    · rename_i hu
      simp only [Option.some.injEq, Prod.mk.injEq] at h
      obtain ⟨ht, hrest⟩ := h
      subst ht; subst hrest
      refine ⟨by omega, by omega, hu, [r], by simp, by simp⟩
    · obtain ⟨h1, h2, h3, used, _, hused⟩ := ih h
      exact ⟨h1, h2, h3, r :: used, by simp, by simp [hused]⟩

/-- While every value drawn collides with the ledger, the loop goes on to
the next draw: no finite number of colliding draws makes it return. -/
theorem drawTicket_all_collide (ledger : List Reservation) (draws : List Nat)
    (h : ∀ x ∈ draws, IsUnique ledger (100000 + (x : Int) % 900000) = some false) :
    drawTicket ledger draws = none := by
  induction draws with
  | nil => rfl
  | cons r more ih =>
    have hr : IsUnique ledger (100000 + (r : Int) % 900000) = some false := h r (by simp)
    have hmore : ∀ x ∈ more, IsUnique ledger (100000 + (x : Int) % 900000) = some false :=
      fun x hx => h x (by simp [hx])
    simp [drawTicket, hr, ih hmore]

/-- The loop returns the first drawn number that is not in the ledger, after
the colliding draws before it. -/
theorem drawTicket_first_free (ledger : List Reservation) (pre : List Nat) (r : Nat)
    (rest : List Nat)
    (hpre : ∀ x ∈ pre, IsUnique ledger (100000 + (x : Int) % 900000) = some false)
    (hr : IsUnique ledger (100000 + (r : Int) % 900000) = some true) :
    drawTicket ledger (pre ++ r :: rest) = some (100000 + (r : Int) % 900000, rest) := by
  induction pre with
  | nil => simp [drawTicket, hr]
  | cons x more ih =>
    have hx : IsUnique ledger (100000 + (x : Int) % 900000) = some false := hpre x (by simp)
    have hmore : ∀ y ∈ more, IsUnique ledger (100000 + (y : Int) % 900000) = some false :=
      fun y hy => hpre y (by simp [hy])
    simp [drawTicket, hx, ih hmore]

theorem generateTicketNumber_some (s s1 : State) (t : Int)
    (h : generateTicketNumber s = some (t, s1)) :
    100000 ≤ t ∧ t ≤ 999999 ∧ IsUnique s.reservationTxt t = some true ∧
      s1 = { s with rand := s1.rand } := by
  unfold generateTicketNumber at h
  split at h
  · simp at h
  · rename_i t0 rest hd
    simp only [Option.some.injEq, Prod.mk.injEq] at h
    obtain ⟨ht, hs⟩ := h
    subst ht; subst hs
    obtain ⟨h1, h2, h3, _⟩ := drawTicket_some _ _ _ _ hd
    exact ⟨h1, h2, h3, rfl⟩

/-! ## Lemmas on the seat-reading loop -/

theorem readSeats_ok (reserved : List Int) (k : Nat) (stdin : List Tok) (acc : List Int)
    (out : List Int) (stdin1 : List Tok)
    (h : readSeats reserved k stdin acc = SeatScan.ok out stdin1) :
    ∃ seats : List Int, out = acc ++ seats ∧ seats.length = k ∧
      stdin = seats.map Tok.num ++ stdin1 ∧
      ∀ x ∈ seats, 1 ≤ x ∧ x ≤ MAX_SEATS ∧ x ∉ reserved := by
  induction k generalizing stdin acc with
  | zero =>
    simp only [readSeats, SeatScan.ok.injEq] at h
    exact ⟨[], by simp [h.1], rfl, by simp [h.2], by simp⟩
  | succ k ih =>
    match stdin with
    | [] => simp [readSeats] at h
    | Tok.chr _ :: _ => simp [readSeats] at h
    | Tok.str _ :: _ => simp [readSeats] at h
    | Tok.num seat :: more =>
      simp only [readSeats] at h
      split at h
      · simp at h
      · split at h
        · simp at h
        · rename_i hr
          split at h
          · simp at h
          · rename_i hm
            obtain ⟨seats, h1, h2, h3, h4⟩ := ih more (acc ++ [seat]) h
            refine ⟨seat :: seats, by simp [h1], by simp [h2], by simp [h3], ?_⟩
            intro x hx
            rcases List.mem_cons.1 hx with hx | hx
            · subst hx
              exact ⟨by omega, by omega, hm⟩
            · exact h4 x hx

/-- The three outcomes of the scan of a whole request: it leaves the caller's
array, it stores every seat (all are in `[1, MAX_SEATS]` and free), or it
stops at a seat outside `[1, MAX_SEATS]` or already reserved. -/
theorem readSeats_scan (reserved : List Int) (seats : List Int) (rest : List Tok)
    (acc : List Int) :
    ((acc.length : Int) + seats.length > MAX_SEATS ∧
        readSeats reserved seats.length (seats.map Tok.num ++ rest) acc = SeatScan.undefined) ∨
      ((∀ x ∈ seats, 1 ≤ x ∧ x ≤ MAX_SEATS ∧ x ∉ reserved) ∧
        readSeats reserved seats.length (seats.map Tok.num ++ rest) acc =
          SeatScan.ok (acc ++ seats) rest) ∨
      ((∃ x ∈ seats, x < 1 ∨ x > MAX_SEATS ∨ x ∈ reserved) ∧
        ∃ seat out stdin1,
          readSeats reserved seats.length (seats.map Tok.num ++ rest) acc =
              SeatScan.outOfRange seat out stdin1 ∨
            readSeats reserved seats.length (seats.map Tok.num ++ rest) acc =
              SeatScan.alreadyBooked seat out stdin1) := by
  induction seats generalizing acc with
  | nil => right; left; simp [readSeats]
  | cons seat more ih =>
    by_cases hidx : (acc.length : Int) ≥ MAX_SEATS
    · left
      refine ⟨?_, ?_⟩
      · simp only [List.length_cons]
        push_cast
        omega
      · simp [readSeats, hidx]
    · by_cases hr : seat < 1 ∨ seat > MAX_SEATS
      · right; right
        refine ⟨⟨seat, by simp, ?_⟩, seat, acc ++ [seat], more.map Tok.num ++ rest, Or.inl ?_⟩
        · rcases hr with hr | hr
          · exact Or.inl hr
          · exact Or.inr (Or.inl hr)
        · simp [readSeats, hidx, hr]
      · by_cases hm : seat ∈ reserved
        · right; right
          refine ⟨⟨seat, by simp, Or.inr (Or.inr hm)⟩, seat, acc ++ [seat],
            more.map Tok.num ++ rest, Or.inr ?_⟩
          simp [readSeats, hidx, hr, hm]
        · have hstep : readSeats reserved (seat :: more).length
              ((seat :: more).map Tok.num ++ rest) acc =
              readSeats reserved more.length (more.map Tok.num ++ rest) (acc ++ [seat]) := by
            simp only [List.length_cons, List.map_cons, List.cons_append, readSeats, hidx, hr,
              hm, if_false]
            rfl
          rw [hstep]
          rcases ih (acc ++ [seat]) with ⟨h1, h2⟩ | ⟨h1, h2⟩ | ⟨⟨x, hx, hxb⟩, h2⟩
          · left
            refine ⟨?_, h2⟩
            simp only [List.length_cons, List.length_append, List.length_nil] at h1 ⊢
            push_cast at h1 ⊢
            omega
          · right; left
            refine ⟨?_, by simpa using h2⟩
            intro x hx
            rcases List.mem_cons.1 hx with hx | hx
            · subst hx
              exact ⟨by omega, by omega, hm⟩
            · exact h1 x hx
          · right; right
            exact ⟨⟨x, by simp [hx], hxb⟩, h2⟩

/-! ## Lemmas on `bookSeat` -/

/-- The two ways `bookSeat` returns: a failure, which returns `0` and
touches nothing but input and output, or a success, which has read a count and
that many free seats in range and has drawn a ticket number. -/
theorem bookSeat_cases (bus : BusReservation) (s : State) (r : BookSeatResult)
    (h : bookSeat bus s = some r) :
    (r.ret = 0 ∧ r.bus = bus ∧
        r.state = { s with stdin := r.state.stdin, stdout := r.state.stdout }) ∨
      (∃ seats : List Int,
        0 < r.numSeats ∧ r.numSeats ≤ bus.availableSeats ∧
        (seats.length : Int) = r.numSeats ∧
        s.stdin = Tok.num r.numSeats :: (seats.map Tok.num ++ r.state.stdin) ∧
        (∀ x ∈ seats, 1 ≤ x ∧ x ≤ MAX_SEATS ∧ x ∉ bus.reservedSeats) ∧
        100000 ≤ r.ret ∧ r.ret ≤ 999999 ∧
        IsUnique s.reservationTxt r.ret = some true ∧
        r.seatNumbers = seats ∧
        r.bus = bookedBus bus r.numSeats seats r.ret ∧
        r.state = { s with stdin := r.state.stdin, rand := r.state.rand }) := by
  unfold bookSeat at h
  split at h
  · simp at h
  · rename_i numSeats stdin hin
    split at h
    · simp only [Option.some.injEq] at h
      subst h
      left
      simp [State.print]
    · split at h
      · simp only [Option.some.injEq] at h
        subst h
        left
        simp [State.print]
      · rename_i hpos hav
        split at h
        · simp at h
        · simp only [Option.some.injEq] at h
          subst h
          left
          simp [State.print]
        · simp only [Option.some.injEq] at h
          subst h
          left
          simp [State.print]
        · rename_i seatNumbers stdin1 hscan
          split at h
          · simp at h
          · rename_i ticketNumber s1 hgen
            split at h
            · simp at h
            · split at h
              · simp at h
              · simp only [Option.some.injEq] at h
                subst h
                right
                obtain ⟨seats, h1, h2, h3, h4⟩ := readSeats_ok _ _ _ _ _ _ hscan
                obtain ⟨g1, g2, g3, g4⟩ := generateTicketNumber_some _ _ _ hgen
                simp only [List.nil_append] at h1
                subst h1
                have hs1 : s1.stdin = stdin1 := by rw [g4]
                refine ⟨seatNumbers, ?_, ?_, ?_, ?_, h4, g1, g2, g3, rfl, rfl, ?_⟩
                · show 0 < numSeats
                  omega
                · show numSeats ≤ bus.availableSeats
                  omega
                · show (seatNumbers.length : Int) = numSeats
                  omega
                · simp [hin, h3, hs1]
                · show s1 = _
                  rw [g4]
  · simp only [Option.some.injEq] at h
    subst h
    left
    simp [State.print]

/-! ## Lemmas on seat release -/

theorem removeSeat_append_cons (front back : List Int) (x : Int) (h : x ∉ front) :
    removeSeat (front ++ x :: back) x = front ++ back := by
  induction front with
  | nil => simp [removeSeat]
  | cons y rest ih =>
    have hy : y ≠ x := fun e => h (by simp [e])
    have hr : x ∉ rest := fun e => h (by simp [e])
    simp [removeSeat, hy, ih hr]

theorem removeSeats_append (front seats back : List Int) (h : ∀ x ∈ seats, x ∉ front) :
    removeSeats (front ++ (seats ++ back)) seats = front ++ back := by
  induction seats with
  | nil => simp [removeSeats]
  | cons x rest ih =>
    have hx : x ∉ front := h x (by simp)
    have hrest : ∀ y ∈ rest, y ∉ front := fun y hy => h y (by simp [hy])
    have ih1 := ih hrest
    simp only [removeSeats, List.foldl_cons, List.cons_append] at ih1 ⊢
    rw [removeSeat_append_cons front (rest ++ back) x hx]
    exact ih1

theorem removeSeat_of_not_mem (reserved : List Int) (x : Int) (h : x ∉ reserved) :
    removeSeat reserved x = reserved := by
  induction reserved with
  | nil => rfl
  | cons y rest ih =>
    have hy : y ≠ x := fun e => h (by simp [e])
    have hr : x ∉ rest := fun e => h (by simp [e])
    simp [removeSeat, hy, ih hr]

/-- On a request of free seats in range that fits the available seats,
`bookSeat` succeeds as soon as a ticket number is drawn. -/
theorem bookSeat_free (bus : BusReservation) (s : State) (numSeats : Int) (seats : List Int)
    (rest : List Tok)
    (hin : s.stdin = Tok.num numSeats :: (seats.map Tok.num ++ rest))
    (hpos : 0 < numSeats) (hlen : (seats.length : Int) = numSeats)
    (hav : ¬ numSeats > bus.availableSeats)
    (hcap : ¬ bus.reservedCount + numSeats > MAX_SEATS)
    (htab : ¬ (bus.bookingCount < 0 ∨ bus.bookingCount ≥ MAX_BOOKINGS))
    (hscan : readSeats bus.reservedSeats seats.length (seats.map Tok.num ++ rest) [] =
      SeatScan.ok ([] ++ seats) rest) :
    bookSeat bus s =
      match generateTicketNumber { s with stdin := rest } with
      | none => none
      | some (ticketNumber, s1) =>
        some ⟨ticketNumber, bookedBus bus numSeats seats ticketNumber, seats, numSeats, s1⟩ := by
  have hk : numSeats.toNat = seats.length := by omega
  have hnp : ¬ numSeats ≤ 0 := by omega
  simp only [bookSeat, hin, hnp, hav, if_false, hk, hscan, List.nil_append, hcap, htab]
  rfl

/-! ## Lemmas on the capacity invariant -/

/-- Function `bookSeat` keeps the capacity invariant, whether it succeeds or fails. -/
theorem bookSeat_keeps_capacity (bus : BusReservation) (s : State) (r : BookSeatResult)
    (h : bookSeat bus s = some r) (hinv : CapacityInv bus) : CapacityInv r.bus := by
  rcases bookSeat_cases bus s r h with ⟨_, hb, _⟩ | ⟨seats, _, _, hlen, _, _, _, _, _, _, hb, _⟩
  · rw [hb]; exact hinv
  · rw [hb]
    unfold CapacityInv BusReservation.reservedCount at *
    simp only [bookedBus, List.length_append, Nat.cast_add]
    omega

/-- A release keeps the capacity invariant when the seats released are the
ones appended last and `numSeats` is their number. -/
theorem cancelRelease_keeps_capacity (bus : BusReservation) (front seats : List Int) (numSeats : Int)
    (hres : bus.reservedSeats = front ++ seats) (hfree : ∀ x ∈ seats, x ∉ front)
    (hlen : (seats.length : Int) = numSeats) (hinv : CapacityInv bus) :
    CapacityInv (cancelRelease bus numSeats seats) := by
  have e : removeSeats (front ++ seats) seats = front := by
    have := removeSeats_append front seats [] hfree
    simpa using this
  unfold CapacityInv BusReservation.reservedCount at *
  simp only [cancelRelease, hres, e]
  rw [hres] at hinv
  simp only [List.length_append, Nat.cast_add] at hinv
  omega

/-! ## Lemmas on the ledger search -/

/-- C1 (code defect). The capacity invariant `availableSeats + reservedCount ==
totalSeats` does not survive the seat release of `cancelBooking`: on a trip
with 40 free seats of 40 and a ledger line of the user for seat 7 of that
trip, the invariant holds before the call, the cancellation is confirmed, no
seat is removed, yet `availableSeats` becomes 41 with `reservedCount` 0. -/
theorem cancelBooking_release_breaks_capacity :
    (∀ bus ∈ (mkState [tripA] [annSeat7] [Tok.num 123456, Tok.chr 'Y'] []).buses,
        CapacityInv bus) ∧
      (cancelBooking ann (mkState [tripA] [annSeat7] [Tok.num 123456, Tok.chr 'Y'] [])).map
          (fun s => s.buses.map
            (fun bus => (bus.availableSeats, bus.reservedCount, bus.totalSeats,
              decide (CapacityInv bus)))) =
        some [(41, 0, 40, false)] := by
  decide

/-- C3. Whenever `bookSeat` fails (its return value is not positive, which
covers a non-positive count, a count above `availableSeats`, an out-of-range
seat and an already-reserved seat, whichever seat of the request it is), the
bus is exactly as before the call: `reservedSeats`, `reservedCount`,
`availableSeats`, `bookingCount` and every other field. -/
theorem bookSeat_failure_leaves_bus (bus : BusReservation) (s : State) (r : BookSeatResult)
    (h : bookSeat bus s = some r) (hfail : r.ret ≤ 0) :
    r.bus.reservedSeats = bus.reservedSeats ∧ r.bus.reservedCount = bus.reservedCount ∧
      r.bus.availableSeats = bus.availableSeats ∧ r.bus.bookingCount = bus.bookingCount ∧
      r.bus = bus := by
  rcases bookSeat_cases bus s r h with ⟨_, hbus, _⟩ | ⟨_, _, _, _, _, _, hge, _⟩
  · rw [hbus]
    exact ⟨rfl, rfl, rfl, rfl, rfl⟩
  · omega

/-- Witness of C3: the second seat of the request is the one already
reserved, and the bus is returned untouched. -/
theorem bookSeat_failure_leaves_bus_witness :
    bookSeat tripA34 (mkState [tripA34] [] [Tok.num 2, Tok.num 5, Tok.num 4, Tok.num 9] [7]) =
        some ⟨0, tripA34, [5, 4], 2,
          State.print (mkState [tripA34] [] [Tok.num 9] [7]) (Msg.seatAlreadyBooked 4)⟩ ∧
      (0 : Int) ≤ 0 ∧
      (tripA34.reservedSeats = tripA34.reservedSeats ∧
        tripA34.reservedCount = tripA34.reservedCount ∧
        tripA34.availableSeats = tripA34.availableSeats ∧
        tripA34.bookingCount = tripA34.bookingCount ∧ tripA34 = tripA34) :=
  ⟨rfl, by decide,
    bookSeat_failure_leaves_bus tripA34
      (mkState [tripA34] [] [Tok.num 2, Tok.num 5, Tok.num 4, Tok.num 9] [7])
      ⟨0, tripA34, [5, 4], 2,
        State.print (mkState [tripA34] [] [Tok.num 9] [7]) (Msg.seatAlreadyBooked 4)⟩
      rfl (by decide)⟩

/-- Within the arrays, a successful `bookSeat` has read a count
`n = numSeats > 0` and `n` seat numbers from the input; `availableSeats` has
decreased by exactly `n`, `reservedCount` has increased by exactly `n`, and
`reservedSeats` is the sequence reserved before the call followed by the
requested seats in request order. -/
theorem bookSeat_success_appends (bus : BusReservation) (s : State) (r : BookSeatResult)
    (h : bookSeat bus s = some r) (hok : r.ret > 0) :
    ∃ seats : List Int,
      s.stdin = Tok.num r.numSeats :: (seats.map Tok.num ++ r.state.stdin) ∧
      0 < r.numSeats ∧ (seats.length : Int) = r.numSeats ∧ r.seatNumbers = seats ∧
      r.bus.availableSeats = bus.availableSeats - r.numSeats ∧
      r.bus.reservedCount = bus.reservedCount + r.numSeats ∧
      r.bus.reservedCount ≤ MAX_SEATS ∧
      r.bus.reservedSeats = bus.reservedSeats ++ seats := by
  have hcap : r.ret > 0 → r.bus.reservedCount ≤ MAX_SEATS := by
    intro hpos
    unfold bookSeat at h
    split at h
    · simp at h
    · split at h
      · simp only [Option.some.injEq] at h
        subst h
        simp at hpos
      · split at h
        · simp only [Option.some.injEq] at h
          subst h
          simp at hpos
        · split at h
          · simp at h
          · simp only [Option.some.injEq] at h
            subst h
            simp at hpos
          · simp only [Option.some.injEq] at h
            subst h
            simp at hpos
          · rename_i seatNumbers stdin1 hscan
            split at h
            · simp at h
            · split at h
              · simp at h
              · rename_i hfit
                split at h
                · simp at h
                · simp only [Option.some.injEq] at h
                  subst h
                  obtain ⟨seats, h1, h2, _, _⟩ := readSeats_ok _ _ _ _ _ _ hscan
                  simp only [List.nil_append] at h1
                  subst h1
                  simp only [BusReservation.reservedCount, List.length_append,
                    Nat.cast_add] at hfit ⊢
                  omega
    · simp only [Option.some.injEq] at h
      subst h
      simp at hpos
  rcases bookSeat_cases bus s r h with ⟨h0, _, _⟩ |
    ⟨seats, hpos, _, hlen, hin, _, _, _, _, hseats, hbus, _⟩
  · omega
  · refine ⟨seats, hin, hpos, hlen, hseats, ?_, ?_, hcap hok, ?_⟩
    · rw [hbus]; rfl
    · rw [hbus]
      simp only [BusReservation.reservedCount, bookedBus, List.length_append, Nat.cast_add]
      omega
    · rw [hbus]; rfl

/-- C4 (code defect). On a trip of 60 seats a first booking holds seats 1 to
10, which leaves `reservedCount` 10 and 50 seats available. A request for 41
seats (seats 11 to 50, then seat 11 again) then passes every check of
`bookSeat`: the count does not exceed `availableSeats`, every seat is in
`[1, MAX_SEATS]` and none is reserved. Its store loop runs
`reservedSeats[reservedCount++]` up to index 50, past the end of
`reservedSeats[MAX_SEATS]`, so the call has no defined result; the same
request without its last seat succeeds and fills `reservedSeats` exactly. -/
theorem bookSeat_overruns_seat_arrays :
    (bookSeat trip60 (mkState [trip60] [] (Tok.num 10 :: seats10.map Tok.num) [7])).map
        (fun r => (r.ret, r.bus.reservedSeats, r.bus.availableSeats, r.bus.bookingCount,
          r.bus.totalSeats)) =
        some (100007, held60.reservedSeats, held60.availableSeats, held60.bookingCount,
          held60.totalSeats) ∧
      held60.reservedCount = 10 ∧ held60.availableSeats = 50 ∧
      ¬ ((41 : Int) ≤ 0) ∧ ¬ ((41 : Int) > held60.availableSeats) ∧
      (∀ x ∈ seats41, 1 ≤ x ∧ x ≤ MAX_SEATS ∧ x ∉ held60.reservedSeats) ∧
      (seats41.length : Int) = 41 ∧ held60.reservedCount + 41 > MAX_SEATS ∧
      bookSeat held60 (mkState [held60] [] (Tok.num 41 :: seats41.map Tok.num) [8]) = none ∧
      (bookSeat held60
          (mkState [held60] [] (Tok.num 40 :: (seats41.take 40).map Tok.num) [8])).map
          (fun r => (r.ret, r.bus.reservedCount, r.bus.availableSeats)) =
        some (100008, 50, 10) := by
  refine ⟨by decide!, by decide, by decide, by decide, by decide, by decide, by decide,
    by decide, ?_, ?_⟩
  · rfl
  · rfl

/-- Whenever `generateTicketNumber` returns (the random draws reach a
number that `IsUnique` accepts), the ticket number `t` it returns satisfies
`100000 ≤ t ≤ 999999`, `IsUnique t` is true, and `t` differs from the ticket
field that `IsUnique` reads from any line; in particular no line of a user
whose name is not empty and holds no comma carries `t`. -/
theorem generateTicketNumber_fresh (s s1 : State) (t : Int)
    (h : generateTicketNumber s = some (t, s1)) :
    100000 ≤ t ∧ t ≤ 999999 ∧ IsUnique s.reservationTxt t = some true ∧
      (∀ line ∈ s.reservationTxt, ∀ v, ticketField line = Conv.value v → v ≠ t) ∧
      ∀ line ∈ s.reservationTxt, line.username ≠ "" → ',' ∉ line.username.toList →
        line.ticketNumber ≠ t := by
  obtain ⟨h1, h2, h3, _⟩ := generateTicketNumber_some s s1 t h
  refine ⟨h1, h2, h3, IsUnique_true _ _ h3, ?_⟩
  intro line hl hne hc
  exact IsUnique_true _ _ h3 line hl _ (ticketField_of_no_comma line hne hc)

/-- C9 (code defect). The user `a,b`, whose name `registerUser` accepts, books
seats 1, 2 and 3 of trip C while the ledger holds the line of ticket 123456;
the booking is committed under ticket 100005 and its line is appended to the
ledger. On that line the conversion of `IsUnique` stores nothing (the text
after the first comma is `b`), so `existingTicket` keeps 123456 from the line
before: `IsUnique(100005)` answers true, and on the draw 5
`generateTicketNumber` returns 100005, the ticket number of a line of the
active ledger. -/
theorem generateTicketNumber_returns_ticket_on_ledger :
    (processBooking cab
        (mkState [tripC] [annSeat7] (oneWayInput [Tok.chr 'Y', Tok.num 1, card]) [0, 5])).map
        (fun s => (s.reservationTxt, s.stdout.getLast?)) =
        some ([annSeat7, cabTripC], some Msg.bookingSuccessful) ∧
      cabTripC ∈ [annSeat7, cabTripC] ∧ cabTripC.ticketNumber = 100005 ∧
      ticketField annSeat7 = Conv.value 123456 ∧ ticketField cabTripC = Conv.nothing ∧
      IsUnique [annSeat7, cabTripC] 100005 = some true ∧
      (generateTicketNumber (mkState [tripC37] [annSeat7, cabTripC] [] [5])).map
          (fun out => (out.1, out.2.reservationTxt, out.2.rand)) =
        some (100005, [annSeat7, cabTripC], []) := by
  refine ⟨by decide!, by decide!, rfl, by decide, by decide, by decide, ?_⟩
  decide!

/-- C6 (code defect). A round trip whose first leg holds seats 5 and 6 of
trip A and whose second bus ID is unknown (99) or unreadable (`x`) makes
`processBooking` return with the two seats still in `reservedSeats` and
`availableSeats` at 38, no ledger line written and no release run: the seats
are neither committed nor released. -/
theorem processBooking_leaves_first_leg_held :
    (processBooking ann
        (mkState [tripA, tripB] []
          [Tok.num 2, Tok.num 1, Tok.num 2, Tok.num 5, Tok.num 6, Tok.num 99] [0, 1])).map
        observe =
      some ([(38, [5, 6]), (40, [])], [], [Msg.noMatchingBus]) ∧
    (processBooking ann
        (mkState [tripA, tripB] []
          [Tok.num 2, Tok.num 1, Tok.num 2, Tok.num 5, Tok.num 6, Tok.chr 'x'] [0, 1])).map
        observe =
      some ([(38, [5, 6]), (40, [])], [], [Msg.invalidInput]) := by
  decide

/-- C7 (code defect). On the commit of a round trip with seats 5 and 6 on
trip A (fare 30.00) and seat 1 on trip B (fare 45.00), the ledger line of the
first leg records the second leg's seat count 1, only seat 5, and the second
leg's amount 47.70, although seats 5 and 6 are held on trip A and the leg's
own amount is 63.60. -/
theorem finalizeBooking_commit_records_last_leg :
    (processBooking ann
        (mkState [tripA, tripB] [] (roundTripInput [Tok.chr 'Y', Tok.num 1, card])
          [0, 1, 2, 3])).map (fun s => (seatView s, s.reservationTxt)) =
      some ([(38, [5, 6]), (39, [1])],
        [⟨"ann", 100001, 1, "WXY1234", "2025-02-20", 1, [5], 477 / 10⟩,
          ⟨"ann", 100003, 2, "JKL5678", "2025-02-20", 1, [1], 477 / 10⟩]) ∧
      calculateFare 2 tripA.fare = 318 / 5 ∧ calculateFare 1 tripB.fare = 477 / 10 := by
  decide!

/-- C8 (code defect). A committed round trip can break the ticket-number
invariant: the ledger holds ticket 123456 only, the four draws of the
transaction are 0, 7, 2, 7, and both legs are saved under ticket 100007. -/
theorem processBooking_round_trip_duplicate_ticket :
    TicketInv (mkState [tripA7, tripB] [annSeat7] [] []).reservationTxt ∧
      (processBooking ann
          (mkState [tripA7, tripB] [annSeat7] (roundTripInput [Tok.chr 'Y', Tok.num 1, card])
            [0, 7, 2, 7])).map
          (fun s => (s.reservationTxt.map (fun line => line.ticketNumber),
            decide (TicketInv s.reservationTxt))) =
        some ([123456, 100007, 100007], false) := by
  decide

/-! ## Round-trip rollback -/

theorem set_getElem_some {α : Type} (l : List α) (i : Nat) (x : α) (h : l[i]? = some x) :
    l.set i x = l := by
  apply List.ext_getElem?
  intro n
  rw [List.getElem?_set]
  by_cases hn : i = n
  · subst hn
    have hlt : i < l.length := (List.getElem?_eq_some_iff.1 h).1
    simp [hlt, h]
  · simp [hn]

theorem lt_of_getElem_some {α : Type} (l : List α) (i : Nat) (x : α) (h : l[i]? = some x) :
    i < l.length := (List.getElem?_eq_some_iff.1 h).1

theorem view_restore (orig : List (Int × List Int)) (b0 b1 : Nat) (A0 A1 n0 n1 : Int)
    (R0 R1 S0 S1 : List Int) (v0 v1 : Int × List Int)
    (h0 : orig[b0]? = some (A0, R0)) (hS0 : ∀ x ∈ S0, x ∉ R0)
    (h1 : (orig.set b0 (A0 - n0, R0 ++ S0))[b1]? = some (A1, R1))
    (hS1 : ∀ x ∈ S1, x ∉ R1)
    (hv0 : ((orig.set b0 (A0 - n0, R0 ++ S0)).set b1 (A1 - n1, R1 ++ S1))[b0]? = some v0)
    (hv1 : (((orig.set b0 (A0 - n0, R0 ++ S0)).set b1 (A1 - n1, R1 ++ S1)).set b0
      (v0.1 + n0, removeSeats v0.2 S0))[b1]? = some v1) :
    (((orig.set b0 (A0 - n0, R0 ++ S0)).set b1 (A1 - n1, R1 ++ S1)).set b0
      (v0.1 + n0, removeSeats v0.2 S0)).set b1 (v1.1 + n1, removeSeats v1.2 S1) = orig := by
  have hlt0 : b0 < orig.length := lt_of_getElem_some _ _ _ h0
  by_cases hb : b0 = b1
  · subst hb
    rw [List.getElem?_set_self hlt0] at h1
    simp only [Option.some.injEq, Prod.mk.injEq] at h1
    obtain ⟨hA, hR⟩ := h1
    subst hA; subst hR
    rw [List.set_set] at hv0 hv1 ⊢
    rw [List.getElem?_set_self hlt0] at hv0
    simp only [Option.some.injEq] at hv0
    subst hv0
    rw [List.set_set] at hv1 ⊢
    rw [List.getElem?_set_self hlt0] at hv1
    simp only [Option.some.injEq] at hv1
    subst hv1
    rw [List.set_set]
    have e1 : removeSeats (R0 ++ S0 ++ S1) S0 = R0 ++ S1 := by
      rw [List.append_assoc]
      exact removeSeats_append R0 S0 S1 hS0
    have hS1' : ∀ x ∈ S1, x ∉ R0 := fun x hx hr => hS1 x hx (by simp [hr])
    have e2 : removeSeats (R0 ++ S1) S1 = R0 := by
      have := removeSeats_append R0 S1 [] hS1'
      simpa using this
    simp only [e1, e2]
    have : A0 - n0 - n1 + n0 + n1 = A0 := by ring
    rw [this]
    exact set_getElem_some _ _ _ h0
  · have hb' : b1 ≠ b0 := fun e => hb e.symm
    rw [List.getElem?_set_ne hb] at h1
    have hlt1 : b1 < orig.length := lt_of_getElem_some _ _ _ h1
    rw [List.getElem?_set_ne hb', List.getElem?_set_self hlt0] at hv0
    simp only [Option.some.injEq] at hv0
    subst hv0
    rw [List.getElem?_set_ne hb, List.getElem?_set_self (by simpa using hlt1)] at hv1
    simp only [Option.some.injEq] at hv1
    subst hv1
    have e1 : removeSeats (R0 ++ S0) S0 = R0 := by
      have := removeSeats_append R0 S0 [] hS0
      simpa using this
    have e2 : removeSeats (R1 ++ S1) S1 = R1 := by
      have := removeSeats_append R1 S1 [] hS1
      simpa using this
    simp only [e1, e2]
    have a0 : A0 - n0 + n0 = A0 := by ring
    have a1 : A1 - n1 + n1 = A1 := by ring
    rw [a0, a1]
    apply List.ext_getElem?
    intro n
    simp only [List.getElem?_set, List.length_set]
    by_cases c1 : b1 = n
    · subst c1
      simp [hlt1, h1]
    · by_cases c0 : b0 = n
      · subst c0
        simp [c1, hlt0, h0]
      · simp [c1, c0]


theorem readBlock_full (seats : List Int) (n : Int) (hl : (seats.length : Int) = n)
    (hpos : 0 < n) : readBlock (some seats) n = some seats := by
  have h1 : ¬ n ≤ 0 := by omega
  have h2 : n.toNat = seats.length := by omega
  simp [readBlock, h1, h2]

theorem range_two : List.range 2 = [0, 1] := by decide

theorem seatView_print (s : State) (m : Msg) : seatView (s.print m) = seatView s := rfl

theorem seatView_set (s : State) (i : Nat) (bus : BusReservation) :
    seatView { s with buses := s.buses.set i bus } =
      (seatView s).set i (bus.availableSeats, bus.reservedSeats) := by
  simp [seatView, List.map_set]

theorem seatView_getElem_some (s : State) (i : Nat) (bus : BusReservation) (h : s.buses[i]? = some bus) :
    (seatView s)[i]? = some (bus.availableSeats, bus.reservedSeats) := by
  simp [seatView, h]

theorem freeTrips_two (s : State) :
    freeTrips s 2 = { s with seatNumbersForAllTrips := (none, none) } := by
  simp [freeTrips, range_two, set2]

theorem processBookingLoop_exit (currentUser : user) (d : String) (fuel : Nat) (s s1 : State)
    (a : TripArrays) (h : processBookingLoop currentUser d 2 fuel 2 s a = some s1) : s1 = s := by
  cases fuel with
  | zero => simp [processBookingLoop] at h
  | succ k =>
    simp [processBookingLoop] at h
    exact h.symm

theorem finalizeBooking_first (currentUser : user) (s s3 : State) (b : Nat) (n : Int)
    (seats : List Int) (d : String) (a a3 : TripArrays)
    (hl : (seats.length : Int) = n) (hpos : 0 < n)
    (h : finalizeBooking currentUser s b n seats d 0 2 a = some (s3, a3)) :
    s3.buses = s.buses ∧ s3.reservationTxt = s.reservationTxt ∧
      s3.seatCounts.1 = n ∧ s3.seatNumbersForAllTrips.1 = some seats ∧
      a3.busIndices.1 = some b := by
  unfold finalizeBooking at h
  split at h
  · simp at h
  · rename_i t s1 hgen
    obtain ⟨_, _, _, hs1⟩ := generateTicketNumber_some _ _ _ hgen
    rw [readBlock_full seats n hl hpos] at h
    split at h
    · rename_i bus copy hb hc
      simp only [Option.some.injEq] at hc
      subst hc
      simp only [Nat.zero_add, OfNat.one_ne_ofNat, if_false, Option.some.injEq,
        Prod.mk.injEq] at h
      obtain ⟨h1, h2⟩ := h
      subst h1; subst h2
      rw [hs1]
      simp [set2]
    · simp at h

theorem finalizeBooking_last_none (currentUser : user) (s : State) (b : Nat) (n : Int)
    (seats : List Int) (d : String) (a : TripArrays) (ha : a.ticketNumbers.1 = none) :
    finalizeBooking currentUser s b n seats d 1 2 a = none := by
  unfold finalizeBooking
  split
  · rfl
  · split
    · simp [range_two, summaryLoop, get2, set2, ha]
    · rfl


theorem rollbackLoop_two (a : TripArrays) (s s4 : State) (b0 b1 : Nat) (n0 n1 : Int)
    (S0 S1 : List Int)
    (hb0 : a.busIndices.1 = some b0) (hb1 : a.busIndices.2 = some b1)
    (hc0 : s.seatCounts.1 = n0) (hc1 : s.seatCounts.2 = n1)
    (hp0 : s.seatNumbersForAllTrips.1 = some S0) (hp1 : s.seatNumbersForAllTrips.2 = some S1)
    (hl0 : (S0.length : Int) = n0) (hpos0 : 0 < n0)
    (hl1 : (S1.length : Int) = n1) (hpos1 : 0 < n1)
    (h : rollbackLoop a [0, 1] s = some s4) :
    s4.reservationTxt = s.reservationTxt ∧ s4.stdout = s.stdout ∧
      ∃ bus0 bus1, s.buses[b0]? = some bus0 ∧
        (s.buses.set b0 (rollbackRelease bus0 n0 S0))[b1]? = some bus1 ∧
        s4.buses = (s.buses.set b0 (rollbackRelease bus0 n0 S0)).set b1
          (rollbackRelease bus1 n1 S1) := by
  simp only [rollbackLoop, get2, if_true, hb0, hc0, hp0, readBlock_full S0 n0 hl0 hpos0,
    OfNat.one_ne_ofNat, if_false, hb1, hc1, hp1, readBlock_full S1 n1 hl1 hpos1] at h
  split at h
  · rename_i bus0 seats0 hbus0 hs0
    simp only [Option.some.injEq] at hs0
    subst hs0
    simp only [one_ne_zero, if_false, hb1, hc1, hp1, readBlock_full S1 n1 hl1 hpos1] at h
    split at h
    · rename_i bus1 seats1 hbus1 hs1
      simp only [Option.some.injEq] at hs1 h
      subst hs1
      subst h
      exact ⟨rfl, rfl, bus0, bus1, hbus0, hbus1, rfl⟩
    · simp at h
  · simp at h

theorem finalizeBooking_last_decline (currentUser : user) (s s3 : State) (b0 b1 : Nat)
    (n0 n1 : Int) (S0 S1 : List Int) (d : String) (a a3 : TripArrays)
    (hb0 : a.busIndices.1 = some b0) (hc0 : s.seatCounts.1 = n0)
    (hp0 : s.seatNumbersForAllTrips.1 = some S0)
    (hl0 : (S0.length : Int) = n0) (hpos0 : 0 < n0)
    (hl1 : (S1.length : Int) = n1) (hpos1 : 0 < n1)
    (h : finalizeBooking currentUser s b1 n1 S1 d 1 2 a = some (s3, a3))
    (hlast : s3.stdout.getLast? = some Msg.bookingCanceled) :
    s3.reservationTxt = s.reservationTxt ∧
      ∃ bus0 bus1, s.buses[b0]? = some bus0 ∧
        (s.buses.set b0 (rollbackRelease bus0 n0 S0))[b1]? = some bus1 ∧
        s3.buses = (s.buses.set b0 (rollbackRelease bus0 n0 S0)).set b1
          (rollbackRelease bus1 n1 S1) := by
  unfold finalizeBooking at h
  split at h
  · simp at h
  · rename_i t s1 hgen
    obtain ⟨_, _, _, hs1⟩ := generateTicketNumber_some _ _ _ hgen
    rw [readBlock_full S1 n1 hl1 hpos1] at h
    split at h
    · rename_i bus copy hb hc
      simp only [Option.some.injEq] at hc
      subst hc
      simp only [Nat.reduceAdd, if_true, range_two] at h
      split at h
      · simp at h
      · rename_i totalPayment hsum
        split at h
        · rename_i proceed stdin hin
          split at h
          · split at h
            · simp at h
            · split at h
              · simp at h
              · simp only [Option.some.injEq, Prod.mk.injEq] at h
                obtain ⟨h1, _⟩ := h
                subst h1
                simp [State.print, List.getLast?_concat] at hlast
          · split at h
            · simp at h
            · rename_i s4 hroll
              simp only [Option.some.injEq, Prod.mk.injEq] at h
              obtain ⟨h1, _⟩ := h
              subst h1
              have eb : s1.buses = s.buses := by rw [hs1]
              have er : s1.reservationTxt = s.reservationTxt := by rw [hs1]
              have ec : s1.seatCounts = s.seatCounts := by rw [hs1]
              have ep : s1.seatNumbersForAllTrips = s.seatNumbersForAllTrips := by rw [hs1]
              have key := rollbackLoop_two _ _ s4 b0 b1 n0 n1 S0 S1
                (by simpa [set2] using hb0) (by simp [set2])
                (by simp [set2, State.print, ec, hc0]) (by simp [set2, State.print])
                (by simp [set2, State.print, ep, hp0]) (by simp [set2, State.print])
                hl0 hpos0 hl1 hpos1 hroll
              obtain ⟨k1, _, bus0, bus1, k3, k4, k5⟩ := key
              rw [freeTrips_two]
              refine ⟨?_, bus0, bus1, ?_, ?_, ?_⟩
              · simp only [k1, State.print, er]
              · simpa [State.print, eb] using k3
              · simpa [State.print, eb] using k4
              · simpa [State.print, eb] using k5
        · simp at h
    · simp at h


theorem getLast_print (s : State) (m : Msg) : (s.print m).stdout.getLast? = some m := by
  simp [State.print, List.getLast?_concat]

theorem findIndex_some (p : BusReservation → Bool) (buses : List BusReservation) (i : Nat)
    (h : findIndex p buses = some i) : ∃ bus, buses[i]? = some bus ∧ p bus = true := by
  induction buses generalizing i with
  | nil => simp [findIndex] at h
  | cons first rest ih =>
    simp only [findIndex] at h
    split at h
    · rename_i hp
      simp only [Option.some.injEq] at h
      subst h
      exact ⟨first, by simp, hp⟩
    · cases hr : findIndex p rest with
      | none => simp [hr] at h
      | some j =>
        simp only [hr, Option.map_some', Option.some.injEq] at h
        subst h
        obtain ⟨bus, h1, h2⟩ := ih j hr
        exact ⟨bus, by simpa using h1, h2⟩

/-- A round trip whose first leg was skipped never reaches the rollback. -/
theorem processBookingLoop_second_skipped (currentUser : user) (d : String) :
    ∀ (fuel : Nat) (s s1 : State) (a : TripArrays), a.ticketNumbers.1 = none →
      processBookingLoop currentUser d 2 fuel 1 s a = some s1 →
      s1.stdout.getLast? ≠ some Msg.bookingCanceled := by
  intro fuel
  induction fuel with
  | zero => intro s s1 a _ h; simp [processBookingLoop] at h
  | succ k ih =>
    intro s s1 a ha h
    rw [processBookingLoop] at h
    simp only [if_true, Nat.one_lt_ofNat] at h
    split at h
    · simp at h
    · rename_i busID stdin hin
      split at h
      · have := processBookingLoop_exit _ _ _ _ _ _ h
        subst this
        rw [getLast_print]
        simp
      · rename_i busIndex hfind
        split at h
        · simp at h
        · rename_i bus hbus
          split at h
          · simp at h
          · rename_i r hr
            split at h
            · rw [finalizeBooking_last_none] at h
              · simp at h
              · simpa [set2] using ha
            · exact ih _ _ _ (by simpa using ha) h
    · simp only [Option.some.injEq] at h
      subst h
      rw [getLast_print]
      simp


/-- The state `processBooking` holds after `bookSeat` returned `r` for the
bus at `busIndex`. -/
theorem bookSeat_failed_state (bus : BusReservation) (s : State) (r : BookSeatResult) (busIndex : Nat)
    (hbus : s.buses[busIndex]? = some bus) (h : bookSeat bus s = some r) (hret : ¬ r.ret > 0) :
    r.state.buses.set busIndex r.bus = s.buses ∧ r.state.reservationTxt = s.reservationTxt ∧
      r.state.seatCounts = s.seatCounts ∧
      r.state.seatNumbersForAllTrips = s.seatNumbersForAllTrips := by
  rcases bookSeat_cases bus s r h with ⟨_, hb, hst⟩ | ⟨_, _, _, _, _, _, hge, _⟩
  · have e1 : r.state.buses = s.buses := by rw [hst]
    have e2 : r.state.reservationTxt = s.reservationTxt := by rw [hst]
    have e3 : r.state.seatCounts = s.seatCounts := by rw [hst]
    have e4 : r.state.seatNumbersForAllTrips = s.seatNumbersForAllTrips := by rw [hst]
    rw [hb, e1]
    exact ⟨set_getElem_some _ _ _ hbus, e2, e3, e4⟩
  · omega

theorem bookSeat_succeeded_state (bus : BusReservation) (s : State) (r : BookSeatResult)
    (h : bookSeat bus s = some r) (hret : r.ret > 0) :
    0 < r.numSeats ∧ (r.seatNumbers.length : Int) = r.numSeats ∧
      (∀ x ∈ r.seatNumbers, x ∉ bus.reservedSeats) ∧
      r.bus.availableSeats = bus.availableSeats - r.numSeats ∧
      r.bus.reservedSeats = bus.reservedSeats ++ r.seatNumbers ∧
      r.state.buses = s.buses ∧ r.state.reservationTxt = s.reservationTxt ∧
      r.state.seatCounts = s.seatCounts ∧
      r.state.seatNumbersForAllTrips = s.seatNumbersForAllTrips := by
  rcases bookSeat_cases bus s r h with ⟨h0, _, _⟩ |
    ⟨seats, hpos, _, hlen, _, hfree, _, _, _, hseats, hb, hst⟩
  · omega
  · have e1 : r.state.buses = s.buses := by rw [hst]
    have e2 : r.state.reservationTxt = s.reservationTxt := by rw [hst]
    have e3 : r.state.seatCounts = s.seatCounts := by rw [hst]
    have e4 : r.state.seatNumbersForAllTrips = s.seatNumbersForAllTrips := by rw [hst]
    rw [hseats, hb]
    exact ⟨hpos, hlen, fun x hx => (hfree x hx).2.2, rfl, rfl, e1, e2, e3, e4⟩

/-- Second leg of a round trip whose first leg holds `S0` on bus `b0`: if the
run ends with "Booking canceled.", every trip is back at `orig`. -/
theorem processBookingLoop_second_decline (currentUser : user) (d : String)
    (orig : List (Int × List Int)) (b0 : Nat) (n0 A0 : Int) (S0 R0 : List Int)
    (h0 : orig[b0]? = some (A0, R0)) (hS0 : ∀ x ∈ S0, x ∉ R0)
    (hl0 : (S0.length : Int) = n0) (hpos0 : 0 < n0) :
    ∀ (fuel : Nat) (s s1 : State) (a : TripArrays), a.busIndices.1 = some b0 →
      s.seatCounts.1 = n0 → s.seatNumbersForAllTrips.1 = some S0 →
      seatView s = orig.set b0 (A0 - n0, R0 ++ S0) →
      processBookingLoop currentUser d 2 fuel 1 s a = some s1 →
      s1.stdout.getLast? = some Msg.bookingCanceled →
      seatView s1 = orig ∧ s1.reservationTxt = s.reservationTxt := by
  intro fuel
  induction fuel with
  | zero => intro s s1 a _ _ _ _ h; simp [processBookingLoop] at h
  | succ k ih =>
    intro s s1 a ha hc hp hv h hlast
    rw [processBookingLoop] at h
    simp only [if_true, Nat.one_lt_ofNat] at h
    split at h
    · simp at h
    · rename_i busID stdin hin
      split at h
      · have := processBookingLoop_exit _ _ _ _ _ _ h
        subst this
        rw [getLast_print] at hlast
        simp at hlast
      · rename_i b1 hfind
        split at h
        · simp at h
        · rename_i bus hbus
          split at h
          · simp at h
          · rename_i r hr
            have hbus' : s.buses[b1]? = some bus := hbus
            split at h
            · rename_i hret
              obtain ⟨hpos1, hl1, hfree, hav, hres, e1, e2, e3, e4⟩ :=
                bookSeat_succeeded_state bus { s with stdin := stdin } r hr hret
              simp only at e1 e2 e3 e4
              split at h
              · simp at h
              · rename_i s3 a2 hfin
                have := processBookingLoop_exit _ _ _ _ _ _ h
                subst this
                obtain ⟨k1, bus0, bus1, k2, k3, k4⟩ :=
                  finalizeBooking_last_decline currentUser _ s1 b0 b1 n0 r.numSeats S0
                    r.seatNumbers d _ a2 (by simpa [set2] using ha) (by simpa [e3] using hc)
                    (by simpa [e4] using hp) hl0 hpos0 hl1 hpos1 hfin hlast
                simp only [e1] at k2 k3 k4
                simp only [e2] at k1
                refine ⟨?_, k1⟩
                have hv2 : (s.buses.set b1 r.bus).map
                    (fun bus => (bus.availableSeats, bus.reservedSeats)) =
                    (orig.set b0 (A0 - n0, R0 ++ S0)).set b1
                      (bus.availableSeats - r.numSeats, bus.reservedSeats ++ r.seatNumbers) := by
                  rw [List.map_set, hav, hres]
                  exact congrArg (fun l => List.set l b1 _) hv
                have h1 : (orig.set b0 (A0 - n0, R0 ++ S0))[b1]? =
                    some (bus.availableSeats, bus.reservedSeats) := by
                  rw [← hv]
                  exact seatView_getElem_some s b1 bus hbus'
                have hv0 : ((orig.set b0 (A0 - n0, R0 ++ S0)).set b1
                    (bus.availableSeats - r.numSeats, bus.reservedSeats ++ r.seatNumbers))[b0]? =
                    some (bus0.availableSeats, bus0.reservedSeats) := by
                  rw [← hv2, List.getElem?_map, k2]
                  rfl
                have hv1 : (((orig.set b0 (A0 - n0, R0 ++ S0)).set b1
                    (bus.availableSeats - r.numSeats, bus.reservedSeats ++ r.seatNumbers)).set b0
                    (bus0.availableSeats + n0, removeSeats bus0.reservedSeats S0))[b1]? =
                    some (bus1.availableSeats, bus1.reservedSeats) := by
                  rw [← hv2]
                  have := congrArg (Option.map
                    (fun bus : BusReservation => (bus.availableSeats, bus.reservedSeats))) k3
                  rw [← List.getElem?_map, List.map_set] at this
                  exact this
                have key := view_restore orig b0 b1 A0 bus.availableSeats n0 r.numSeats R0
                  bus.reservedSeats S0 r.seatNumbers _ _ h0 hS0 h1 hfree hv0 hv1
                rw [← key]
                show s1.buses.map _ = _
                rw [k4, List.map_set, List.map_set, hv2]
                rfl
            · rename_i hret
              obtain ⟨e1, e2, e3, e4⟩ := bookSeat_failed_state bus { s with stdin := stdin } r b1 hbus hr hret
              simp only at e1 e2 e3 e4
              have := ih _ s1 _ (by simpa [set2] using ha) (by simpa [State.print, e3] using hc)
                (by simpa [State.print, e4] using hp)
                (by simpa [State.print, seatView, e1] using hv) h hlast
              simpa [State.print, e2] using this
    · simp only [Option.some.injEq] at h
      subst h
      rw [getLast_print] at hlast
      simp at hlast


/-- First leg of a round trip: if the run ends with "Booking canceled.",
every trip is as it was and the ledger is untouched. -/
theorem processBookingLoop_first_decline (currentUser : user) (d : String) :
    ∀ (fuel : Nat) (s s1 : State) (a : TripArrays), a.ticketNumbers.1 = none →
      processBookingLoop currentUser d 2 fuel 0 s a = some s1 →
      s1.stdout.getLast? = some Msg.bookingCanceled →
      seatView s1 = seatView s ∧ s1.reservationTxt = s.reservationTxt := by
  intro fuel
  induction fuel with
  | zero => intro s s1 a _ h; simp [processBookingLoop] at h
  | succ k ih =>
    intro s s1 a ha h hlast
    rw [processBookingLoop] at h
    simp only [if_true, Nat.ofNat_pos] at h
    split at h
    · simp at h
    · rename_i busID stdin hin
      split at h
      · exact absurd hlast (processBookingLoop_second_skipped _ _ _ _ _ _ ha h)
      · rename_i b0 hfind
        split at h
        · simp at h
        · rename_i bus hbus
          split at h
          · simp at h
          · rename_i r hr
            have hbus' : s.buses[b0]? = some bus := hbus
            split at h
            · rename_i hret
              obtain ⟨hpos0, hl0, hfree, hav, hres, e1, e2, e3, e4⟩ :=
                bookSeat_succeeded_state bus { s with stdin := stdin } r hr hret
              simp only at e1 e2 e3 e4
              split at h
              · simp at h
              · rename_i s3 a2 hfin
                obtain ⟨f1, f2, f3, f4, f5⟩ :=
                  finalizeBooking_first currentUser _ s3 b0 r.numSeats r.seatNumbers d _ a2
                    hl0 hpos0 hfin
                simp only [e1] at f1
                simp only [e2] at f2
                have hv : seatView s3 = (seatView s).set b0
                    (bus.availableSeats - r.numSeats, bus.reservedSeats ++ r.seatNumbers) := by
                  show s3.buses.map _ = _
                  rw [f1, List.map_set, hav, hres]
                  rfl
                have := processBookingLoop_second_decline currentUser d (seatView s) b0
                  r.numSeats bus.availableSeats r.seatNumbers bus.reservedSeats
                  (seatView_getElem_some s b0 bus hbus') hfree hl0 hpos0 k s3 s1 a2 f5 f3 f4 hv h
                  hlast
                exact ⟨this.1, this.2.trans f2⟩
            · rename_i hret
              obtain ⟨e1, e2, _, _⟩ :=
                bookSeat_failed_state bus { s with stdin := stdin } r b0 hbus hr hret
              simp only at e1 e2
              have := ih _ s1 _ (by simpa using ha) h hlast
              simpa [State.print, seatView, e1, e2] using this
    · simp only [Option.some.injEq] at h
      subst h
      rw [getLast_print] at hlast
      simp at hlast

/-! ## A declined round trip returns -/

theorem generateTicketNumber_first_free (s : State) (r : Nat) (rest : List Nat)
    (hrand : s.rand = r :: rest)
    (hr : IsUnique s.reservationTxt (100000 + (r : Int) % 900000) = some true) :
    generateTicketNumber s = some (100000 + (r : Int) % 900000, { s with rand := rest }) := by
  unfold generateTicketNumber
  rw [hrand]
  have := drawTicket_first_free s.reservationTxt [] r rest (by simp) hr
  simp only [List.nil_append] at this
  rw [this]

theorem bookSeat_valid (bus : BusReservation) (s : State) (numSeats : Int) (seats : List Int)
    (rest : List Tok) (r : Nat) (rand : List Nat)
    (hin : s.stdin = Tok.num numSeats :: (seats.map Tok.num ++ rest))
    (hv : ValidRequest bus numSeats seats) (hrand : s.rand = r :: rand)
    (hr : IsUnique s.reservationTxt (100000 + (r : Int) % 900000) = some true) :
    bookSeat bus s =
      some ⟨100000 + (r : Int) % 900000,
        bookedBus bus numSeats seats (100000 + (r : Int) % 900000), seats, numSeats,
        { s with stdin := rest, rand := rand }⟩ := by
  obtain ⟨hpos, hlen, hav, hfree, hcap, ht0, ht1⟩ := hv
  have hcount : (0 : Int) ≤ bus.reservedCount := by
    unfold BusReservation.reservedCount; omega
  have hscan : readSeats bus.reservedSeats seats.length (seats.map Tok.num ++ rest) [] =
      SeatScan.ok ([] ++ seats) rest := by
    rcases readSeats_scan bus.reservedSeats seats rest [] with
      ⟨hover, _⟩ | ⟨_, hscan⟩ | ⟨⟨x, hx, hbad⟩, _⟩
    · simp only [List.length_nil] at hover
      push_cast at hover
      omega
    · exact hscan
    · have := hfree x hx
      rcases hbad with h | h | h
      · omega
      · omega
      · exact absurd h this.2.2
  rw [bookSeat_free bus s numSeats seats rest hin hpos hlen (by omega) (by omega) (by omega) hscan]
  rw [generateTicketNumber_first_free { s with stdin := rest } r rand hrand hr]

theorem findIndex_set_congr (p : BusReservation → Bool) (buses : List BusReservation) (i : Nat)
    (old new : BusReservation) (hold : buses[i]? = some old) (hp : p new = p old) :
    findIndex p (buses.set i new) = findIndex p buses := by
  induction buses generalizing i with
  | nil => simp
  | cons first rest ih =>
    cases i with
    | zero =>
      simp only [List.getElem?_cons_zero, Option.some.injEq] at hold
      subst hold
      simp [findIndex, hp]
    | succ j =>
      simp only [List.getElem?_cons_succ] at hold
      simp [findIndex, ih j hold]


theorem finalizeBooking_first_returns (currentUser : user) (s : State) (b : Nat) (n : Int)
    (seats : List Int) (d : String) (a : TripArrays) (bus : BusReservation) (r : Nat)
    (rand : List Nat)
    (hl : (seats.length : Int) = n) (hpos : 0 < n) (hbus : s.buses[b]? = some bus)
    (hrand : s.rand = r :: rand)
    (hr : IsUnique s.reservationTxt (100000 + (r : Int) % 900000) = some true) :
    ∃ f, finalizeBooking currentUser s b n seats d 0 2 a =
      some ({ s with
          rand := rand
          seatCounts := set2 s.seatCounts 0 n
          seatNumbersForAllTrips := set2 s.seatNumbersForAllTrips 0 (some seats) },
        ⟨set2 a.ticketNumbers 0 (some (100000 + (r : Int) % 900000)),
          set2 a.totalFares 0 (some f), set2 a.busIndices 0 (some b)⟩) := by
  unfold finalizeBooking
  rw [generateTicketNumber_first_free s r rand hrand hr]
  simp only [hbus, readBlock_full seats n hl hpos, Nat.zero_add, OfNat.one_ne_ofNat, if_false]
  exact ⟨_, rfl⟩

theorem finalizeBooking_last_decline_returns (currentUser : user) (s : State) (b0 b1 : Nat)
    (n0 n1 : Int) (S0 S1 : List Int) (d : String) (a : TripArrays)
    (bus0 bus1 : BusReservation) (r : Nat) (rand : List Nat) (c : Char) (rest : List Tok)
    (t0 : Int) (f0 : Rat)
    (hl0 : (S0.length : Int) = n0) (hpos0 : 0 < n0)
    (hl1 : (S1.length : Int) = n1) (hpos1 : 0 < n1)
    (hbus0 : s.buses[b0]? = some bus0) (hbus1 : s.buses[b1]? = some bus1)
    (ha0 : a.busIndices.1 = some b0) (ha1 : a.ticketNumbers.1 = some t0)
    (ha2 : a.totalFares.1 = some f0)
    (hc0 : s.seatCounts.1 = n0) (hp0 : s.seatNumbersForAllTrips.1 = some S0)
    (hin : s.stdin = Tok.chr c :: rest) (hc : ¬ (c = 'y' ∨ c = 'Y'))
    (hrand : s.rand = r :: rand)
    (hr : IsUnique s.reservationTxt (100000 + (r : Int) % 900000) = some true) :
    ∃ s1 a1, finalizeBooking currentUser s b1 n1 S1 d 1 2 a = some (s1, a1) ∧
      s1.stdout = s.stdout ++ [Msg.bookingSummary, Msg.bookingCanceled] ∧
      s1.stdin = rest := by
  unfold finalizeBooking
  rw [generateTicketNumber_first_free s r rand hrand hr]
  simp only [hbus1, readBlock_full S1 n1 hl1 hpos1, Nat.reduceAdd, if_true, range_two]
  have hsum : ∀ (s2 : State) (a1 : TripArrays) (f1 : Rat) (t1 : Int),
      s2.buses = s.buses → s2.seatCounts = (n0, n1) →
      s2.seatNumbersForAllTrips = (some S0, some S1) →
      a1.busIndices = (some b0, some b1) → a1.ticketNumbers = (some t0, some t1) →
      a1.totalFares = (some f0, some f1) →
      summaryLoop s2 a1 [0, 1] 0 = some (0 + f0 + f1) := by
    intro s2 a1 f1 t1 e1 e2 e3 e4 e5 e6
    simp [summaryLoop, get2, e1, e2, e3, e4, e5, e6, hbus0, hbus1,
      readBlock_full S0 n0 hl0 hpos0, readBlock_full S1 n1 hl1 hpos1]
  rw [hsum
    { s with
      rand := rand
      seatCounts := set2 s.seatCounts 1 n1
      seatNumbersForAllTrips := set2 s.seatNumbersForAllTrips 1 (some S1) }
    ⟨set2 a.ticketNumbers 1 (some (100000 + (r : Int) % 900000)),
      set2 a.totalFares 1 (some ((n1 : Rat) * bus1.fare + (n1 : Rat) * bus1.fare * SST_RATE)),
      set2 a.busIndices 1 (some b1)⟩
    ((n1 : Rat) * bus1.fare + (n1 : Rat) * bus1.fare * SST_RATE) (100000 + (r : Int) % 900000)
    rfl (by simp [set2, hc0]) (by simp [set2, hp0]) (by simp [set2, ha0])
    (by simp [set2, ha1]) (by simp [set2, ha2])]
  simp only [hin, hc, if_false]
  have hlen : b0 < s.buses.length := lt_of_getElem_some _ _ _ hbus0
  have hroll : ∀ (s2 : State) (a1 : TripArrays),
      s2.buses = s.buses → s2.seatCounts = (n0, n1) →
      s2.seatNumbersForAllTrips = (some S0, some S1) →
      a1.busIndices = (some b0, some b1) →
      ∃ s4, rollbackLoop a1 [0, 1] s2 = some s4 ∧ s4.stdout = s2.stdout ∧
        s4.stdin = s2.stdin := by
    intro s2 a1 e1 e2 e3 e4
    have hb1 : ∃ bus1x, (s.buses.set b0 (rollbackRelease bus0 n0 S0))[b1]? = some bus1x := by
      have hlt : b1 < s.buses.length := lt_of_getElem_some _ _ _ hbus1
      exact ⟨_, List.getElem?_eq_getElem (by simpa using hlt)⟩
    obtain ⟨bus1x, hb1x⟩ := hb1
    refine ⟨{ s2 with
      buses := (s.buses.set b0 (rollbackRelease bus0 n0 S0)).set b1
        (rollbackRelease bus1x n1 S1) }, ?_, rfl, rfl⟩
    simp only [rollbackLoop, get2, e1, e2, e3, e4, hbus0, if_true, one_ne_zero, if_false,
      readBlock_full S0 n0 hl0 hpos0, readBlock_full S1 n1 hl1 hpos1, hb1x]
  obtain ⟨s4, h4, h5, h6⟩ := hroll
    (State.print
      (State.print
        { s with
          rand := rand
          seatCounts := set2 s.seatCounts 1 n1
          seatNumbersForAllTrips := set2 s.seatNumbersForAllTrips 1 (some S1)
          stdin := rest } Msg.bookingSummary) Msg.bookingCanceled)
    ⟨set2 a.ticketNumbers 1 (some (100000 + (r : Int) % 900000)),
      set2 a.totalFares 1 (some ((n1 : Rat) * bus1.fare + (n1 : Rat) * bus1.fare * SST_RATE)),
      set2 a.busIndices 1 (some b1)⟩
    rfl (by simp [set2, State.print, hc0]) (by simp [set2, State.print, hp0])
    (by simp [set2, ha0])
  refine ⟨freeTrips s4 2,
    ⟨set2 a.ticketNumbers 1 (some (100000 + (r : Int) % 900000)),
      set2 a.totalFares 1 (some ((n1 : Rat) * bus1.fare + (n1 : Rat) * bus1.fare * SST_RATE)),
      set2 a.busIndices 1 (some b1)⟩, ?_, ?_, ?_⟩
  · rw [h4]
  · rw [freeTrips_two]
    simp [h5, State.print]
  · rw [freeTrips_two]
    simp [h6, State.print]


theorem processBookingLoop_round (currentUser : user) (d : String) (tripType fuel tripIndex : Nat)
    (s : State) (a : TripArrays) (busID : Int) (stdin : List Tok) (busIndex : Nat)
    (bus : BusReservation) (r : BookSeatResult) (s3 : State) (a2 : TripArrays)
    (hlt : tripIndex < (if tripType = 2 then 2 else 1))
    (hin : s.stdin = Tok.num busID :: stdin)
    (hfind : findBus s.buses busID = some busIndex)
    (hbus : s.buses[busIndex]? = some bus)
    (hbook : bookSeat bus { s with stdin := stdin } = some r) (hret : r.ret > 0)
    (hfin : finalizeBooking currentUser
      { r.state with buses := r.state.buses.set busIndex r.bus } busIndex r.numSeats
      r.seatNumbers d tripIndex tripType
      { a with busIndices := set2 a.busIndices tripIndex (some busIndex) } = some (s3, a2)) :
    processBookingLoop currentUser d tripType (fuel + 1) tripIndex s a =
      processBookingLoop currentUser d tripType fuel (tripIndex + 1) s3 a2 := by
  rw [processBookingLoop]
  simp only [hlt, if_true, hin, hfind, hbus, hbook, hret, hfin]

/-- A round trip entered without a retry and declined at the proceed prompt
returns: both bus IDs are found, both requests are valid for the trip as it
stands when they are made, the four draws are free numbers, and the answer
is neither `y` nor `Y`. -/
theorem processBookingLoop_round_trip_returns (currentUser : user) (d : String) (k : Nat)
    (s : State) (a : TripArrays) (id0 id1 n0 n1 : Int) (S0 S1 : List Int) (c : Char)
    (rest : List Tok) (b0 b1 : Nat) (bus0 bus1 : BusReservation) (r0 r1 r2 r3 : Nat)
    (rand : List Nat)
    (hin : s.stdin = Tok.num id0 :: Tok.num n0 :: (S0.map Tok.num ++
      Tok.num id1 :: Tok.num n1 :: (S1.map Tok.num ++ Tok.chr c :: rest)))
    (hrand : s.rand = r0 :: r1 :: r2 :: r3 :: rand)
    (hfree : ∀ r ∈ [r0, r1, r2, r3],
      IsUnique s.reservationTxt (100000 + (r : Int) % 900000) = some true)
    (hb0 : findBus s.buses id0 = some b0) (hbus0 : s.buses[b0]? = some bus0)
    (hv0 : ValidRequest bus0 n0 S0)
    (hb1 : findBus s.buses id1 = some b1)
    (hbus1 : (s.buses.set b0 (bookedBus bus0 n0 S0 (100000 + (r0 : Int) % 900000)))[b1]? =
      some bus1)
    (hv1 : ValidRequest bus1 n1 S1)
    (hc : ¬ (c = 'y' ∨ c = 'Y')) :
    ∃ s1, processBookingLoop currentUser d 2 (k + 3) 0 s a = some s1 ∧
      s1.stdout = s.stdout ++ [Msg.bookingSummary, Msg.bookingCanceled] := by
  have hr0 := hfree r0 (by simp)
  have hr1 := hfree r1 (by simp)
  have hr2 := hfree r2 (by simp)
  have hr3 := hfree r3 (by simp)
  have hlt0 : b0 < s.buses.length := lt_of_getElem_some _ _ _ hbus0
  have hbook0 := bookSeat_valid bus0
    { s with stdin := Tok.num n0 :: (S0.map Tok.num ++
      Tok.num id1 :: Tok.num n1 :: (S1.map Tok.num ++ Tok.chr c :: rest)) }
    n0 S0 (Tok.num id1 :: Tok.num n1 :: (S1.map Tok.num ++ Tok.chr c :: rest)) r0
    (r1 :: r2 :: r3 :: rand) rfl hv0 hrand hr0
  obtain ⟨f0, hfin0⟩ := finalizeBooking_first_returns currentUser
    { s with
      stdin := Tok.num id1 :: Tok.num n1 :: (S1.map Tok.num ++ Tok.chr c :: rest)
      rand := r1 :: r2 :: r3 :: rand
      buses := s.buses.set b0 (bookedBus bus0 n0 S0 (100000 + (r0 : Int) % 900000)) }
    b0 n0 S0 d { a with busIndices := set2 a.busIndices 0 (some b0) }
    (bookedBus bus0 n0 S0 (100000 + (r0 : Int) % 900000)) r1 (r2 :: r3 :: rand)
    hv0.2.1 hv0.1 (by simp [List.getElem?_set_self hlt0]) rfl hr1
  rw [show k + 3 = (k + 2) + 1 from rfl,
    processBookingLoop_round currentUser d 2 (k + 2) 0 s a id0 _ b0 bus0 _ _ _ (by simp) hin hb0
      hbus0 hbook0 (by show (100000 : Int) + (r0 : Int) % 900000 > 0; omega) hfin0]
  have hfind1 : findBus (s.buses.set b0 (bookedBus bus0 n0 S0 (100000 + (r0 : Int) % 900000)))
      id1 = some b1 := by
    unfold findBus at hb1 ⊢
    rw [findIndex_set_congr _ _ _ bus0 _ hbus0 (by simp [bookedBus])]
    exact hb1
  have hlt1 : b1 < (s.buses.set b0
      (bookedBus bus0 n0 S0 (100000 + (r0 : Int) % 900000))).length :=
    lt_of_getElem_some _ _ _ hbus1
  have hbook1 := bookSeat_valid bus1
    { s with
      stdin := Tok.num n1 :: (S1.map Tok.num ++ Tok.chr c :: rest)
      rand := r2 :: r3 :: rand
      buses := s.buses.set b0 (bookedBus bus0 n0 S0 (100000 + (r0 : Int) % 900000))
      seatCounts := set2 s.seatCounts 0 n0
      seatNumbersForAllTrips := set2 s.seatNumbersForAllTrips 0 (some S0) }
    n1 S1 (Tok.chr c :: rest) r2 (r3 :: rand) rfl hv1 rfl hr2
  have hb0x : ∃ bus0x, ((s.buses.set b0
      (bookedBus bus0 n0 S0 (100000 + (r0 : Int) % 900000))).set b1
        (bookedBus bus1 n1 S1 (100000 + (r2 : Int) % 900000)))[b0]? = some bus0x :=
    ⟨_, List.getElem?_eq_getElem (by simpa using hlt0)⟩
  obtain ⟨bus0x, hbus0x⟩ := hb0x
  obtain ⟨s1, a1, hfin1, hout, _⟩ := finalizeBooking_last_decline_returns currentUser
    { s with
      stdin := Tok.chr c :: rest
      rand := r3 :: rand
      buses := (s.buses.set b0 (bookedBus bus0 n0 S0 (100000 + (r0 : Int) % 900000))).set b1
        (bookedBus bus1 n1 S1 (100000 + (r2 : Int) % 900000))
      seatCounts := set2 s.seatCounts 0 n0
      seatNumbersForAllTrips := set2 s.seatNumbersForAllTrips 0 (some S0) }
    b0 b1 n0 n1 S0 S1 d
    { ticketNumbers := set2 a.ticketNumbers 0 (some (100000 + (r1 : Int) % 900000))
      totalFares := set2 a.totalFares 0 (some f0)
      busIndices := set2 (set2 a.busIndices 0 (some b0)) 1 (some b1) }
    bus0x (bookedBus bus1 n1 S1 (100000 + (r2 : Int) % 900000)) r3 rand c rest
    (100000 + (r1 : Int) % 900000) f0 hv0.2.1 hv0.1 hv1.2.1 hv1.1 hbus0x
    (by simp [List.getElem?_set_self hlt1]) (by simp [set2]) (by simp [set2])
    (by simp [set2]) (by simp [set2]) (by simp [set2]) rfl hc rfl hr3
  rw [show k + 2 = (k + 1) + 1 from rfl,
    processBookingLoop_round currentUser d 2 (k + 1) 1 _ _ id1 _ b1 bus1 _ _ _ (by simp) rfl
      hfind1 hbus1 hbook1 (by show (100000 : Int) + (r2 : Int) % 900000 > 0; omega) hfin1]
  refine ⟨s1, ?_, hout⟩
  rw [processBookingLoop]
  simp


/-- C5. Round-trip atomicity, for a round-trip run of `processBooking` (trip
type 2). First, whenever the run returns and its last message is
"Booking canceled." (both legs were provisionally reserved, on two trips or
on the same one, and the user answered the payment prompt with something
other than `y`/`Y`), the `availableSeats` and the `reservedSeats` sequence
of every trip equal their values before the transaction, and the
reservation ledger is unchanged. Second, such a run does return: when the
input names two buses that exist, each followed by a request that is valid
for the trip as it stands when it is made (the second trip may be the first
one, with its first leg held), then an answer other than `y`/`Y`, and the
four numbers drawn are free, `processBooking` returns with the last message
"Booking canceled.", every trip as before and the ledger unchanged. -/
theorem processBooking_round_trip_decline_restores (currentUser : user) (s : State)
    (rest : List Tok) (hin : s.stdin = Tok.num 2 :: rest) :
    (∀ s1, processBooking currentUser s = some s1 →
        s1.stdout.getLast? = some Msg.bookingCanceled →
        seatView s1 = seatView s ∧ s1.reservationTxt = s.reservationTxt) ∧
      (∀ (id0 id1 n0 n1 : Int) (S0 S1 : List Int) (c : Char) (rest2 : List Tok) (b0 b1 : Nat)
          (bus0 bus1 : BusReservation) (r0 r1 r2 r3 : Nat) (rand : List Nat),
        rest = Tok.num id0 :: Tok.num n0 :: (S0.map Tok.num ++
          Tok.num id1 :: Tok.num n1 :: (S1.map Tok.num ++ Tok.chr c :: rest2)) →
        s.rand = r0 :: r1 :: r2 :: r3 :: rand →
        (∀ r ∈ [r0, r1, r2, r3],
          IsUnique s.reservationTxt (100000 + (r : Int) % 900000) = some true) →
        findBus s.buses id0 = some b0 → s.buses[b0]? = some bus0 →
        ValidRequest bus0 n0 S0 →
        findBus s.buses id1 = some b1 →
        (s.buses.set b0 (bookedBus bus0 n0 S0 (100000 + (r0 : Int) % 900000)))[b1]? =
          some bus1 →
        ValidRequest bus1 n1 S1 →
        ¬ (c = 'y' ∨ c = 'Y') →
        ∃ s1, processBooking currentUser s = some s1 ∧
          s1.stdout.getLast? = some Msg.bookingCanceled ∧
          seatView s1 = seatView s ∧ s1.reservationTxt = s.reservationTxt) := by
  have hsafe : ∀ s1, processBooking currentUser s = some s1 →
      s1.stdout.getLast? = some Msg.bookingCanceled →
      seatView s1 = seatView s ∧ s1.reservationTxt = s.reservationTxt := by
    intro s1 hrun hdecl
    simp only [processBooking, hin] at hrun
    norm_num at hrun
    have h2 : Int.toNat 2 = 2 := rfl
    rw [h2] at hrun
    exact processBookingLoop_first_decline currentUser s.today _ { s with stdin := rest } s1
      TripArrays.uninit rfl hrun hdecl
  refine ⟨hsafe, ?_⟩
  intro id0 id1 n0 n1 S0 S1 c rest2 b0 b1 bus0 bus1 r0 r1 r2 r3 rand hrest hrand hfree hb0
    hbus0 hv0 hb1 hbus1 hv1 hc
  obtain ⟨s1, hloop, hout⟩ := processBookingLoop_round_trip_returns currentUser s.today
    ((S0.map Tok.num ++
      Tok.num id1 :: Tok.num n1 :: (S1.map Tok.num ++ Tok.chr c :: rest2)).length)
    { s with stdin := rest } TripArrays.uninit id0 id1 n0 n1 S0 S1 c rest2 b0 b1 bus0 bus1
    r0 r1 r2 r3 rand hrest hrand hfree hb0 hbus0 hv0 hb1 hbus1 hv1 hc
  have hrun : processBooking currentUser s = some s1 := by
    simp only [processBooking, hin]
    norm_num
    have h2 : Int.toNat 2 = 2 := rfl
    rw [h2, ← hloop]
    congr 1
    rw [hrest]
    simp only [List.length_cons]
  have hlast : s1.stdout.getLast? = some Msg.bookingCanceled := by
    rw [hout]
    simp
  exact ⟨s1, hrun, hlast, hsafe s1 hrun hlast⟩

/-- Witness of C5: leg 1 holds seats 5 and 6 on trip A, leg 2 holds seat 1
on trip B, the user answers `N`; the run returns, trip A is restored by 2
seats, trip B by 1, and no ledger line exists. -/
theorem processBooking_round_trip_decline_restores_witness :
    (mkState [tripA, tripB] [] (roundTripInput [Tok.chr 'N']) [0, 1, 2, 3]).stdin =
        Tok.num 2 :: [Tok.num 1, Tok.num 2, Tok.num 5, Tok.num 6, Tok.num 2, Tok.num 1,
          Tok.num 1, Tok.chr 'N'] ∧
      (processBooking ann
          (mkState [tripA, tripB] [] (roundTripInput [Tok.chr 'N']) [0, 1, 2, 3])).map
          (fun s => (seatView s, s.reservationTxt, s.stdout)) =
        some ([(40, []), (40, [])], [], [Msg.bookingSummary, Msg.bookingCanceled]) ∧
      ValidRequest tripA 2 [5, 6] ∧ ValidRequest tripB 1 [1] ∧
      ∃ s1,
        processBooking ann
            (mkState [tripA, tripB] [] (roundTripInput [Tok.chr 'N']) [0, 1, 2, 3]) =
          some s1 ∧
        s1.stdout.getLast? = some Msg.bookingCanceled ∧
        seatView s1 =
          seatView (mkState [tripA, tripB] [] (roundTripInput [Tok.chr 'N']) [0, 1, 2, 3]) ∧
        s1.reservationTxt =
          (mkState [tripA, tripB] [] (roundTripInput [Tok.chr 'N'])
            [0, 1, 2, 3]).reservationTxt :=
  ⟨rfl, by decide!, by decide, by decide,
    (processBooking_round_trip_decline_restores ann
      (mkState [tripA, tripB] [] (roundTripInput [Tok.chr 'N']) [0, 1, 2, 3])
      [Tok.num 1, Tok.num 2, Tok.num 5, Tok.num 6, Tok.num 2, Tok.num 1, Tok.num 1,
        Tok.chr 'N'] rfl).2 1 2 2 1 [5, 6] [1] 'N' [] 0 1 tripA tripB 0 1 2 3 [] rfl rfl
      (by decide) rfl rfl (by decide) rfl rfl (by decide) (by decide)⟩

/-! ## Lemmas on a confirmed cancellation -/

theorem notifyBoth_eq (s : State) (currentUser : user) (category : String)
    (ticketNumber : Int) :
    notifyBoth s currentUser category ticketNumber =
      { s with
        emailTxt := s.emailTxt ++ [⟨currentUser.email, "email", category, ticketNumber⟩]
        smsTxt := s.smsTxt ++ [⟨currentUser.phone, "sms", category, ticketNumber⟩] } := rfl

/-- The state a confirmed cancellation of ledger line `line` returns. -/
theorem cancelBooking_confirmed_eq (currentUser : user) (s : State) (ticketNumber : Int)
    (confirm : Char) (rest : List Tok) (line : Reservation)
    (hin : s.stdin = Tok.num ticketNumber :: Tok.chr confirm :: rest)
    (hc : confirm = 'Y' ∨ confirm = 'y')
    (hfind : findReservation s.reservationTxt ticketNumber currentUser.username = some line)
    (hwf : line.seatNumbers.length = line.numSeats.toNat) :
    cancelBooking currentUser s =
      some (confirmedCancel currentUser s ticketNumber rest line) := by
  have hcond : ¬ (confirm ≠ 'Y' ∧ confirm ≠ 'y') := by
    rcases hc with h | h <;> simp [h]
  simp only [cancelBooking, hin, hfind, hwf, ne_eq, not_true_eq_false, if_false, hcond,
    notifyBoth_eq, confirmedCancel, releasedBuses]
  cases findBus s.buses line.busID with
  | none => rfl
  | some i =>
    simp only
    cases s.buses[i]? with
    | none => rfl
    | some bus => rfl

theorem confirmedCancel_buses (currentUser : user) (s : State) (ticketNumber : Int)
    (rest : List Tok) (line : Reservation) :
    (confirmedCancel currentUser s ticketNumber rest line).buses =
      releasedBuses s.buses line := rfl

theorem confirmedCancel_getLast (currentUser : user) (s : State) (ticketNumber : Int)
    (rest : List Tok) (line : Reservation) :
    (confirmedCancel currentUser s ticketNumber rest line).stdout.getLast? =
      some (Msg.cancelSuccessRefund line.finalAmount) := by
  simp [confirmedCancel, State.print, List.getLast?_concat]

/-- C15 (code defect). A one-way booking of seats 1, 2 and 3 on trip C in
which the user agrees to proceed and then chooses "Cancel Payment" (3) is
committed all the same: the run prints "Payment canceled." and then
"Booking successful", a ledger line for the three seats is written,
`buses.txt` and `seats.txt` are flushed with 37 available seats and the three
seats, and the seats stay reserved. -/
theorem finalizeBooking_commits_after_payment_canceled :
    (processBooking ann
        (mkState [tripC] [] (oneWayInput [Tok.chr 'Y', Tok.num 3]) [0, 1])).map
        (fun s => (seatView s,
          s.reservationTxt.map (fun line => (line.ticketNumber, line.busID, line.seatNumbers)),
          s.seatsTxt, s.busesTxt.map (fun line => line.availableSeats), s.stdout)) =
      some ([(37, [1, 2, 3])], [(100001, 3, [1, 2, 3])], [⟨3, [1, 2, 3]⟩], [37],
        [Msg.bookingSummary, Msg.paymentCanceled, Msg.bookingSuccessful]) := by
  rfl

/-- C16 (code defect). On trip A, which has 40 seats, `bookSeat` accepts a
request for seat 45: it returns a ticket number and seat 45 enters
`reservedSeats`. The range check compares with `MAX_SEATS`, not with the
trip's `totalSeats`. -/
theorem bookSeat_accepts_seat_above_totalSeats :
    (bookSeat tripA (mkState [tripA] [] [Tok.num 1, Tok.num 45] [0])).map
        (fun r => (r.ret, r.bus.reservedSeats, r.bus.availableSeats, r.bus.totalSeats)) =
      some (100000, [45], 39, 40) := by
  decide

/-- C17 (code defect). On trip A, `bookSeat` accepts the request "2 seats:
5 5": it returns a ticket number, seat 5 enters `reservedSeats` twice and
`availableSeats` drops by 2. -/
theorem bookSeat_accepts_duplicate_seat :
    (bookSeat tripA (mkState [tripA] [] [Tok.num 2, Tok.num 5, Tok.num 5] [0])).map
        (fun r => (r.ret, r.bus.reservedSeats, r.bus.availableSeats)) =
      some (100000, [5, 5], 38) := by
  decide

/-- C18 (code defect). The seat-set invariant holds on trip A with no seat
reserved and fails after a successful `bookSeat`, both for the request
"5 5" (a seat twice) and for the request "45" (a seat above `totalSeats`). -/
theorem bookSeat_breaks_seat_set_invariant :
    SeatSetInv tripA ∧
      (bookSeat tripA (mkState [tripA] [] [Tok.num 2, Tok.num 5, Tok.num 5] [0])).map
          (fun r => (r.ret, decide (SeatSetInv r.bus))) = some (100000, false) ∧
      (bookSeat tripA (mkState [tripA] [] [Tok.num 1, Tok.num 45] [0])).map
          (fun r => (r.ret, decide (SeatSetInv r.bus))) = some (100000, false) := by
  decide

/-- C19 (code defect). An unknown bus ID does not repeat the leg. In a
one-way booking with bus ID 99, `processBooking` returns at once and leaves
the rest of the input (a bus ID, a count and a seat) unread. In a round trip
whose first bus ID is 99, the next bus ID is taken for the return trip, seat
5 is held, and `finalizeBooking` runs the summary with the first trip never
resolved, reading `busIndices[0]` that was never assigned (no defined
result). -/
theorem processBooking_unknown_bus_advances_leg :
    (processBooking ann
        (mkState [tripA] [] [Tok.num 1, Tok.num 99, Tok.num 1, Tok.num 1, Tok.num 5]
          [0, 1])).map (fun s => (observe s, s.stdin)) =
      some (([(40, [])], [], [Msg.noMatchingBus]), [Tok.num 1, Tok.num 1, Tok.num 5]) ∧
    processBooking ann
        (mkState [tripA] []
          [Tok.num 2, Tok.num 99, Tok.num 1, Tok.num 1, Tok.num 5, Tok.chr 'N'] [0, 1]) =
      none := by
  decide

/-- C20 (code defect). The release step is not idempotent on
`availableSeats`: on trip A with seat 7 reserved (39 available), releasing
seat 7 once gives 40 available seats and releasing it twice gives 41, for the
release of `cancelBooking` and for the rollback of `finalizeBooking` alike;
and releasing seat 7 on trip A with no seat reserved still adds one. -/
theorem release_twice_adds_seats :
    ((cancelRelease tripA7 1 [7]).reservedSeats, (cancelRelease tripA7 1 [7]).availableSeats) =
        ([], 40) ∧
      ((cancelRelease (cancelRelease tripA7 1 [7]) 1 [7]).reservedSeats,
        (cancelRelease (cancelRelease tripA7 1 [7]) 1 [7]).availableSeats) = ([], 41) ∧
      ((rollbackRelease tripA7 1 [7]).reservedSeats,
        (rollbackRelease tripA7 1 [7]).availableSeats) = ([], 40) ∧
      ((rollbackRelease (rollbackRelease tripA7 1 [7]) 1 [7]).reservedSeats,
        (rollbackRelease (rollbackRelease tripA7 1 [7]) 1 [7]).availableSeats) = ([], 41) ∧
      (cancelRelease tripA 1 [7]).availableSeats = 41 := by
  decide


/-! ## Lemmas on payment and commit -/

theorem processPaymentLoop_spec (totalFare : Rat) :
    ∀ (fuel : Nat) (s s1 : State), processPaymentLoop totalFare fuel s = some s1 →
      s1.stores = s.stores ∧
        ∀ m ∈ s1.stdout, m ∈ s.stdout ∨
          m ∈ [Msg.invalidCardNumber, Msg.invalidWallet, Msg.paymentCompleted totalFare,
            Msg.paymentSuccessful, Msg.paymentCanceled, Msg.invalidPaymentChoice] := by
  intro fuel
  induction fuel with
  | zero => intro s s1 h; simp [processPaymentLoop] at h
  | succ k ih =>
    intro s s1 h
    rw [processPaymentLoop] at h
    split at h
    · rename_i paymentMethod stdin hin
      split at h
      · split at h
        · rename_i cardNumber stdin1
          split at h
          · obtain ⟨h1, h2⟩ := ih _ _ h
            refine ⟨by simpa [State.stores, State.print] using h1, ?_⟩
            intro m hm
            rcases h2 m hm with h3 | h3
            · simp only [State.print, List.mem_append, List.mem_singleton] at h3
              rcases h3 with h3 | h3
              · exact Or.inl h3
              · subst h3; right; simp
            · exact Or.inr h3
          · simp only [Option.some.injEq] at h
            subst h
            refine ⟨by simp [State.stores, State.print], ?_⟩
            intro m hm
            simp only [State.print, List.mem_append, List.mem_singleton] at hm
            rcases hm with (hm | hm) | hm
            · exact Or.inl hm
            · subst hm; right; simp
            · subst hm; right; simp
        · simp at h
      · split at h
        · split at h
          · rename_i walletChoice stdin1
            split at h
            · obtain ⟨h1, h2⟩ := ih _ _ h
              refine ⟨by simpa [State.stores, State.print] using h1, ?_⟩
              intro m hm
              rcases h2 m hm with h3 | h3
              · simp only [State.print, List.mem_append, List.mem_singleton] at h3
                rcases h3 with h3 | h3
                · exact Or.inl h3
                · subst h3; right; simp
              · exact Or.inr h3
            · simp only [Option.some.injEq] at h
              subst h
              refine ⟨by simp [State.stores, State.print], ?_⟩
              intro m hm
              simp only [State.print, List.mem_append, List.mem_singleton] at hm
              rcases hm with (hm | hm) | hm
              · exact Or.inl hm
              · subst hm; right; simp
              · subst hm; right; simp
          · simp at h
        · split at h
          · simp only [Option.some.injEq] at h
            subst h
            refine ⟨by simp [State.stores, State.print], ?_⟩
            intro m hm
            simp only [State.print, List.mem_append, List.mem_singleton] at hm
            rcases hm with hm | hm
            · exact Or.inl hm
            · subst hm; right; simp
          · obtain ⟨h1, h2⟩ := ih _ _ h
            refine ⟨by simpa [State.stores, State.print] using h1, ?_⟩
            intro m hm
            rcases h2 m hm with h3 | h3
            · simp only [State.print, List.mem_append, List.mem_singleton] at h3
              rcases h3 with h3 | h3
              · exact Or.inl h3
              · subst h3; right; simp
            · exact Or.inr h3
    · simp at h

theorem summaryLoop_sum (s : State) (a : TripArrays) :
    ∀ (trips : List Nat) (acc total : Rat), summaryLoop s a trips acc = some total →
      ∃ fares : List Rat,
        trips.map (get2 a.totalFares) = fares.map some ∧ total = acc + fares.sum := by
  intro trips
  induction trips with
  | nil =>
    intro acc total h
    simp only [summaryLoop, Option.some.injEq] at h
    exact ⟨[], by simp, by simp [h]⟩
  | cons i rest ih =>
    intro acc total h
    rw [summaryLoop] at h
    split at h
    · rename_i currentBusIndex t totalFare hb ht hf
      split at h
      · obtain ⟨fares, h1, h2⟩ := ih _ _ h
        refine ⟨totalFare :: fares, by simp [hf, h1], ?_⟩
        rw [h2]
        simp only [List.sum_cons]
        ring
      · simp at h
    · simp at h

theorem commitLoop_fields (currentUser : user) (numSeats : Int) (bookingDate : String)
    (finalAmount : Rat) (a : TripArrays) :
    ∀ (trips : List Nat) (s s1 : State),
      commitLoop currentUser numSeats bookingDate finalAmount a trips s = some s1 →
      s1.stdout = s.stdout ∧ s1.buses = s.buses ∧
        s1.seatNumbersForAllTrips = s.seatNumbersForAllTrips := by
  intro trips
  induction trips with
  | nil =>
    intro s s1 h
    simp only [commitLoop, Option.some.injEq] at h
    subst h
    exact ⟨rfl, rfl, rfl⟩
  | cons i rest ih =>
    intro s s1 h
    rw [commitLoop] at h
    split at h
    · split at h
      · simp at h
      · split at h
        · simp at h
        · rename_i s2 hsave
          obtain ⟨h1, h2, h3⟩ := ih _ _ h
          unfold saveReservation at hsave
          split at hsave
          · simp at hsave
          · simp only [Option.some.injEq] at hsave
            subst hsave
            exact ⟨h1, h2, h3⟩
    · simp at h

theorem saveFrequentBooking_fields (s : State) (currentUser : user) (plate src dst : String) :
    (saveFrequentBooking s currentUser plate src dst).buses = s.buses ∧
      (saveFrequentBooking s currentUser plate src dst).reservationTxt = s.reservationTxt ∧
      ∀ m ∈ (saveFrequentBooking s currentUser plate src dst).stdout,
        m ∈ s.stdout ∨ m = Msg.frequentSaved := by
  unfold saveFrequentBooking
  simp only
  split
  · split
    · exact ⟨rfl, rfl, fun m hm => Or.inl hm⟩
    · split
      · exact ⟨rfl, rfl, fun m hm => Or.inl hm⟩
      · refine ⟨rfl, rfl, ?_⟩
        intro m hm
        simpa [State.print] using hm
  · exact ⟨rfl, rfl, fun m hm => Or.inl hm⟩

theorem freeTrips_fields (totalTrips : Nat) (s : State) :
    (freeTrips s totalTrips).buses = s.buses ∧
      (freeTrips s totalTrips).reservationTxt = s.reservationTxt ∧
      (freeTrips s totalTrips).stdout = s.stdout := by
  unfold freeTrips
  generalize List.range totalTrips = trips
  induction trips generalizing s with
  | nil => exact ⟨rfl, rfl, rfl⟩
  | cons i rest ih =>
    simp only [List.foldl_cons]
    obtain ⟨h1, h2, h3⟩ := ih
      { s with seatNumbersForAllTrips := set2 s.seatNumbersForAllTrips i none }
    exact ⟨h1, h2, h3⟩

theorem rollbackLoop_fields (a : TripArrays) :
    ∀ (trips : List Nat) (s s1 : State), rollbackLoop a trips s = some s1 →
      s1.stdout = s.stdout ∧ s1.reservationTxt = s.reservationTxt := by
  intro trips
  induction trips with
  | nil =>
    intro s s1 h
    simp only [rollbackLoop, Option.some.injEq] at h
    subst h
    exact ⟨rfl, rfl⟩
  | cons i rest ih =>
    intro s s1 h
    rw [rollbackLoop] at h
    split at h
    · simp at h
    · split at h
      · have key := ih _ _ h
        exact key
      · simp at h

theorem get2_set2 {α : Type} (a : α × α) (i : Nat) (v : α) : get2 (set2 a i v) i = v := by
  by_cases h : i = 0 <;> simp [get2, set2, h]

theorem generateTicketNumber_stdout (s s1 : State) (t : Int)
    (h : generateTicketNumber s = some (t, s1)) :
    s1.stdout = s.stdout ∧ s1.buses = s.buses ∧ s1.reservationTxt = s.reservationTxt := by
  obtain ⟨_, _, _, hs⟩ := generateTicketNumber_some s s1 t h
  refine ⟨?_, ?_, ?_⟩ <;> rw [hs]

/-! ## The fare law -/

theorem roundHalfEven_error (x : Rat) : |(roundHalfEven x : Rat) - x| ≤ 1 / 2 := by
  have h1 := Int.floor_le x
  have h2 := Int.lt_floor_add_one x
  unfold roundHalfEven
  split
  · rename_i h
    rw [abs_le]
    constructor <;> linarith
  · rename_i h
    split
    · rename_i h3
      push_cast
      rw [abs_le]
      constructor <;> linarith
    · rename_i h3
      have h4 : x - ⌊x⌋ = 1 / 2 := le_antisymm (not_lt.1 h3) (not_lt.1 h)
      split
      · rw [abs_le]
        constructor <;> linarith
      · push_cast
        rw [abs_le]
        constructor <;> linarith

theorem roundHalfEven_eq (x : Rat) (m : Int) (h : |x - m| < 1 / 2) : roundHalfEven x = m := by
  rw [abs_lt] at h
  obtain ⟨h1, h2⟩ := h
  unfold roundHalfEven
  have hf1 := Int.floor_le x
  have hf2 := Int.lt_floor_add_one x
  have hcase : ⌊x⌋ = m ∨ ⌊x⌋ = m - 1 := by
    have a1 : m - 1 ≤ ⌊x⌋ := by
      apply Int.le_floor.2
      push_cast
      linarith
    have a2 : ⌊x⌋ < m + 1 := by
      apply Int.floor_lt.2
      push_cast
      linarith
    omega
  rcases hcase with hc | hc
  · rw [hc]
    have : x - (m : Rat) < 1 / 2 := by linarith
    simp only [this, if_true]
  · rw [hc]
    push_cast
    have h3 : ¬ (x - ((m : Rat) - 1) < 1 / 2) := by
      intro h; linarith
    have h4 : 1 / 2 < x - ((m : Rat) - 1) := by linarith
    simp only [h3, h4, if_false, if_true]
    ring

theorem roundBinary_eq (p : Nat) (emin : Int) (x : Rat) (e m : Int)
    (hlo : (2 : Rat) ^ e ≤ |x|) (hhi : |x| < (2 : Rat) ^ (e + 1)) (hemin : emin ≤ e)
    (hm : |x / (2 : Rat) ^ (e - ((p : Int) - 1)) - m| < 1 / 2) :
    roundBinary p emin x = m * (2 : Rat) ^ (e - ((p : Int) - 1)) := by
  have hpos : 0 < |x| := lt_of_lt_of_le (by positivity) hlo
  have hlog : Int.log 2 |x| = e := by
    apply le_antisymm
    · have := (Int.lt_zpow_iff_log_lt (b := 2) (by norm_num) hpos (x := e + 1)).1
        (by exact_mod_cast hhi)
      omega
    · exact (Int.zpow_le_iff_le_log (b := 2) (by norm_num) hpos).1 (by exact_mod_cast hlo)
  unfold roundBinary
  simp only [hlog, max_eq_left hemin]
  rw [roundHalfEven_eq _ m hm]

theorem roundBinary_error (p : Nat) (emin : Int) (x : Rat) :
    |roundBinary p emin x - x| ≤ |x| * (2 : Rat) ^ (-(p : Int)) + (2 : Rat) ^ (emin - p) := by
  by_cases hx : x = 0
  · subst hx
    have : roundBinary p emin 0 = 0 := by
      unfold roundBinary
      simp [roundHalfEven]
    rw [this]
    simp
    positivity
  · have hpos : 0 < |x| := abs_pos.2 hx
    set e := max (Int.log 2 |x|) emin with he
    have hulp : (0 : Rat) < (2 : Rat) ^ (e - ((p : Int) - 1)) := by positivity
    have herr : |roundBinary p emin x - x| ≤ (2 : Rat) ^ (e - ((p : Int) - 1)) / 2 := by
      have h := roundHalfEven_error (x / (2 : Rat) ^ (e - ((p : Int) - 1)))
      have hx2 : roundBinary p emin x - x =
          ((roundHalfEven (x / (2 : Rat) ^ (e - ((p : Int) - 1))) : Rat) -
            x / (2 : Rat) ^ (e - ((p : Int) - 1))) * (2 : Rat) ^ (e - ((p : Int) - 1)) := by
        unfold roundBinary
        simp only [← he]
        field_simp
      rw [hx2, abs_mul, abs_of_pos hulp]
      calc _ ≤ 1 / 2 * (2 : Rat) ^ (e - ((p : Int) - 1)) :=
            mul_le_mul_of_nonneg_right h hulp.le
        _ = _ := by ring
    have hhalf : (2 : Rat) ^ (e - ((p : Int) - 1)) / 2 = (2 : Rat) ^ (e - (p : Int)) := by
      have : e - ((p : Int) - 1) = (e - (p : Int)) + 1 := by ring
      rw [this, zpow_add_one₀ (by norm_num)]
      ring
    rw [hhalf] at herr
    rcases le_total emin (Int.log 2 |x|) with hle | hle
    · have hee : e = Int.log 2 |x| := by rw [he]; exact max_eq_left hle
      have hlog := Int.zpow_log_le_self (b := 2) (by norm_num) hpos
      have : (2 : Rat) ^ (e - (p : Int)) ≤ |x| * (2 : Rat) ^ (-(p : Int)) := by
        rw [hee, sub_eq_add_neg, zpow_add₀ (by norm_num)]
        apply mul_le_mul_of_nonneg_right _ (by positivity)
        exact_mod_cast hlog
      have h0 : (0 : Rat) ≤ (2 : Rat) ^ (emin - (p : Int)) := by positivity
      linarith
    · have hee : e = emin := by rw [he]; exact max_eq_right hle
      rw [hee] at herr
      have h0 : (0 : Rat) ≤ |x| * (2 : Rat) ^ (-(p : Int)) := by positivity
      linarith


theorem roundBinary_eq_pos (p : Nat) (emin : Int) (x : Rat) (e m : Int)
    (hlo : (2 : Rat) ^ e ≤ x) (hhi : x < (2 : Rat) ^ (e + 1)) (hemin : emin ≤ e)
    (h1 : (m : Rat) - 1 / 2 < x / (2 : Rat) ^ (e - ((p : Int) - 1)))
    (h2 : x / (2 : Rat) ^ (e - ((p : Int) - 1)) < (m : Rat) + 1 / 2) :
    roundBinary p emin x = m * (2 : Rat) ^ (e - ((p : Int) - 1)) := by
  have hx : 0 ≤ x := le_trans (by positivity) hlo
  apply roundBinary_eq p emin x e m
  · rw [abs_of_nonneg hx]; exact hlo
  · rw [abs_of_nonneg hx]; exact hhi
  · exact hemin
  · rw [abs_lt]
    constructor <;> linarith

theorem roundFloat_error (x : Rat) : |roundFloat x - x| ≤ |x| / 16777216 + 1 / 10 ^ 30 := by
  have h := roundBinary_error 24 (-126) x
  have e1 : (2 : Rat) ^ (-((24 : Nat) : Int)) = 1 / 16777216 := by norm_num
  have e2 : (2 : Rat) ^ ((-126 : Int) - ((24 : Nat) : Int)) ≤ 1 / 10 ^ 30 := by norm_num
  unfold roundFloat
  have h3 := le_trans h (add_le_add (mul_le_mul_of_nonneg_left (le_of_eq e1) (abs_nonneg x)) e2)
  have : |x| * (1 / 16777216) = |x| / 16777216 := by ring
  rw [this] at h3
  exact h3

theorem roundDouble_error (x : Rat) : |roundDouble x - x| ≤ |x| / 10 ^ 15 + 1 / 10 ^ 30 := by
  have h := roundBinary_error 53 (-1022) x
  have e1 : (2 : Rat) ^ (-((53 : Nat) : Int)) ≤ 1 / 10 ^ 15 := by norm_num
  have e2 : (2 : Rat) ^ ((-1022 : Int) - ((53 : Nat) : Int)) ≤ 1 / 10 ^ 30 := by norm_num
  unfold roundDouble
  have h3 := le_trans h (add_le_add (mul_le_mul_of_nonneg_left e1 (abs_nonneg x)) e2)
  have : |x| * (1 / 10 ^ 15) = |x| / 10 ^ 15 := by ring
  rw [this] at h3
  exact h3

theorem calculateFareFloat_error (numSeats : Int) (farePerSeat : Rat)
    (hn : roundFloat numSeats = numSeats) (h0 : 0 ≤ numSeats * farePerSeat)
    (h1 : numSeats * farePerSeat ≤ 65536) :
    |calculateFareFloat numSeats farePerSeat - numSeats * farePerSeat * (106 / 100)| ≤
      1 / 100 := by
  unfold calculateFareFloat
  simp only [SST_RATE]
  rw [hn]
  set P : Rat := numSeats * farePerSeat with hP
  set t := roundFloat P with ht
  set c := roundDouble (6 / 100) with hc
  set d := roundDouble (t * c) with hd
  set s := roundFloat d with hs
  have et := roundFloat_error P
  have ec := roundDouble_error (6 / 100)
  have ed := roundDouble_error (t * c)
  have es := roundFloat_error d
  have ef := roundFloat_error (t + s)
  rw [← ht] at et
  rw [← hc] at ec
  rw [← hd] at ed
  rw [← hs] at es
  have aP : |P| = P := abs_of_nonneg h0
  rw [aP] at et
  have et1 : |t - P| ≤ 1 / 256 + 1 / 10 ^ 30 := by linarith
  have at1 : |t| ≤ 65537 := by
    have := abs_sub_abs_le_abs_sub t P
    rw [aP] at this
    have e : (1 : Rat) / 256 + 1 / 10 ^ 30 ≤ 1 := by norm_num
    linarith
  have ec1 : |c - 6 / 100| ≤ 1 / 10 ^ 16 := by
    have : |(6 : Rat) / 100| = 6 / 100 := abs_of_nonneg (by norm_num)
    rw [this] at ec
    have e : (6 : Rat) / 100 / 10 ^ 15 + 1 / 10 ^ 30 ≤ 1 / 10 ^ 16 := by norm_num
    linarith
  have ac1 : |c| ≤ 7 / 100 := by
    have := abs_sub_abs_le_abs_sub c (6 / 100)
    have e0 : |(6 : Rat) / 100| = 6 / 100 := abs_of_nonneg (by norm_num)
    rw [e0] at this
    have e : (6 : Rat) / 100 + 1 / 10 ^ 16 ≤ 7 / 100 := by norm_num
    linarith
  have atc : |t * c| ≤ 4588 := by
    rw [abs_mul]
    calc |t| * |c| ≤ 65537 * (7 / 100) :=
          mul_le_mul at1 ac1 (abs_nonneg c) (by norm_num)
      _ ≤ 4588 := by norm_num
  have ed1 : |d - t * c| ≤ 1 / 10 ^ 11 := by
    have e : (4588 : Rat) / 10 ^ 15 + 1 / 10 ^ 30 ≤ 1 / 10 ^ 11 := by norm_num
    have : |t * c| / 10 ^ 15 ≤ 4588 / 10 ^ 15 := by
      apply div_le_div_of_nonneg_right atc (by norm_num)
    linarith
  have ad1 : |d| ≤ 4589 := by
    have := abs_sub_abs_le_abs_sub d (t * c)
    have e : (1 : Rat) / 10 ^ 11 ≤ 1 := by norm_num
    linarith
  have es1 : |s - d| ≤ 3 / 10000 := by
    have e : (4589 : Rat) / 16777216 + 1 / 10 ^ 30 ≤ 3 / 10000 := by norm_num
    have : |d| / 16777216 ≤ 4589 / 16777216 := by
      apply div_le_div_of_nonneg_right ad1 (by norm_num)
    linarith
  have as1 : |s| ≤ 4590 := by
    have := abs_sub_abs_le_abs_sub s d
    have e : (3 : Rat) / 10000 ≤ 1 := by norm_num
    linarith
  have ats : |t + s| ≤ 70127 := by
    have := abs_add t s
    linarith
  have ef1 : |roundFloat (t + s) - (t + s)| ≤ 42 / 10000 := by
    have e : (70127 : Rat) / 16777216 + 1 / 10 ^ 30 ≤ 42 / 10000 := by norm_num
    have : |t + s| / 16777216 ≤ 70127 / 16777216 := by
      apply div_le_div_of_nonneg_right ats (by norm_num)
    linarith
  have etax : |t * c - P * (6 / 100)| ≤ 3 / 10000 := by
    have e1 : t * c - P * (6 / 100) = t * (c - 6 / 100) + (6 / 100) * (t - P) := by ring
    rw [e1]
    have e2 : |t * (c - 6 / 100)| ≤ 65537 * (1 / 10 ^ 16) := by
      rw [abs_mul]
      exact mul_le_mul at1 ec1 (abs_nonneg _) (by norm_num)
    have e3 : |(6 : Rat) / 100 * (t - P)| ≤ 6 / 100 * (1 / 256 + 1 / 10 ^ 30) := by
      rw [abs_mul, abs_of_nonneg (by norm_num : (0 : Rat) ≤ 6 / 100)]
      exact mul_le_mul_of_nonneg_left et1 (by norm_num)
    have e4 := abs_add (t * (c - 6 / 100)) ((6 : Rat) / 100 * (t - P))
    have e5 : (65537 : Rat) * (1 / 10 ^ 16) + 6 / 100 * (1 / 256 + 1 / 10 ^ 30) ≤ 3 / 10000 := by
      norm_num
    linarith
  have e6 : roundFloat (t + s) - P * (106 / 100) =
      (roundFloat (t + s) - (t + s)) + (t - P) + (s - d) + (d - t * c) +
        (t * c - P * (6 / 100)) := by ring
  rw [e6]
  have b1 := abs_add ((roundFloat (t + s) - (t + s)) + (t - P) + (s - d) + (d - t * c))
    (t * c - P * (6 / 100))
  have b2 := abs_add ((roundFloat (t + s) - (t + s)) + (t - P) + (s - d)) (d - t * c)
  have b3 := abs_add ((roundFloat (t + s) - (t + s)) + (t - P)) (s - d)
  have b4 := abs_add (roundFloat (t + s) - (t + s)) (t - P)
  have e7 : (42 : Rat) / 10000 + (1 / 256 + 1 / 10 ^ 30) + 3 / 10000 + 1 / 10 ^ 11 +
      3 / 10000 ≤ 1 / 100 := by norm_num
  linarith

/-- The fare law in exact arithmetic, on the amounts of the state model.
`calculateFare n f` equals `n × f + (n × f) × 0.06 = n × f × 1.06`; the amount
`finalizeBooking` stores for its leg in `totalFares` is `calculateFare` of the
leg's seat count and the unit fare of the leg's bus; and every amount
`processPayment` reports as paid during the call is the sum, over the trips of
the transaction, of the amounts stored in `totalFares`. -/
theorem fare_law_exact (currentUser : user) (s s1 : State) (busIndex : Nat) (numSeats : Int)
    (seatNumbers : List Int) (bookingDate : String) (tripIndex totalTrips : Nat)
    (a a1 : TripArrays) (farePerSeat : Rat)
    (h : finalizeBooking currentUser s busIndex numSeats seatNumbers bookingDate tripIndex
      totalTrips a = some (s1, a1)) :
    calculateFare numSeats farePerSeat =
        numSeats * farePerSeat + numSeats * farePerSeat * (6 / 100) ∧
      calculateFare numSeats farePerSeat = numSeats * farePerSeat * (106 / 100) ∧
      (∃ bus, s.buses[busIndex]? = some bus ∧
        get2 a1.totalFares tripIndex = some (calculateFare numSeats bus.fare)) ∧
      ∀ x, Msg.paymentCompleted x ∈ s1.stdout → Msg.paymentCompleted x ∈ s.stdout ∨
        ∃ fares : List Rat,
          (List.range totalTrips).map (get2 a1.totalFares) = fares.map some ∧
            x = fares.sum := by
  refine ⟨by simp only [calculateFare, SST_RATE], ?_, ?_⟩
  · simp only [calculateFare, SST_RATE]
    ring
  · unfold finalizeBooking at h
    split at h
    · simp at h
    · rename_i t sg hgen
      obtain ⟨g1, g2, g3⟩ := generateTicketNumber_stdout _ _ _ hgen
      split at h
      · rename_i bus copy hb hc
        have hbus : s.buses[busIndex]? = some bus := by rw [← g2]; exact hb
        simp only at h
        split at h
        · split at h
          · simp at h
          · rename_i totalPayment hsum
            obtain ⟨fares, hf1, hf2⟩ := summaryLoop_sum _ _ _ _ _ hsum
            simp only [zero_add] at hf2
            split at h
            · rename_i proceed stdin hin
              split at h
              · split at h
                · simp at h
                · rename_i s4 hpay
                  split at h
                  · simp at h
                  · rename_i s5 hcommit
                    simp only [Option.some.injEq, Prod.mk.injEq] at h
                    obtain ⟨h1, h2⟩ := h
                    subst h1; subst h2
                    refine ⟨⟨bus, hbus, ?_⟩, ?_⟩
                    · simp only [get2_set2]
                      rfl
                    · intro x hx
                      obtain ⟨p1, p2⟩ := processPaymentLoop_spec _ _ _ _ hpay
                      obtain ⟨c1, _, _⟩ := commitLoop_fields _ _ _ _ _ _ _ _ hcommit
                      simp only [State.print, List.mem_append, List.mem_singleton] at hx
                      rcases hx with hx | hx
                      · rw [(freeTrips_fields _ _).2.2] at hx
                        rcases (saveFrequentBooking_fields _ _ _ _ _).2.2 _ hx with hx | hx
                        · have hx' : Msg.paymentCompleted x ∈ s5.stdout := hx
                          rw [c1] at hx'
                          rcases p2 _ hx' with hx | hx
                          · simp only [State.print, List.mem_append, List.mem_singleton] at hx
                            rcases hx with hx | hx
                            · left; rw [← g1]; exact hx
                            · cases hx
                          · simp only [List.mem_cons, Msg.paymentCompleted.injEq,
                              List.mem_singleton, reduceCtorEq, false_or, or_false,
                              List.not_mem_nil] at hx
                            right
                            exact ⟨fares, hf1, hx.trans hf2⟩
                        · cases hx
                      · cases hx
              · split at h
                · simp at h
                · rename_i s4 hroll
                  simp only [Option.some.injEq, Prod.mk.injEq] at h
                  obtain ⟨h1, h2⟩ := h
                  subst h1; subst h2
                  refine ⟨⟨bus, hbus, ?_⟩, ?_⟩
                  · simp only [get2_set2]
                    rfl
                  · intro x hx
                    rw [(freeTrips_fields _ _).2.2, (rollbackLoop_fields _ _ _ _ hroll).1] at hx
                    simp only [State.print, List.mem_append, List.mem_singleton] at hx
                    rcases hx with (hx | hx) | hx
                    · left; rw [← g1]; exact hx
                    · cases hx
                    · cases hx
            · simp at h
        · simp only [Option.some.injEq, Prod.mk.injEq] at h
          obtain ⟨h1, h2⟩ := h
          subst h1; subst h2
          refine ⟨⟨bus, hbus, ?_⟩, ?_⟩
          · simp only [get2_set2]
            rfl
          · intro x hx
            left
            rw [← g1]
            exact hx
      · simp at h

/-- C14 (counterexample). In the program's arithmetic the fare of 50 seats at
9999.99 is off by more than 0.01: the `float` nearest to 9999.99 is
9999.990234375, `calculateFare` returns 529999.5 for it, and
`50 × 9999.990234375 × 1.06` is 529999.482421875. -/
theorem calculateFareFloat_off_by_more_than_a_cent :
    roundFloat (999999 / 100) = 5119995 / 512 ∧
      calculateFareFloat 50 (5119995 / 512) = 1059999 / 2 ∧
      (50 : Int) * (5119995 / 512 : Rat) * (106 / 100) = 271359735 / 512 ∧
      (1 : Rat) / 100 <
        |calculateFareFloat 50 (5119995 / 512) -
          (50 : Int) * (5119995 / 512 : Rat) * (106 / 100)| := by
  have r1 : roundFloat (999999 / 100) = 5119995 / 512 := by
    unfold roundFloat
    rw [roundBinary_eq_pos 24 (-126) _ 13 10239990 (by norm_num) (by norm_num) (by norm_num)
      (by norm_num) (by norm_num)]
    norm_num
  have r2 : roundFloat ((50 : Int) : Rat) = 50 := by
    unfold roundFloat
    rw [roundBinary_eq_pos 24 (-126) _ 5 13107200 (by norm_num) (by norm_num) (by norm_num)
      (by norm_num) (by norm_num)]
    norm_num
  have r3 : roundFloat (50 * (5119995 / 512)) = 999999 / 2 := by
    unfold roundFloat
    rw [roundBinary_eq_pos 24 (-126) _ 18 15999984 (by norm_num) (by norm_num) (by norm_num)
      (by norm_num) (by norm_num)]
    norm_num
  have r4 : roundDouble SST_RATE = 1080863910568919 / 18014398509481984 := by
    unfold roundDouble SST_RATE
    rw [roundBinary_eq_pos 53 (-1022) _ (-5) 8646911284551352 (by norm_num) (by norm_num)
      (by norm_num) (by norm_num) (by norm_num)]
    norm_num
  have r5 : roundDouble (999999 / 2 * (1080863910568919 / 18014398509481984)) =
      8246328961982791 / 274877906944 := by
    unfold roundDouble
    rw [roundBinary_eq_pos 53 (-1022) _ 14 8246328961982791 (by norm_num) (by norm_num)
      (by norm_num) (by norm_num) (by norm_num)]
    norm_num
  have r6 : roundFloat (8246328961982791 / 274877906944) = 15359985 / 512 := by
    unfold roundFloat
    rw [roundBinary_eq_pos 24 (-126) _ 14 15359985 (by norm_num) (by norm_num) (by norm_num)
      (by norm_num) (by norm_num)]
    norm_num
  have r7 : roundFloat (999999 / 2 + 15359985 / 512) = 1059999 / 2 := by
    unfold roundFloat
    rw [roundBinary_eq_pos 24 (-126) _ 19 8479992 (by norm_num) (by norm_num) (by norm_num)
      (by norm_num) (by norm_num)]
    norm_num
  have r8 : calculateFareFloat 50 (5119995 / 512) = 1059999 / 2 := by
    unfold calculateFareFloat
    simp only [r2, r3, r4, r5, r6, r7]
  refine ⟨r1, r8, by norm_num, ?_⟩
  rw [r8]
  norm_num [abs_of_nonneg]


/-- C14 (amended). Fare law. In exact arithmetic, on the amounts of the state
model: `calculateFare n f` equals `n × f + (n × f) × 0.06 = n × f × 1.06`; the
amount `finalizeBooking` stores for its leg is `calculateFare` of the leg's
seat count and the unit fare of the leg's bus; and every amount
`processPayment` reports as paid during the call is the sum of the amounts
stored for the trips of the transaction. In the program's arithmetic: for a
seat count that converts to `float` exactly and a base fare `n × f` between
0 and 65536, the value `calculateFare` computes is within 0.01 of
`n × f × 1.06`. -/
theorem fare_law (currentUser : user) (s s1 : State) (busIndex : Nat) (numSeats : Int)
    (seatNumbers : List Int) (bookingDate : String) (tripIndex totalTrips : Nat)
    (a a1 : TripArrays) (farePerSeat : Rat)
    (h : finalizeBooking currentUser s busIndex numSeats seatNumbers bookingDate tripIndex
      totalTrips a = some (s1, a1)) :
    calculateFare numSeats farePerSeat =
        numSeats * farePerSeat + numSeats * farePerSeat * (6 / 100) ∧
      calculateFare numSeats farePerSeat = numSeats * farePerSeat * (106 / 100) ∧
      (∃ bus, s.buses[busIndex]? = some bus ∧
        get2 a1.totalFares tripIndex = some (calculateFare numSeats bus.fare)) ∧
      (∀ x, Msg.paymentCompleted x ∈ s1.stdout → Msg.paymentCompleted x ∈ s.stdout ∨
        ∃ fares : List Rat,
          (List.range totalTrips).map (get2 a1.totalFares) = fares.map some ∧
            x = fares.sum) ∧
      (roundFloat numSeats = numSeats → 0 ≤ numSeats * farePerSeat →
        numSeats * farePerSeat ≤ 65536 →
        |calculateFareFloat numSeats farePerSeat - numSeats * farePerSeat * (106 / 100)| ≤
          1 / 100) := by
  obtain ⟨e1, e2, e3, e4⟩ := fare_law_exact currentUser s s1 busIndex numSeats seatNumbers
    bookingDate tripIndex totalTrips a a1 farePerSeat h
  exact ⟨e1, e2, e3, e4, calculateFareFloat_error numSeats farePerSeat⟩

/-! ## One-way booking followed by cancellation -/

theorem processBookingLoop_exit_one (currentUser : user) (d : String) (fuel : Nat)
    (s s1 : State) (a : TripArrays)
    (h : processBookingLoop currentUser d 1 fuel 1 s a = some s1) : s1 = s := by
  cases fuel with
  | zero => simp [processBookingLoop] at h
  | succ k =>
    simp [processBookingLoop] at h
    exact h.symm

theorem range_one : List.range 1 = [0] := by decide

theorem commitLoop_single (currentUser : user) (numSeats : Int) (bookingDate : String)
    (finalAmount : Rat) (a : TripArrays) (s s1 : State) (t : Int) (b : Nat)
    (bus : BusReservation) (seats : List Int)
    (ht : a.ticketNumbers.1 = some t) (hb : a.busIndices.1 = some b)
    (hbus : s.buses[b]? = some bus) (hp : s.seatNumbersForAllTrips.1 = some seats)
    (hl : (seats.length : Int) = numSeats) (hpos : 0 < numSeats)
    (h : commitLoop currentUser numSeats bookingDate finalAmount a [0] s = some s1) :
    s1.reservationTxt = s.reservationTxt ++
      [⟨currentUser.username, t, bus.busID, bus.busNumberPlate, bookingDate, numSeats, seats,
        finalAmount⟩] := by
  simp only [commitLoop, get2, if_true, ht, hb, hbus, saveReservation, hp,
    readBlock_full seats numSeats hl hpos, Option.some.injEq] at h
  subst h
  rfl

theorem commit_tail_fields (s5 : State) (currentUser : user) (plate src dst : String)
    (totalTrips : Nat) (m : Msg) :
    ((freeTrips (saveFrequentBooking (saveSeats (saveBuses s5)) currentUser plate src dst)
        totalTrips).print m).buses = s5.buses ∧
      ((freeTrips (saveFrequentBooking (saveSeats (saveBuses s5)) currentUser plate src dst)
        totalTrips).print m).reservationTxt = s5.reservationTxt := by
  constructor
  · show (freeTrips _ totalTrips).buses = _
    rw [(freeTrips_fields _ _).1, (saveFrequentBooking_fields _ _ _ _ _).1]
    rfl
  · show (freeTrips _ totalTrips).reservationTxt = _
    rw [(freeTrips_fields _ _).2.1, (saveFrequentBooking_fields _ _ _ _ _).2.1]
    rfl

/-- A one-way `finalizeBooking` that ends with "Booking successful" has
appended exactly one ledger line, for a ticket number not in the ledger. -/
theorem finalizeBooking_oneway_commit (currentUser : user) (s s1 : State) (b : Nat)
    (n : Int) (seats : List Int) (d : String) (a a1 : TripArrays)
    (hl : (seats.length : Int) = n) (hpos : 0 < n)
    (h : finalizeBooking currentUser s b n seats d 0 1 a = some (s1, a1))
    (hlast : s1.stdout.getLast? = some Msg.bookingSuccessful) :
    ∃ t bus, s.buses[b]? = some bus ∧ IsUnique s.reservationTxt t = some true ∧
      s1.buses = s.buses ∧
      s1.reservationTxt = s.reservationTxt ++
        [⟨currentUser.username, t, bus.busID, bus.busNumberPlate, d, n, seats,
          calculateFare n bus.fare⟩] := by
  unfold finalizeBooking at h
  split at h
  · simp at h
  · rename_i t sg hgen
    obtain ⟨_, _, huniq, _⟩ := generateTicketNumber_some _ _ _ hgen
    obtain ⟨_, g2, g3⟩ := generateTicketNumber_stdout _ _ _ hgen
    rw [readBlock_full seats n hl hpos] at h
    split at h
    · rename_i bus copy hb hc
      simp only [Option.some.injEq] at hc
      subst hc
      have hbus : s.buses[b]? = some bus := by rw [← g2]; exact hb
      simp only [Nat.zero_add, if_true, range_one] at h
      split at h
      · simp at h
      · split at h
        · rename_i proceed stdin hin
          split at h
          · split at h
            · simp at h
            · rename_i s4 hpay
              split at h
              · simp at h
              · rename_i s5 hcommit
                simp only [Option.some.injEq, Prod.mk.injEq] at h
                obtain ⟨h1, _⟩ := h
                subst h1
                obtain ⟨p1, _⟩ := processPaymentLoop_spec _ _ _ _ hpay
                have pb : s4.buses = sg.buses := by
                  have e := congrArg State.buses p1
                  exact e
                have pr : s4.reservationTxt = sg.reservationTxt := by
                  have e := congrArg State.reservationTxt p1
                  exact e
                have pp : s4.seatNumbersForAllTrips = set2 sg.seatNumbersForAllTrips 0
                    (some seats) := by
                  have e := congrArg State.seatNumbersForAllTrips p1
                  exact e
                obtain ⟨_, c2, _⟩ := commitLoop_fields _ _ _ _ _ _ _ _ hcommit
                have c4 := commitLoop_single currentUser n d _ _ s4 s5 t b bus seats
                  (by simp [set2]) (by simp [set2]) (by rw [pb]; exact hb)
                  (by rw [pp]; simp [set2]) hl hpos hcommit
                refine ⟨t, bus, hbus, huniq, ?_, ?_⟩
                · refine (commit_tail_fields s5 currentUser _ _ _ 1 _).1.trans ?_
                  rw [c2, pb, g2]
                · refine (commit_tail_fields s5 currentUser _ _ _ 1 _).2.trans ?_
                  rw [c4, pr, g3]
                  rfl
          · split at h
            · simp at h
            · rename_i s4 hroll
              simp only [Option.some.injEq, Prod.mk.injEq] at h
              obtain ⟨h1, _⟩ := h
              subst h1
              rw [(freeTrips_fields _ _).2.2, (rollbackLoop_fields _ _ _ _ hroll).1] at hlast
              simp [State.print, List.getLast?_concat] at hlast
        · simp at h
    · simp at h

theorem findIndex_set (p : BusReservation → Bool) (buses : List BusReservation) (i : Nat)
    (bus : BusReservation) (h : findIndex p buses = some i) (hp : p bus = true) :
    findIndex p (buses.set i bus) = some i := by
  induction buses generalizing i with
  | nil => simp [findIndex] at h
  | cons first rest ih =>
    simp only [findIndex] at h
    split at h
    · simp only [Option.some.injEq] at h
      subst h
      simp [findIndex, hp]
    · rename_i hfirst
      cases hr : findIndex p rest with
      | none => simp [hr] at h
      | some j =>
        simp only [hr, Option.map_some', Option.some.injEq] at h
        subst h
        simp [findIndex, hfirst, ih j hr]

/-- A one-way run of the trip loop that ends with "Booking successful" has
booked seats on one bus and appended one ledger line for them. -/
theorem processBookingLoop_oneway_commit (currentUser : user) (d : String) :
    ∀ (fuel : Nat) (s s1 : State) (a : TripArrays),
      processBookingLoop currentUser d 1 fuel 0 s a = some s1 →
      s1.stdout.getLast? = some Msg.bookingSuccessful →
      ∃ (b : Nat) (bus : BusReservation) (n : Int) (seats : List Int) (tk t : Int),
        s.buses[b]? = some bus ∧ findBus s.buses bus.busID = some b ∧ 0 < n ∧
        (seats.length : Int) = n ∧ (∀ x ∈ seats, x ∉ bus.reservedSeats) ∧
        IsUnique s.reservationTxt t = some true ∧
        s1.buses = s.buses.set b (bookedBus bus n seats tk) ∧
        s1.reservationTxt = s.reservationTxt ++
          [⟨currentUser.username, t, bus.busID, bus.busNumberPlate, d, n, seats,
            calculateFare n bus.fare⟩] := by
  intro fuel
  induction fuel with
  | zero => intro s s1 a h; simp [processBookingLoop] at h
  | succ k ih =>
    intro s s1 a h hlast
    rw [processBookingLoop] at h
    simp only [OfNat.one_ne_ofNat, if_false, Nat.lt_one_iff, if_true] at h
    split at h
    · simp at h
    · rename_i busID stdin hin
      split at h
      · have := processBookingLoop_exit_one _ _ _ _ _ _ h
        subst this
        rw [getLast_print] at hlast
        simp at hlast
      · rename_i b hfind
        split at h
        · simp at h
        · rename_i bus hbus
          have hbus' : s.buses[b]? = some bus := hbus
          have hfind' : findBus s.buses busID = some b := hfind
          obtain ⟨bus0, hb0, hp0⟩ := findIndex_some _ _ _ hfind'
          have hid : bus.busID = busID := by
            rw [hbus'] at hb0
            simp only [Option.some.injEq] at hb0
            subst hb0
            simpa using hp0
          split at h
          · simp at h
          · rename_i r hr
            split at h
            · rename_i hret
              rcases bookSeat_cases bus { s with stdin := stdin } r hr with ⟨h0, _, _⟩ |
                ⟨seats, hpos, _, hlen, _, hfree, _, _, _, hseats, hrb, hst⟩
              · omega
              · have e1 : r.state.buses = s.buses := by rw [hst]
                have e2 : r.state.reservationTxt = s.reservationTxt := by rw [hst]
                split at h
                · simp at h
                · rename_i s3 a2 hfin
                  have := processBookingLoop_exit_one _ _ _ _ _ _ h
                  subst this
                  rw [hseats] at hfin
                  obtain ⟨t, bus2, f1, f2, f3, f4⟩ :=
                    finalizeBooking_oneway_commit currentUser _ s1 b r.numSeats seats d _ a2
                      hlen hpos hfin hlast
                  simp only [e1, e2] at f1 f2 f3 f4
                  have hlt : b < s.buses.length := lt_of_getElem_some _ _ _ hbus'
                  rw [List.getElem?_set_self hlt] at f1
                  simp only [Option.some.injEq] at f1
                  subst f1
                  rw [hrb] at f3 f4
                  refine ⟨b, bus, r.numSeats, seats, r.ret, t, hbus', ?_, hpos, hlen,
                    fun x hx => (hfree x hx).2.2, f2, f3, f4⟩
                  rw [hid]
                  exact hfind'
            · rename_i hret
              obtain ⟨e1, e2, _, _⟩ :=
                bookSeat_failed_state bus { s with stdin := stdin } r b hbus hr hret
              simp only at e1 e2
              obtain ⟨b1, bus1, n, seats, tk, t, k1, k2, k3, k4, k5, k6, k7, k8⟩ :=
                ih _ s1 _ h hlast
              simp only [State.print, e1, e2] at k1 k2 k6 k7 k8
              exact ⟨b1, bus1, n, seats, tk, t, k1, k2, k3, k4, k5, k6, k7, k8⟩
    · simp only [Option.some.injEq] at h
      subst h
      rw [getLast_print] at hlast
      simp at hlast

theorem findReservation_append_fresh (ledger : List Reservation) (line : Reservation)
    (hne : ∀ l ∈ ledger, l.username = line.username → l.ticketNumber ≠ line.ticketNumber) :
    findReservation (ledger ++ [line]) line.ticketNumber line.username = some line := by
  induction ledger with
  | nil => simp [findReservation]
  | cons first rest ih =>
    have h1 : ¬ (first.ticketNumber = line.ticketNumber ∧ first.username = line.username) :=
      fun h => hne first (by simp) h.2 h.1
    have h2 : ∀ l ∈ rest, l.username = line.username → l.ticketNumber ≠ line.ticketNumber :=
      fun l hl => hne l (by simp [hl])
    simp only [List.cons_append, findReservation, h1, if_false]
    exact ih h2

/-- Book-then-cancel round trip of a user whose name is not empty and holds
no comma. Whenever a one-way run of `processBooking` (trip type 1) returns
with "Booking successful", it has appended exactly one ledger line, in the
user's name; and when the same user then cancels the ticket of that line and
confirms with `Y` or `y`, `cancelBooking` returns a state in which
`availableSeats` and the `reservedSeats` sequence of every trip equal their
values before the booking, and the refund reported is the amount recorded in
that ledger line. -/
theorem book_then_cancel_restores (currentUser : user) (s s1 : State) (rest : List Tok)
    (hname : currentUser.username ≠ "") (hcomma : ',' ∉ currentUser.username.toList)
    (hin : s.stdin = Tok.num 1 :: rest)
    (hbook : processBooking currentUser s = some s1)
    (hcommit : s1.stdout.getLast? = some Msg.bookingSuccessful) :
    ∃ line, s1.reservationTxt = s.reservationTxt ++ [line] ∧
      line.username = currentUser.username ∧
      ∀ (confirm : Char) (rest2 : List Tok), confirm = 'Y' ∨ confirm = 'y' →
        ∃ s2,
          cancelBooking currentUser
            { s1 with stdin := Tok.num line.ticketNumber :: Tok.chr confirm :: rest2 } =
              some s2 ∧
          seatView s2 = seatView s ∧
          s2.stdout.getLast? = some (Msg.cancelSuccessRefund line.finalAmount) := by
  simp only [processBooking, hin] at hbook
  norm_num at hbook
  obtain ⟨b, bus, n, seats, tk, t, k1, k2, k3, k4, k5, k6, k7, k8⟩ :=
    processBookingLoop_oneway_commit currentUser s.today _ { s with stdin := rest } s1
      TripArrays.uninit hbook hcommit
  simp only at k1 k2 k6 k7 k8
  refine ⟨_, k8, rfl, ?_⟩
  intro confirm rest2 hc
  have hfresh : ∀ l ∈ s.reservationTxt, l.username = currentUser.username →
      l.ticketNumber ≠ t := by
    intro l hl hu
    exact IsUnique_true _ _ k6 l hl _
      (ticketField_of_no_comma l (by rw [hu]; exact hname) (by rw [hu]; exact hcomma))
  have hfind := findReservation_append_fresh s.reservationTxt
    ⟨currentUser.username, t, bus.busID, bus.busNumberPlate, s.today, n, seats,
      calculateFare n bus.fare⟩ hfresh
  have hwf : seats.length = n.toNat := by omega
  refine ⟨_, cancelBooking_confirmed_eq currentUser
    { s1 with stdin := Tok.num t :: Tok.chr confirm :: rest2 } t confirm rest2 _ rfl hc
      (by rw [k8]; exact hfind) hwf, ?_, confirmedCancel_getLast _ _ _ _ _⟩
  have hlt : b < s.buses.length := lt_of_getElem_some _ _ _ k1
  have hfb : findBus (s.buses.set b (bookedBus bus n seats tk)) bus.busID = some b :=
    findIndex_set _ _ _ _ k2 (by simp [bookedBus])
  have hrel : removeSeats (bus.reservedSeats ++ seats) seats = bus.reservedSeats := by
    have := removeSeats_append bus.reservedSeats seats [] k5
    simpa using this
  have hrb : releasedBuses (s.buses.set b (bookedBus bus n seats tk))
      ⟨currentUser.username, t, bus.busID, bus.busNumberPlate, s.today, n, seats,
        calculateFare n bus.fare⟩ =
      s.buses.set b (cancelRelease (bookedBus bus n seats tk) n seats) := by
    simp only [releasedBuses, hfb, List.getElem?_set_self hlt, List.set_set]
  have hview : (cancelRelease (bookedBus bus n seats tk) n seats).availableSeats =
      bus.availableSeats ∧
      (cancelRelease (bookedBus bus n seats tk) n seats).reservedSeats = bus.reservedSeats := by
    constructor
    · show bus.availableSeats - n + n = bus.availableSeats
      ring
    · exact hrel
  show (confirmedCancel _ _ _ _ _).buses.map _ = _
  rw [confirmedCancel_buses]
  show (releasedBuses s1.buses _).map _ = _
  rw [k7, hrb, List.map_set, hview.1, hview.2]
  exact set_getElem_some _ _ _ (seatView_getElem_some s b bus k1)

theorem searchLedger_readable (ledger : List Reservation) (ticketNumber : Int)
    (username : String)
    (hread : ∀ line ∈ ledger, line.username ≠ "" ∧ ',' ∉ line.username.toList) :
    searchLedger ledger ticketNumber username =
      some (findReservation ledger ticketNumber username) := by
  induction ledger with
  | nil => rfl
  | cons line rest ih =>
    have h1 := hread line (by simp)
    have h2 : ∀ l ∈ rest, l.username ≠ "" ∧ ',' ∉ l.username.toList :=
      fun l hl => hread l (by simp [hl])
    have hf := ticketField_of_no_comma line h1.1 h1.2
    have hc : (',' ∈ line.username.toList) = False := eq_false h1.2
    by_cases hm : line.ticketNumber = ticketNumber ∧ line.username = username
    · obtain ⟨hm1, hm2⟩ := hm
      subst hm1; subst hm2
      simp only [searchLedger, findReservation, hf, hc, if_false, and_self, if_true]
    · simp only [searchLedger, findReservation, hf, hc, hm, if_false, ih h2]

/-- C11 (code defect). The user `a,b` books seats 1, 2 and 3 of trip C one-way
and pays: 37 seats stay available, and the line of ticket 100001 is appended
to the ledger as `a,b,100001,3,...`. When the same user cancels ticket
100001, the `fscanf` of `cancelBooking` reads the name `a` and converts
nothing for the ticket number (the text after the first comma is `b`): the
line is skipped, the search finds no booking, and the seats stay reserved.
The same booking made by `ann` is found, and its cancellation brings the
trip back to 40 available seats with a refund of 159.00. -/
theorem cancelBooking_misses_line_of_comma_name :
    (processBooking cab
        (mkState [tripC] [] (oneWayInput [Tok.chr 'Y', Tok.num 1, card]) [0, 1])).map
        (fun s => (seatView s, s.reservationTxt, s.stdout.getLast?)) =
        some ([(37, [1, 2, 3])], [{ cabTripC with ticketNumber := 100001 }],
          some Msg.bookingSuccessful) ∧
      ticketField { cabTripC with ticketNumber := 100001 } = Conv.nothing ∧
      searchLedger [{ cabTripC with ticketNumber := 100001 }] 100001 cab.username =
        some none ∧
      (processBooking ann
          (mkState [tripC] [] (oneWayInput [Tok.chr 'Y', Tok.num 1, card]) [0, 1])).map
          (fun s => (seatView s, s.reservationTxt, s.stdout.getLast?)) =
        some ([(37, [1, 2, 3])], [annTripC], some Msg.bookingSuccessful) ∧
      searchLedger [annTripC] 100001 ann.username = some (some annTripC) ∧
      ((processBooking ann
          (mkState [tripC] [] (oneWayInput [Tok.chr 'Y', Tok.num 1, card]) [0, 1])).bind
          (fun s => cancelBooking ann { s with stdin := [Tok.num 100001, Tok.chr 'Y'] })).map
          (fun s => (seatView s, s.reservationTxt, s.stdout.getLast?)) =
        some ([(40, [])], [], some (Msg.cancelSuccessRefund 159)) := by
  refine ⟨by decide!, by decide, by decide, by decide!, by decide!, by decide!⟩

/-- Witness of C14: three seats at fare 50.00 give 159.00, which is the
amount stored for the leg and the amount reported as paid, and the value the
program's arithmetic gives. -/
theorem fare_law_witness :
    finalizeBooking ann (heldOneWay [Tok.chr 'Y', Tok.num 1, card]) 0 3 [1, 2, 3] "2025-02-20"
        0 1 TripArrays.uninit = some (paidOneWay, paidArrays) ∧
      calculateFare 3 50 = 159 ∧
      roundFloat ((3 : Int) : Rat) = ((3 : Int) : Rat) ∧
      (calculateFare 3 50 = (3 : Int) * (50 : Rat) + (3 : Int) * (50 : Rat) * (6 / 100) ∧
        calculateFare 3 50 = (3 : Int) * (50 : Rat) * (106 / 100) ∧
        (∃ bus, (heldOneWay [Tok.chr 'Y', Tok.num 1, card]).buses[0]? = some bus ∧
          get2 paidArrays.totalFares 0 = some (calculateFare 3 bus.fare)) ∧
        (∀ x, Msg.paymentCompleted x ∈ paidOneWay.stdout →
          Msg.paymentCompleted x ∈ (heldOneWay [Tok.chr 'Y', Tok.num 1, card]).stdout ∨
            ∃ fares : List Rat,
              (List.range 1).map (get2 paidArrays.totalFares) = fares.map some ∧
                x = fares.sum) ∧
        (roundFloat ((3 : Int) : Rat) = ((3 : Int) : Rat) → 0 ≤ ((3 : Int) : Rat) * 50 →
          ((3 : Int) : Rat) * 50 ≤ 65536 →
          |calculateFareFloat 3 50 - ((3 : Int) : Rat) * 50 * (106 / 100)| ≤ 1 / 100)) :=
  ⟨by decide!, by decide!,
    by
      unfold roundFloat
      rw [roundBinary_eq_pos 24 (-126) _ 1 12582912 (by norm_num) (by norm_num) (by norm_num)
        (by norm_num) (by norm_num)]
      norm_num,
    fare_law ann (heldOneWay [Tok.chr 'Y', Tok.num 1, card]) paidOneWay 0 3 [1, 2, 3]
      "2025-02-20" 0 1 TripArrays.uninit paidArrays 50 (by decide!)⟩


/-! ## The release loops and the seat-set invariant -/

/-- The removal of one seat leaves a sublist of `reservedSeats`. -/
theorem removeSeat_sublist (xs : List Int) (seat : Int) : (removeSeat xs seat).Sublist xs := by
  induction xs with
  | nil => exact List.Sublist.refl _
  | cons x rest ih =>
    unfold removeSeat
    split
    · exact List.sublist_cons_self x rest
    · exact ih.cons₂ x

/-- The removal loop leaves a sublist of `reservedSeats`. -/
theorem removeSeats_sublist (seats xs : List Int) : (removeSeats xs seats).Sublist xs := by
  induction seats generalizing xs with
  | nil => exact List.Sublist.refl _
  | cons y rest ih =>
    have h : removeSeats xs (y :: rest) = removeSeats (removeSeat xs y) rest := rfl
    rw [h]
    exact (ih (removeSeat xs y)).trans (removeSeat_sublist xs y)

/-- Both release steps keep the seat-set invariant: they only remove
elements of `reservedSeats` and leave `totalSeats` as it is. -/
theorem removeSeats_keeps_seatSet (bus : BusReservation) (n : Int) (seats : List Int)
    (h : SeatSetInv bus) :
    SeatSetInv (cancelRelease bus n seats) ∧ SeatSetInv (rollbackRelease bus n seats) := by
  have hsub := removeSeats_sublist seats bus.reservedSeats
  exact ⟨⟨h.1.sublist hsub, fun x hx => h.2 x (hsub.subset hx)⟩,
    ⟨h.1.sublist hsub, fun x hx => h.2 x (hsub.subset hx)⟩⟩

/-! ## The draw loop of `generateTicketNumber` -/

/-- C21 (counterexample). With ticket 123456 in the active ledger and a
generator that returns 23456 at every call, `generateTicketNumber` does not
return, however many draws it is given: there is no bound on the draws and
no exhaustion result. -/
theorem generateTicketNumber_unbounded_on_collisions :
    ¬ ∃ n : Nat,
      (generateTicketNumber (mkState [tripA7] [annSeat7] [] (List.replicate n 23456))).isSome =
        true := by
  rintro ⟨n, hn⟩
  have hnone : drawTicket [annSeat7] (List.replicate n 23456) = none := by
    apply drawTicket_all_collide
    intro x hx
    rw [List.eq_of_mem_replicate hx]
    decide
  have : generateTicketNumber (mkState [tripA7] [annSeat7] [] (List.replicate n 23456)) = none := by
    unfold generateTicketNumber
    have e1 : (mkState [tripA7] [annSeat7] [] (List.replicate n 23456)).reservationTxt =
        [annSeat7] := rfl
    have e2 : (mkState [tripA7] [annSeat7] [] (List.replicate n 23456)).rand =
        List.replicate n 23456 := rfl
    rw [e1, e2, hnone]
  rw [this] at hn
  simp at hn

/-- C21 (amended). The loop of `generateTicketNumber` has no bound: when the
draws `pre` all collide with the active ledger, the function has not
returned after them; when the next draw `r` is free, it returns
`100000 + r % 900000` after `pre.length + 1` draws, whatever that length
is. -/
theorem generateTicketNumber_draws_until_free (s : State) (pre : List Nat) (r : Nat)
    (rest : List Nat)
    (hpre : ∀ x ∈ pre, IsUnique s.reservationTxt (100000 + (x : Int) % 900000) = some false)
    (hr : IsUnique s.reservationTxt (100000 + (r : Int) % 900000) = some true) :
    generateTicketNumber { s with rand := pre } = none ∧
      generateTicketNumber { s with rand := pre ++ r :: rest } =
        some (100000 + (r : Int) % 900000, { s with rand := rest }) := by
  constructor
  · unfold generateTicketNumber
    simp only
    rw [drawTicket_all_collide s.reservationTxt pre hpre]
  · unfold generateTicketNumber
    simp only
    rw [drawTicket_first_free s.reservationTxt pre r rest hpre hr]

/-- Witness of C21 (amended): the first draw collides with ticket 123456,
the second yields 100005. -/
theorem generateTicketNumber_draws_until_free_witness :
    generateTicketNumber { mkState [tripA] [annSeat7] [] [] with rand := [23456] } = none ∧
      generateTicketNumber { mkState [tripA] [annSeat7] [] [] with rand := [23456] ++ 5 :: [8] } =
        some (100000 + ((5 : Nat) : Int) % 900000,
          { mkState [tripA] [annSeat7] [] [] with rand := [8] }) :=
  generateTicketNumber_draws_until_free (mkState [tripA] [annSeat7] [] []) [23456] 5 [8]
    (by decide) (by decide)

/-- C23. Uniqueness is checked against the active ledger only: when ticket
`t` is on no line of `reservation.txt`, and `IsUnique` reads from every line
of that file the ticket number written on it, `IsUnique t` is true whatever
`cancellations.txt` holds, also when it holds `t`, and `generateTicketNumber`
returns `t` when `rand()` yields `t - 100000`. -/
theorem generateTicketNumber_reissues_cancelled (s : State) (t : Int) (r : Nat)
    (rest : List Nat)
    (hc : ∃ line ∈ s.cancellationsTxt, line.ticketNumber = t)
    (ha : ∀ line ∈ s.reservationTxt, line.ticketNumber ≠ t)
    (hread : ∀ line ∈ s.reservationTxt, ticketField line = Conv.value line.ticketNumber)
    (hrand : s.rand = r :: rest) (ht : t = 100000 + (r : Int) % 900000) :
    IsUnique s.reservationTxt t = some true ∧
      generateTicketNumber s = some (t, { s with rand := rest }) := by
  have _ := hc
  have hu : IsUnique s.reservationTxt t = some true := by
    rw [IsUnique_readable _ _ hread]
    simp only [Option.some.injEq, decide_eq_true_eq]
    exact ha
  refine ⟨hu, ?_⟩
  unfold generateTicketNumber
  rw [hrand]
  have hd : drawTicket s.reservationTxt (r :: rest) = some (t, rest) := by
    rw [ht] at hu
    simp [drawTicket, hu, ht]
  rw [hd]

/-- Witness of C23: `ann` cancels ticket 123456, which moves to
`cancellations.txt`; the next draw 23456 makes `generateTicketNumber` return
123456 again. -/
theorem generateTicketNumber_reissues_cancelled_witness :
    cancelBooking ann (mkState [tripA7] [annSeat7] [Tok.num 123456, Tok.chr 'Y'] [23456]) =
        some canceledAnn ∧
    (IsUnique canceledAnn.reservationTxt 123456 = some true ∧
      generateTicketNumber canceledAnn = some (123456, { canceledAnn with rand := [] })) :=
  ⟨by rfl,
    generateTicketNumber_reissues_cancelled canceledAnn 123456 23456 []
      ⟨annSeat7, List.mem_cons_self _ _, rfl⟩ (by decide) (by decide) rfl (by decide)⟩

/-! ## When ticket numbers are drawn -/

theorem generateTicketNumber_draws (s s1 : State) (t : Int)
    (h : generateTicketNumber s = some (t, s1)) :
    ∃ used : List Nat, used ≠ [] ∧ s.rand = used ++ s1.rand := by
  unfold generateTicketNumber at h
  split at h
  · simp at h
  · rename_i t0 rest hd
    simp only [Option.some.injEq, Prod.mk.injEq] at h
    obtain ⟨_, hs⟩ := h
    subst hs
    obtain ⟨_, _, _, used, hne, hu⟩ := drawTicket_some _ _ _ _ hd
    exact ⟨used, hne, hu⟩

/-- A successful `bookSeat` has called `generateTicketNumber` on the state
in which the seats were read, and returns the number drawn. -/
theorem bookSeat_draws (bus : BusReservation) (s : State) (r : BookSeatResult)
    (h : bookSeat bus s = some r) (hok : r.ret > 0) :
    ∃ stdin1 : List Tok, generateTicketNumber { s with stdin := stdin1 } = some (r.ret, r.state) := by
  unfold bookSeat at h
  split at h
  · simp at h
  · rename_i numSeats stdin hin
    split at h
    · simp only [Option.some.injEq] at h
      subst h
      simp at hok
    · split at h
      · simp only [Option.some.injEq] at h
        subst h
        simp at hok
      · split at h
        · simp at h
        · simp only [Option.some.injEq] at h
          subst h
          simp at hok
        · simp only [Option.some.injEq] at h
          subst h
          simp at hok
        · rename_i seatNumbers stdin1 hscan
          split at h
          · simp at h
          · rename_i ticketNumber s1 hgen
            split at h
            · simp at h
            · split at h
              · simp at h
              · simp only [Option.some.injEq] at h
                subst h
                exact ⟨stdin1, hgen⟩
  · simp only [Option.some.injEq] at h
    subst h
    simp at hok

theorem commitLoop_ledger (currentUser : user) (numSeats : Int) (bookingDate : String)
    (finalAmount : Rat) (a : TripArrays) :
    ∀ (trips : List Nat) (s s1 : State),
      commitLoop currentUser numSeats bookingDate finalAmount a trips s = some s1 →
      s1.rand = s.rand ∧
        ∃ lines : List Reservation, s1.reservationTxt = s.reservationTxt ++ lines ∧
          lines.map (fun l => some l.ticketNumber) = trips.map (get2 a.ticketNumbers) := by
  intro trips
  induction trips with
  | nil =>
    intro s s1 h
    simp only [commitLoop, Option.some.injEq] at h
    subst h
    exact ⟨rfl, [], by simp, rfl⟩
  | cons i rest ih =>
    intro s s1 h
    rw [commitLoop] at h
    split at h
    · rename_i ticketNumber currentBusIndex ht hb
      split at h
      · simp at h
      · rename_i bus hbus
        split at h
        · simp at h
        · rename_i s2 hsave
          obtain ⟨h1, lines, h2, h3⟩ := ih _ _ h
          unfold saveReservation at hsave
          split at hsave
          · simp at hsave
          · rename_i seats hseats
            simp only [Option.some.injEq] at hsave
            subst hsave
            refine ⟨h1, (⟨currentUser.username, ticketNumber, bus.busID, bus.busNumberPlate,
              bookingDate, numSeats, seats, finalAmount⟩ : Reservation) :: lines, ?_, ?_⟩
            · rw [h2]
              simp [notifyBoth_eq]
            · simp only [List.map_cons, h3, ht]
    · simp at h

theorem rollbackLoop_rand (a : TripArrays) :
    ∀ (trips : List Nat) (s s1 : State), rollbackLoop a trips s = some s1 → s1.rand = s.rand := by
  intro trips
  induction trips with
  | nil =>
    intro s s1 h
    simp only [rollbackLoop, Option.some.injEq] at h
    subst h
    rfl
  | cons i rest ih =>
    intro s s1 h
    rw [rollbackLoop] at h
    split at h
    · simp at h
    · split at h
      · have key := ih _ _ h
        exact key
      · simp at h

theorem freeTrips_rand (totalTrips : Nat) (s : State) : (freeTrips s totalTrips).rand = s.rand := by
  unfold freeTrips
  generalize List.range totalTrips = trips
  induction trips generalizing s with
  | nil => rfl
  | cons i rest ih =>
    simp only [List.foldl_cons]
    exact ih { s with seatNumbersForAllTrips := set2 s.seatNumbersForAllTrips i none }

theorem saveFrequentBooking_rand (s : State) (currentUser : user) (plate src dst : String) :
    (saveFrequentBooking s currentUser plate src dst).rand = s.rand := by
  unfold saveFrequentBooking
  simp only
  split
  · split
    · rfl
    · split <;> rfl
  · rfl

/-- Every call of `finalizeBooking` that returns has drawn a ticket number
at its start and stored it in `ticketNumbers[tripIndex]`; the lines it
appends to the ledger, if any, carry the numbers of `ticketNumbers`, one per
trip. -/
theorem finalizeBooking_draws (currentUser : user) (s s1 : State) (busIndex : Nat)
    (numSeats : Int) (seatNumbers : List Int) (bookingDate : String)
    (tripIndex totalTrips : Nat) (a a1 : TripArrays)
    (h : finalizeBooking currentUser s busIndex numSeats seatNumbers bookingDate tripIndex
      totalTrips a = some (s1, a1)) :
    ∃ t sg, generateTicketNumber s = some (t, sg) ∧ s1.rand = sg.rand ∧
      get2 a1.ticketNumbers tripIndex = some t ∧
      ∃ lines : List Reservation, s1.reservationTxt = s.reservationTxt ++ lines ∧
        (lines = [] ∨
          lines.map (fun l => some l.ticketNumber) =
            (List.range totalTrips).map (get2 a1.ticketNumbers)) := by
  unfold finalizeBooking at h
  split at h
  · simp at h
  · rename_i t sg hgen
    obtain ⟨_, _, g3⟩ := generateTicketNumber_stdout _ _ _ hgen
    refine ⟨t, sg, hgen, ?_⟩
    split at h
    · rename_i bus copy hb hc
      simp only at h
      split at h
      · split at h
        · simp at h
        · rename_i totalPayment hsum
          split at h
          · rename_i proceed stdin hin
            split at h
            · split at h
              · simp at h
              · rename_i s4 hpay
                split at h
                · simp at h
                · rename_i s5 hcommit
                  simp only [Option.some.injEq, Prod.mk.injEq] at h
                  obtain ⟨h1, h2⟩ := h
                  subst h1; subst h2
                  obtain ⟨p1, _⟩ := processPaymentLoop_spec _ _ _ _ hpay
                  have pr : s4.reservationTxt = sg.reservationTxt := by
                    have e := congrArg State.reservationTxt p1
                    exact e
                  have pd : s4.rand = sg.rand := by
                    have e := congrArg State.rand p1
                    exact e
                  obtain ⟨c1, lines, c2, c3⟩ := commitLoop_ledger _ _ _ _ _ _ _ _ hcommit
                  refine ⟨?_, ?_, lines, ?_, Or.inr c3⟩
                  · show (freeTrips _ totalTrips).rand = sg.rand
                    rw [freeTrips_rand, saveFrequentBooking_rand]
                    show s5.rand = sg.rand
                    rw [c1, pd]
                  · simp only [get2_set2]
                  · show (freeTrips _ totalTrips).reservationTxt = s.reservationTxt ++ lines
                    rw [(freeTrips_fields _ _).2.1, (saveFrequentBooking_fields _ _ _ _ _).2.1]
                    show s5.reservationTxt = s.reservationTxt ++ lines
                    rw [c2, pr, g3]
            · split at h
              · simp at h
              · rename_i s4 hroll
                simp only [Option.some.injEq, Prod.mk.injEq] at h
                obtain ⟨h1, h2⟩ := h
                subst h1; subst h2
                refine ⟨?_, ?_, [], ?_, Or.inl rfl⟩
                · rw [freeTrips_rand, rollbackLoop_rand _ _ _ _ hroll]
                  rfl
                · simp only [get2_set2]
                · rw [(freeTrips_fields _ _).2.1, (rollbackLoop_fields _ _ _ _ hroll).2,
                    List.append_nil]
                  exact g3
          · simp at h
      · simp only [Option.some.injEq, Prod.mk.injEq] at h
        obtain ⟨h1, h2⟩ := h
        subst h1; subst h2
        refine ⟨rfl, ?_, [], ?_, Or.inl rfl⟩
        · simp only [get2_set2]
        · rw [List.append_nil]
          exact g3
    · simp at h

/-- C22 (counterexample). Ticket numbers are drawn while the seats are
merely held. `bookSeat` on trip C consumes the draw 0 when it holds seats 1,
2 and 3; and a one-way booking that is declined at the proceed prompt has
consumed two of its three draws, although it writes no ledger line and ends
with "Booking canceled". -/
theorem declined_booking_consumes_draws :
    (bookSeat tripC (mkState [tripC] [] [Tok.num 3, Tok.num 1, Tok.num 2, Tok.num 3] [0, 1, 2])).map
        (fun r => (r.ret, r.state.rand, r.state.reservationTxt)) =
      some (100000, [1, 2], []) ∧
    (processBooking ann (mkState [tripC] [] (oneWayInput [Tok.chr 'N']) [0, 1, 2])).map
        (fun s => (s.rand, s.reservationTxt, s.stdout)) =
      some ([2], [], [Msg.bookingSummary, Msg.bookingCanceled]) := by
  decide

/-- C22 (amended). Ticket numbers are drawn before the payment decision.
Whenever `bookSeat` succeeds and `finalizeBooking` then returns for the leg,
`bookSeat` has consumed at least one draw when it held the seats, and
`finalizeBooking` has consumed at least one more at its start, whatever the
answer at the proceed prompt; the number `finalizeBooking` drew is stored in
`ticketNumbers[tripIndex]`, and the ledger lines the call appends (none
unless it commits) carry, trip by trip, the numbers of `ticketNumbers`. -/
theorem ticket_drawn_at_hold_and_finalize (currentUser : user) (bus : BusReservation)
    (s s1 : State) (r : BookSeatResult) (busIndex : Nat) (bookingDate : String)
    (tripIndex totalTrips : Nat) (a a1 : TripArrays)
    (hbook : bookSeat bus s = some r) (hok : r.ret > 0)
    (hfin : finalizeBooking currentUser
      { r.state with buses := r.state.buses.set busIndex r.bus } busIndex r.numSeats
      r.seatNumbers bookingDate tripIndex totalTrips a = some (s1, a1)) :
    ∃ (held drawn : List Nat) (t : Int) (sg : State),
      held ≠ [] ∧ drawn ≠ [] ∧ s.rand = held ++ r.state.rand ∧
      r.state.rand = drawn ++ s1.rand ∧
      generateTicketNumber { r.state with buses := r.state.buses.set busIndex r.bus } =
        some (t, sg) ∧
      get2 a1.ticketNumbers tripIndex = some t ∧
      ∃ lines : List Reservation, s1.reservationTxt = s.reservationTxt ++ lines ∧
        (lines = [] ∨
          lines.map (fun l => some l.ticketNumber) =
            (List.range totalTrips).map (get2 a1.ticketNumbers)) := by
  obtain ⟨stdin1, hgen⟩ := bookSeat_draws bus s r hbook hok
  obtain ⟨held, hheld, hrand⟩ := generateTicketNumber_draws _ _ _ hgen
  obtain ⟨_, _, hres⟩ := generateTicketNumber_stdout _ _ _ hgen
  obtain ⟨t, sg, hg, hr, ht, lines, hl, hlines⟩ := finalizeBooking_draws _ _ _ _ _ _ _ _ _ _ _ hfin
  obtain ⟨drawn, hdrawn, hrand2⟩ := generateTicketNumber_draws _ _ _ hg
  refine ⟨held, drawn, t, sg, hheld, hdrawn, hrand, ?_, hg, ht, lines, ?_, hlines⟩
  · rw [hr]
    exact hrand2
  · rw [hl]
    show r.state.reservationTxt ++ lines = s.reservationTxt ++ lines
    rw [hres]

/-- Witness of C22 (amended): seats 1, 2 and 3 of trip C are held with the
draw 0, `finalizeBooking` draws 1 and the user declines: both draws are
consumed, ticket 100001 is stored for the leg, and no ledger line is
written. -/
theorem ticket_drawn_at_hold_and_finalize_witness :
    bookSeat tripC
        (mkState [tripC] [] [Tok.num 3, Tok.num 1, Tok.num 2, Tok.num 3, Tok.chr 'N'] [0, 1]) =
      some heldResult ∧
    finalizeBooking ann
        { heldResult.state with buses := heldResult.state.buses.set 0 heldResult.bus } 0
        heldResult.numSeats heldResult.seatNumbers "2025-02-20" 0 1 TripArrays.uninit =
      some (declinedOneWay, paidArrays) ∧
    declinedOneWay.reservationTxt = [] ∧ declinedOneWay.rand = [] ∧
    ∃ (held drawn : List Nat) (t : Int) (sg : State),
      held ≠ [] ∧ drawn ≠ [] ∧
      (mkState [tripC] [] [Tok.num 3, Tok.num 1, Tok.num 2, Tok.num 3, Tok.chr 'N']
        [0, 1]).rand = held ++ heldResult.state.rand ∧
      heldResult.state.rand = drawn ++ declinedOneWay.rand ∧
      generateTicketNumber
          { heldResult.state with buses := heldResult.state.buses.set 0 heldResult.bus } =
        some (t, sg) ∧
      get2 paidArrays.ticketNumbers 0 = some t ∧
      ∃ lines : List Reservation,
        declinedOneWay.reservationTxt =
          (mkState [tripC] [] [Tok.num 3, Tok.num 1, Tok.num 2, Tok.num 3, Tok.chr 'N']
            [0, 1]).reservationTxt ++ lines ∧
        (lines = [] ∨
          lines.map (fun l => some l.ticketNumber) =
            (List.range 1).map (get2 paidArrays.ticketNumbers)) :=
  ⟨by decide, by decide!, rfl, rfl,
    ticket_drawn_at_hold_and_finalize ann tripC
      (mkState [tripC] [] [Tok.num 3, Tok.num 1, Tok.num 2, Tok.num 3, Tok.chr 'N'] [0, 1])
      declinedOneWay heldResult 0 "2025-02-20" 0 1 TripArrays.uninit paidArrays
      (by decide) (by decide) (by decide!)⟩


/-! ## The ledger rewrite of `updateFilesAfterCancellation`, step by step -/

/-- The copy loop leaves `reservation.txt` alone, and after it `temp.txt`
holds what it held before followed by the lines that do not match. -/
theorem copyLoop_spec (t : Int) (u : String) :
    ∀ (old : List Reservation) (f : LedgerFiles) (kept : List Reservation),
      f.tempTxt = some kept →
      (∀ g ∈ copyLoop t u old f, g.reservationTxt = f.reservationTxt) ∧
        ((copyLoop t u old f).getLast?.getD f).reservationTxt = f.reservationTxt ∧
        ((copyLoop t u old f).getLast?.getD f).tempTxt =
          some (kept ++ old.filter (fun l => !isCanceled t u l)) ∧
        ((copyLoop t u old f).getLast?.getD f).cancellationsTxt =
          (if old.filter (isCanceled t u) = [] then f.cancellationsTxt
            else some (f.cancellationsTxt.getD [] ++ old.filter (isCanceled t u))) := by
  intro old
  induction old with
  | nil =>
    intro f kept hk
    simp [copyLoop, hk]
  | cons line rest ih =>
    intro f kept hk
    by_cases hm : line.ticketNumber = t ∧ line.username = u
    · have hc : isCanceled t u line = true := by simp [isCanceled, hm]
      obtain ⟨h1, h2, h3, h4⟩ := ih
        { f with cancellationsTxt := some (f.cancellationsTxt.getD [] ++ [line]) } kept hk
      simp only [copyLoop, hm, and_self, if_true, List.mem_cons, forall_eq_or_imp,
        List.getLast?_cons, Option.getD_some, List.filter_cons, hc, Bool.not_true,
        Bool.false_eq_true, if_false, reduceCtorEq]
      refine ⟨⟨trivial, h1⟩, ?_, ?_, ?_⟩
      · exact h2
      · exact h3
      · rw [h4]
        split <;> simp_all
    · have hc : isCanceled t u line = false := by simpa [isCanceled] using hm
      obtain ⟨h1, h2, h3, h4⟩ := ih
        { f with tempTxt := some (f.tempTxt.getD [] ++ [line]) } (kept ++ [line])
        (by simp [hk])
      simp only [copyLoop, hm, if_false, List.mem_cons, forall_eq_or_imp,
        List.getLast?_cons, Option.getD_some, List.filter_cons, hc, Bool.not_false,
        if_true, Bool.false_eq_true]
      refine ⟨⟨trivial, h1⟩, ?_, ?_, ?_⟩
      · exact h2
      · rw [h3]
        simp
      · exact h4

/-- C24 (counterexample). The rewrite of a ledger with the lines of tickets
123456 (`ann`) and 654321 (`bob`), cancelling 123456: after
`remove("reservation.txt")` and before `rename` the active ledger file does
not exist; the new contents are in `temp.txt` only. -/
theorem ledger_rewrite_passes_through_missing_file :
    (rewriteSteps ⟨some [annSeat7, bobSeat9], none, some []⟩ 123456 "ann").map
        (fun g => (g.reservationTxt.map (List.map (fun l => l.ticketNumber)),
          g.tempTxt.map (List.map (fun l => l.ticketNumber)))) =
      [(some [123456, 654321], none), (some [123456, 654321], some []),
        (some [123456, 654321], some []), (some [123456, 654321], some [654321]),
        (none, some [654321]), (some [654321], none)] := by
  decide

/-- C24 (amended). The rewrite goes through three phases. Up to the end of
the copy loop `reservation.txt` holds the complete old contents; after
`remove` it does not exist, while `temp.txt` holds the complete new contents
(the old lines without those of the ticket and user, in order); after
`rename` it holds the complete new contents, which are those of the function
`updateFilesAfterCancellation`. It is never truncated or duplicated; the swap
is two steps, not one. -/
theorem ledger_rewrite_old_missing_new (f : LedgerFiles) (old : List Reservation) (t : Int)
    (u : String) (hold : f.reservationTxt = some old) :
    ∃ (before : List LedgerFiles) (removed renamed : LedgerFiles),
      rewriteSteps f t u = before ++ [removed, renamed] ∧
      (∀ g ∈ before, g.reservationTxt = some old) ∧
      removed.reservationTxt = none ∧
      removed.tempTxt = some (old.filter (fun l => !isCanceled t u l)) ∧
      renamed.reservationTxt = some (old.filter (fun l => !isCanceled t u l)) ∧
      renamed.tempTxt = none ∧
      ∀ (s : State) (busID numSeats : Int), s.reservationTxt = old →
        renamed.reservationTxt =
          some (updateFilesAfterCancellation s busID numSeats t u).reservationTxt := by
  obtain ⟨h1, h2, h3, _⟩ := copyLoop_spec t u old { f with tempTxt := some [] } [] rfl
  simp only [List.nil_append] at h3
  refine ⟨[f, { f with tempTxt := some [] }] ++ copyLoop t u old { f with tempTxt := some [] },
    { (copyLoop t u old { f with tempTxt := some [] }).getLast?.getD
        { f with tempTxt := some [] } with reservationTxt := none },
    { (copyLoop t u old { f with tempTxt := some [] }).getLast?.getD
        { f with tempTxt := some [] } with
      reservationTxt := ((copyLoop t u old { f with tempTxt := some [] }).getLast?.getD
        { f with tempTxt := some [] }).tempTxt
      tempTxt := none }, ?_, ?_, rfl, h3, h3, rfl, ?_⟩
  · unfold rewriteSteps
    rw [hold]
  · intro g hg
    simp only [List.cons_append, List.nil_append, List.mem_cons] at hg
    rcases hg with hg | hg | hg
    · rw [hg]; exact hold
    · rw [hg]; exact hold
    · rw [h1 g hg]; exact hold
  · intro s busID numSeats hs
    show ((copyLoop t u old { f with tempTxt := some [] }).getLast?.getD
      { f with tempTxt := some [] }).tempTxt = _
    rw [h3, ← hs]
    rfl

/-- Witness of C24 (amended): the rewrite that cancels ticket 123456 of
`ann` in a ledger of two lines. -/
theorem ledger_rewrite_old_missing_new_witness :
    ∃ (before : List LedgerFiles) (removed renamed : LedgerFiles),
      rewriteSteps ⟨some [annSeat7, bobSeat9], none, some []⟩ 123456 "ann" =
        before ++ [removed, renamed] ∧
      (∀ g ∈ before, g.reservationTxt = some [annSeat7, bobSeat9]) ∧
      removed.reservationTxt = none ∧
      removed.tempTxt =
        some ([annSeat7, bobSeat9].filter (fun l => !isCanceled 123456 "ann" l)) ∧
      renamed.reservationTxt =
        some ([annSeat7, bobSeat9].filter (fun l => !isCanceled 123456 "ann" l)) ∧
      renamed.tempTxt = none ∧
      ∀ (s : State) (busID numSeats : Int), s.reservationTxt = [annSeat7, bobSeat9] →
        renamed.reservationTxt =
          some (updateFilesAfterCancellation s busID numSeats 123456 "ann").reservationTxt :=
  ledger_rewrite_old_missing_new ⟨some [annSeat7, bobSeat9], none, some []⟩
    [annSeat7, bobSeat9] 123456 "ann" rfl

/-! ## The records a cancellation adds to `cancellations.txt` -/

/-- C25 (code defect). With trips A and B free and the ledger empty the
three stores agree. After the committed round trip of the C7 scenario (seats
5 and 6 on trip A, seat 1 on trip B) they do not: `seats.txt` holds seats 5
and 6 for bus 1 and `buses.txt` 38 available seats of 40, while the ledger
line of bus 1 lists seat 5 only. -/
theorem committed_round_trip_breaks_store_agreement :
    StoresAgree (mkState [tripA, tripB] [] (roundTripInput [Tok.chr 'Y', Tok.num 1, card])
        [0, 1, 2, 3]) ∧
      (processBooking ann
          (mkState [tripA, tripB] [] (roundTripInput [Tok.chr 'Y', Tok.num 1, card])
            [0, 1, 2, 3])).map
          (fun s => (decide (StoresAgree s), s.seatsTxt,
            s.busesTxt.map (fun line => (line.busID, line.totalSeats, line.availableSeats)),
            s.reservationTxt.map (fun line => (line.busID, line.numSeats, line.seatNumbers)),
            ledgerSeats s.reservationTxt 1)) =
        some (false, [⟨1, [5, 6]⟩, ⟨2, [1]⟩], [(1, 40, 38), (2, 40, 39)],
          [(1, 1, [5]), (2, 1, [1])], [5]) :=
  ⟨by decide, by rfl⟩

/-! ## Booking from a saved frequent route -/

/-- C26 (code defect). A booking from a saved frequent route with a return
trip is not two-phase. The outbound leg (seats 5 and 6 of trip A) is paid
and committed by its own `finalizeBooking` call before the return trip is
offered: when the user then declines the return trip, the run ends with the
outbound line in the ledger. When the user accepts and one seat of trip B is
reserved, the second `finalizeBooking` call is given the outbound leg's bus
index, seat count and seats as trip 1 of 2; at that point trip B's seat is
held and the block of trip 0 has been freed by the first call, so the
summary loop reads freed memory and the run has no defined result. -/
theorem bookFrequentBooking_commits_outbound_alone :
    (bookFrequentBooking ann (frequentState (frequentInput [Tok.chr 'N']) [0, 1, 2, 3])).map
        (fun s => (seatView s,
          s.reservationTxt.map (fun l => (l.ticketNumber, l.busID, l.seatNumbers)),
          s.seatNumbersForAllTrips, s.stdin, s.stdout.getLast?)) =
      some ([(38, [5, 6]), (40, [])], [(100001, 1, [5, 6])], (none, none), [],
        some Msg.bookingSuccessful) ∧
    bookFrequentBooking ann
        (frequentState
          (frequentInput [Tok.chr 'Y', Tok.num 1, Tok.num 1, Tok.num 1, Tok.chr 'Y', Tok.num 1,
            card]) [0, 1, 2, 3]) = none ∧
    ((bookFrequentBooking ann
        (frequentState (frequentInput [Tok.chr 'N']) [0, 1, 2, 3])).bind
      (fun s4 =>
        (bookSeat tripB { s4 with stdin := [Tok.num 1, Tok.num 1, Tok.chr 'Y', Tok.num 1, card] }).map
          (fun r =>
            (r.ret, r.bus.reservedSeats, r.bus.availableSeats,
              r.state.reservationTxt.map (fun l => l.busID),
              r.state.seatsTxt,
              (finalizeBooking ann { r.state with buses := r.state.buses.set 1 r.bus } 0 2
                [5, 6] r.state.today 1 2
                ⟨(some 100001, none), (some (318 / 5), none), (some 0, none)⟩).isSome)))) =
      some (100002, [1], 39, [1], [⟨1, [5, 6]⟩, ⟨2, []⟩], false) := by
  refine ⟨by rfl, by rfl, by rfl⟩

/-! ## Lemmas on loading -/

theorem loadBusesLoop_spec (maxBuses : Nat) :
    ∀ (lines : List BusLine) (count : Nat) (buses : BusArray),
      (∀ k, (loadBusesLoop maxBuses lines count buses).1 k =
        if count ≤ k ∧ k < maxBuses then
          match lines[k - count]? with
          | some line => readBusLine (buses k) line
          | none => buses k
        else buses k) ∧
      (loadBusesLoop maxBuses lines count buses).2 =
        if count < maxBuses then min (count + lines.length) maxBuses else count := by
  intro lines
  induction lines with
  | nil =>
    intro count buses
    refine ⟨fun k => ?_, ?_⟩
    · simp [loadBusesLoop]
    · simp only [loadBusesLoop, List.length_nil, Nat.add_zero]
      split <;> omega
  | cons line rest ih =>
    intro count buses
    by_cases hc : count < maxBuses
    · obtain ⟨h1, h2⟩ := ih (count + 1)
        (fun k => if k = count then readBusLine (buses count) line else buses k)
      refine ⟨fun k => ?_, ?_⟩
      · simp only [loadBusesLoop, hc, if_true]
        rw [h1 k]
        by_cases hk : k = count
        · subst hk
          simp [hc]
        · by_cases hlt : count + 1 ≤ k ∧ k < maxBuses
          · have h3 : count ≤ k ∧ k < maxBuses := ⟨by omega, hlt.2⟩
            have h4 : k - count = (k - (count + 1)) + 1 := by omega
            simp only [hlt, h3, and_self, if_true, hk, if_false, h4, List.getElem?_cons_succ]
          · have h3 : ¬ (count ≤ k ∧ k < maxBuses) := by
              intro h
              apply hlt
              exact ⟨by omega, h.2⟩
            simp only [hlt, h3, if_false, hk]
      · simp only [loadBusesLoop, hc, if_true]
        rw [h2]
        simp only [List.length_cons]
        split <;> omega
    · refine ⟨fun k => ?_, ?_⟩
      · have h3 : ¬ (count ≤ k ∧ k < maxBuses) := by omega
        simp only [loadBusesLoop, hc, if_false, h3]
      · simp only [loadBusesLoop, hc, if_false]

theorem loadSeatsLoop_spec (maxBuses : Nat) :
    ∀ (lines : List SeatLine) (count : Nat) (buses : BusArray) (k : Nat),
      (loadSeatsLoop maxBuses lines count buses).1 k =
        if count ≤ k ∧ (k = count ∨ k < maxBuses) then
          match lines[k - count]? with
          | some line => readSeatLine (buses k) line
          | none => buses k
        else buses k := by
  intro lines
  induction lines with
  | nil =>
    intro count buses k
    simp [loadSeatsLoop]
  | cons line rest ih =>
    intro count buses k
    by_cases hstop : count + 1 ≥ maxBuses
    · simp only [loadSeatsLoop, hstop, if_true]
      by_cases hk : k = count
      · subst hk
        simp
      · have h3 : ¬ (count ≤ k ∧ (k = count ∨ k < maxBuses)) := by omega
        rw [if_neg h3, if_neg hk]
    · simp only [loadSeatsLoop, hstop, if_false]
      rw [ih]
      by_cases hk : k = count
      · subst hk
        simp
      · by_cases hlt : count + 1 ≤ k ∧ (k = count + 1 ∨ k < maxBuses)
        · have h3 : count ≤ k ∧ (k = count ∨ k < maxBuses) := ⟨by omega, by omega⟩
          have h4 : k - count = (k - (count + 1)) + 1 := by omega
          rw [if_pos hlt, if_pos h3, h4, List.getElem?_cons_succ, if_neg hk]
        · have h3 : ¬ (count ≤ k ∧ (k = count ∨ k < maxBuses)) := by omega
          rw [if_neg hlt, if_neg h3, if_neg hk]

theorem loadStores_length (memory : BusArray) (busesTxt : List BusLine)
    (seatsTxt : List SeatLine) :
    (loadStores memory busesTxt seatsTxt).length = min busesTxt.length MAX_BUSES := by
  unfold loadStores loadBuses
  simp only [List.length_map, List.length_range]
  rw [(loadBusesLoop_spec MAX_BUSES busesTxt 0 memory).2]
  simp [MAX_BUSES]

/-- Slot `k` after `loadBuses` and `loadSeats`, for a trip that `buses.txt`
lists at position `k`: the line of `buses.txt`, then the record that
`seats.txt` has at the same position, if any. -/
theorem loadStores_getElem (memory : BusArray) (busesTxt : List BusLine)
    (seatsTxt : List SeatLine) (k : Nat) (bl : BusLine) (hbl : busesTxt[k]? = some bl)
    (hk : k < MAX_BUSES) :
    (loadStores memory busesTxt seatsTxt)[k]? =
      some (match seatsTxt[k]? with
        | some line => readSeatLine (readBusLine (memory k) bl) line
        | none => readBusLine (memory k) bl) := by
  have hlen : k < busesTxt.length := lt_of_getElem_some _ _ _ hbl
  have hcount : k < (loadBuses memory busesTxt MAX_BUSES).2 := by
    unfold loadBuses
    rw [(loadBusesLoop_spec MAX_BUSES busesTxt 0 memory).2]
    simp only [Nat.zero_add]
    split <;> omega
  have hloaded : (loadBuses memory busesTxt MAX_BUSES).1 k = readBusLine (memory k) bl := by
    unfold loadBuses
    rw [(loadBusesLoop_spec MAX_BUSES busesTxt 0 memory).1 k]
    have hc : 0 ≤ k ∧ k < MAX_BUSES := ⟨Nat.zero_le k, hk⟩
    rw [if_pos hc, Nat.sub_zero, hbl]
  unfold loadStores
  simp only [List.getElem?_map, List.getElem?_range hcount, Option.map_some']
  unfold loadSeats
  rw [loadSeatsLoop_spec MAX_BUSES seatsTxt 0 _ k]
  have hc : 0 ≤ k ∧ (k = 0 ∨ k < MAX_BUSES) := ⟨Nat.zero_le k, Or.inr hk⟩
  rw [if_pos hc, Nat.sub_zero, hloaded]

/-- C29. Function `loadSeats` assigns seat records by position, not by trip
ID. Whatever the array holds, the record at position `k` of `seats.txt` puts
its trip ID and its seats into slot `k` and leaves the rest of the slot; so
after `loadBuses` and `loadSeats` a slot that `buses.txt` fills at position
`k` carries the trip ID and the seats of the `k`-th seat record, and is the
trip of `buses.txt` with those seats exactly when the two IDs are equal. A
state of at most `MAX_BUSES` buses written by `saveBuses` and `saveSeats`,
which list the same trips in the same order, is read back as saved. -/
theorem loadSeats_by_position (memory : BusArray) (busesTxt : List BusLine)
    (seatsTxt : List SeatLine) :
    (∀ (buses : BusArray) (k : Nat) (line : SeatLine),
      seatsTxt[k]? = some line → k < MAX_BUSES →
        (loadSeats buses seatsTxt MAX_BUSES).1 k =
          { buses k with busID := line.busID, reservedSeats := line.reservedSeats }) ∧
    (∀ (k : Nat) (bl : BusLine) (line : SeatLine),
      busesTxt[k]? = some bl → seatsTxt[k]? = some line → k < MAX_BUSES →
        ∃ bus, (loadStores memory busesTxt seatsTxt)[k]? = some bus ∧
          bus.busID = line.busID ∧ bus.reservedSeats = line.reservedSeats ∧
          bus.toLine = { bl with busID := line.busID } ∧
          (persisted bus = (bl, line.reservedSeats) ↔ line.busID = bl.busID)) ∧
    (∀ s : State, s.buses.length ≤ MAX_BUSES →
      (loadStores memory (saveBuses s).busesTxt (saveSeats s).seatsTxt).map persisted =
        s.buses.map persisted) := by
  refine ⟨?_, ?_, ?_⟩
  · intro buses k line hline hk
    unfold loadSeats
    rw [loadSeatsLoop_spec MAX_BUSES seatsTxt 0 buses k]
    have hc : 0 ≤ k ∧ (k = 0 ∨ k < MAX_BUSES) := ⟨Nat.zero_le k, Or.inr hk⟩
    rw [if_pos hc, Nat.sub_zero, hline]
    rfl
  · intro k bl line hbl hline hk
    refine ⟨_, loadStores_getElem memory busesTxt seatsTxt k bl hbl hk, ?_⟩
    rw [hline]
    refine ⟨rfl, rfl, rfl, ?_⟩
    constructor
    · intro h
      have h1 := congrArg (fun p : BusLine × List Int => p.1.busID) h
      exact h1
    · intro h
      simp only [persisted, BusReservation.toLine, readSeatLine, readBusLine, h]
  · intro s hs
    apply List.ext_getElem?
    intro k
    simp only [List.getElem?_map]
    by_cases hk : k < s.buses.length
    · have hb : s.buses[k]? = some s.buses[k] := List.getElem?_eq_getElem hk
      have h1 : (saveBuses s).busesTxt[k]? = some (s.buses[k]).toLine := by
        simp [saveBuses, hb]
      have h2 : (saveSeats s).seatsTxt[k]? = some ⟨s.buses[k].busID, s.buses[k].reservedSeats⟩ := by
        simp [saveSeats, hb]
      rw [loadStores_getElem memory _ _ k _ h1 (by omega), h2, hb]
      rfl
    · have hlen : (loadStores memory (saveBuses s).busesTxt (saveSeats s).seatsTxt).length ≤ k := by
        rw [loadStores_length]
        simp only [saveBuses, List.length_map]
        omega
      rw [List.getElem?_eq_none hlen, List.getElem?_eq_none (by omega)]

/-- Witness of C29: `buses.txt` lists trips A and B (IDs 1 and 2) and
`seats.txt` lists bus 2 with seat 5, then bus 1 with seat 7. After the two
loads the first slot is trip A's line under ID 2 with seat 5, the second is
trip B's line under ID 1 with seat 7; read back in saved order, the state
is as saved. -/
theorem loadSeats_by_position_witness :
    (loadStores (fun _ => tripC) [tripA.toLine, tripB.toLine] [⟨2, [5]⟩, ⟨1, [7]⟩]).map
        (fun bus => (bus.busID, bus.busNumberPlate, bus.reservedSeats)) =
      [(2, "WXY1234", [5]), (1, "JKL5678", [7])] ∧
    (loadStores (fun _ => tripC) (saveBuses (mkState [tripA7, tripB] [] [] [])).busesTxt
        (saveSeats (mkState [tripA7, tripB] [] [] [])).seatsTxt).map
        (fun bus => (bus.busID, bus.busNumberPlate, bus.availableSeats, bus.reservedSeats)) =
      [(1, "WXY1234", 39, [7]), (2, "JKL5678", 40, [])] ∧
    ∃ bus,
      (loadStores (fun _ => tripC) [tripA.toLine, tripB.toLine] [⟨2, [5]⟩, ⟨1, [7]⟩])[0]? =
        some bus ∧
      bus.busID = (⟨2, [5]⟩ : SeatLine).busID ∧
      bus.reservedSeats = (⟨2, [5]⟩ : SeatLine).reservedSeats ∧
      bus.toLine = { tripA.toLine with busID := (⟨2, [5]⟩ : SeatLine).busID } ∧
      (persisted bus = (tripA.toLine, (⟨2, [5]⟩ : SeatLine).reservedSeats) ↔
        (⟨2, [5]⟩ : SeatLine).busID = tripA.toLine.busID) :=
  ⟨by decide, by decide,
    (loadSeats_by_position (fun _ => tripC) [tripA.toLine, tripB.toLine]
      [⟨2, [5]⟩, ⟨1, [7]⟩]).2.1 0 tripA.toLine ⟨2, [5]⟩ rfl rfl (by decide)⟩

/-! ## Lemmas on the sort of `generateBusReport` -/

theorem outOfOrder_false_iff (x y : BusReservation) :
    outOfOrder x y = false ↔ plateDateLe x y := by
  unfold outOfOrder plateDateLe
  simp only [decide_eq_false_iff_not, gt_iff_lt, not_or, not_and, not_lt]
  constructor
  · rintro ⟨h1, h2⟩
    rcases lt_or_eq_of_le h1 with h | h
    · exact Or.inl h
    · exact Or.inr ⟨h, h2 h⟩
  · rintro (h | ⟨h1, h2⟩)
    · exact ⟨le_of_lt h, fun e => absurd e (ne_of_lt h)⟩
    · exact ⟨le_of_eq h1, fun _ => h2⟩

theorem plateDateLe_of_outOfOrder (x y : BusReservation) (h : outOfOrder x y = true) :
    plateDateLe y x := by
  unfold outOfOrder at h
  unfold plateDateLe
  simp only [decide_eq_true_eq, gt_iff_lt] at h
  rcases h with h | ⟨h1, h2⟩
  · exact Or.inl h
  · exact Or.inr ⟨h1.symm, le_of_lt h2⟩

theorem plateDateLe_trans (x y z : BusReservation) (h1 : plateDateLe x y)
    (h2 : plateDateLe y z) : plateDateLe x z := by
  unfold plateDateLe at *
  rcases h1 with h1 | ⟨e1, d1⟩
  · rcases h2 with h2 | ⟨e2, _⟩
    · exact Or.inl (lt_trans h1 h2)
    · exact Or.inl (e2 ▸ h1)
  · rcases h2 with h2 | ⟨e2, d2⟩
    · exact Or.inl (e1 ▸ h2)
    · exact Or.inr ⟨e1.trans e2, le_trans d1 d2⟩

theorem getElem_append_length_some {α : Type} (pre : List α) (x : α) (rest : List α) :
    (pre ++ x :: rest)[pre.length]? = some x := by
  induction pre with
  | nil => simp
  | cons p more ih => simpa using ih

theorem set_append_length {α : Type} (pre : List α) (x y : α) (rest : List α) :
    (pre ++ x :: rest).set pre.length y = pre ++ y :: rest := by
  induction pre with
  | nil => rfl
  | cons p more ih => simp [ih]

/-- The inner loop at index `i` on an array whose part from `i` on is
`x :: (done ++ rest)`, started at the first index of `rest`, is the pass over
`rest`. -/
theorem sortInner_eq_passList (pre : List BusReservation) :
    ∀ (rest done : List BusReservation) (x : BusReservation),
      sortInner pre.length rest.length (pre.length + 1 + done.length)
          (pre ++ x :: (done ++ rest)) =
        pre ++ (passList x done rest).1 :: (passList x done rest).2 := by
  intro rest
  induction rest with
  | nil =>
    intro done x
    simp [sortInner, passList]
  | cons y rest ih =>
    intro done x
    have hi : (pre ++ x :: (done ++ y :: rest))[pre.length]? = some x :=
      getElem_append_length_some pre x _
    have e1 : pre ++ x :: (done ++ y :: rest) = (pre ++ x :: done) ++ y :: rest := by simp
    have l1 : (pre ++ x :: done).length = pre.length + 1 + done.length := by
      simp only [List.length_append, List.length_cons]
      omega
    have hj : (pre ++ x :: (done ++ y :: rest))[pre.length + 1 + done.length]? = some y := by
      rw [e1, ← l1]
      exact getElem_append_length_some _ y rest
    simp only [List.length_cons, sortInner, hi, hj]
    by_cases hgt : outOfOrder x y = true
    · have hset : ((pre ++ x :: (done ++ y :: rest)).set pre.length y).set
          (pre.length + 1 + done.length) x = pre ++ y :: ((done ++ [x]) ++ rest) := by
        rw [set_append_length]
        have e2 : pre ++ y :: (done ++ y :: rest) = (pre ++ y :: done) ++ y :: rest := by simp
        have l2 : (pre ++ y :: done).length = pre.length + 1 + done.length := by
          simp only [List.length_append, List.length_cons]
          omega
        rw [e2, ← l2, set_append_length]
        simp
      have hnext : pre.length + 1 + done.length + 1 = pre.length + 1 + (done ++ [x]).length := by
        simp only [List.length_append, List.length_singleton]
        omega
      simp only [hgt, if_true, passList]
      rw [hset, hnext]
      exact ih (done ++ [x]) y
    · have hnext : pre.length + 1 + done.length + 1 = pre.length + 1 + (done ++ [y]).length := by
        simp only [List.length_append, List.length_singleton]
        omega
      have e3 : pre ++ x :: (done ++ y :: rest) = pre ++ x :: ((done ++ [y]) ++ rest) := by simp
      simp only [hgt, if_false, passList, Bool.false_eq_true]
      rw [e3, hnext]
      exact ih (done ++ [y]) x

theorem passList_length (rest : List BusReservation) :
    ∀ (done : List BusReservation) (x : BusReservation),
      (passList x done rest).2.length = done.length + rest.length := by
  induction rest with
  | nil => intro done x; simp [passList]
  | cons y rest ih =>
    intro done x
    simp only [passList]
    split
    · rw [ih]
      simp only [List.length_append, List.length_cons, List.length_nil]
      omega
    · rw [ih]
      simp only [List.length_append, List.length_cons, List.length_nil]
      omega

theorem passList_perm (rest : List BusReservation) :
    ∀ (done : List BusReservation) (x : BusReservation),
      ((passList x done rest).1 :: (passList x done rest).2).Perm (x :: (done ++ rest)) := by
  induction rest with
  | nil => intro done x; simp [passList]
  | cons y rest ih =>
    intro done x
    simp only [passList]
    split
    · refine (ih (done ++ [x]) y).trans ?_
      have h1 : (y :: (done ++ [x] ++ rest)).Perm (y :: x :: (done ++ rest)) := by
        apply List.Perm.cons
        simp only [List.append_assoc, List.singleton_append]
        exact List.perm_middle
      refine h1.trans ((List.Perm.swap x y _).trans ?_)
      apply List.Perm.cons
      exact List.perm_middle.symm
    · have h1 : (x :: (done ++ [y] ++ rest)) = x :: (done ++ y :: rest) := by simp
      rw [← h1]
      exact ih (done ++ [y]) x

theorem passList_min (rest : List BusReservation) :
    ∀ (done : List BusReservation) (x : BusReservation),
      (∀ d ∈ done, plateDateLe x d) →
      ∀ d ∈ (passList x done rest).2, plateDateLe (passList x done rest).1 d := by
  induction rest with
  | nil => intro done x h; simpa [passList] using h
  | cons y rest ih =>
    intro done x h
    simp only [passList]
    by_cases hgt : outOfOrder x y = true
    · simp only [hgt, if_true]
      apply ih
      intro d hd
      have hyx := plateDateLe_of_outOfOrder x y hgt
      rcases List.mem_append.1 hd with hd | hd
      · exact plateDateLe_trans _ _ _ hyx (h d hd)
      · rw [List.mem_singleton.1 hd]
        exact hyx
    · simp only [hgt, if_false, Bool.false_eq_true]
      apply ih
      intro d hd
      rcases List.mem_append.1 hd with hd | hd
      · exact h d hd
      · rw [List.mem_singleton.1 hd]
        exact (outOfOrder_false_iff x y).1 (by simpa using hgt)

/-- The outer loop at index `i` on an array whose part from `i` on is
`suffix` leaves the part before `i` and sorts the rest pass by pass. -/
theorem sortOuter_eq_sortList :
    ∀ (steps : Nat) (pre suffix : List BusReservation), suffix.length = steps + 1 →
      sortOuter steps pre.length (pre ++ suffix) = pre ++ sortList steps suffix := by
  intro steps
  induction steps with
  | zero =>
    intro pre suffix _
    rfl
  | succ n ih =>
    intro pre suffix hlen
    cases suffix with
    | nil => simp at hlen
    | cons x rest =>
      have hrest : rest.length = n + 1 := by
        simp only [List.length_cons] at hlen
        omega
      have hsteps : (pre ++ x :: rest).length - (pre.length + 1) = rest.length := by
        simp only [List.length_append, List.length_cons]
        omega
      have hinner := sortInner_eq_passList pre rest [] x
      simp only [List.length_nil, Nat.add_zero, List.nil_append] at hinner
      simp only [sortOuter, sortList, hsteps, hinner]
      have hpre : pre.length + 1 = (pre ++ [(passList x [] rest).1]).length := by
        simp only [List.length_append, List.length_singleton]
      have happ : pre ++ (passList x [] rest).1 :: (passList x [] rest).2 =
          (pre ++ [(passList x [] rest).1]) ++ (passList x [] rest).2 := by simp
      rw [hpre, happ, ih _ _ (by rw [passList_length]; simpa using hrest)]
      simp

theorem sortList_sorted_perm :
    ∀ (steps : Nat) (suffix : List BusReservation), suffix.length = steps + 1 →
      (sortList steps suffix).Perm suffix ∧ (sortList steps suffix).Pairwise plateDateLe := by
  intro steps
  induction steps with
  | zero =>
    intro suffix hlen
    cases suffix with
    | nil => simp at hlen
    | cons x rest =>
      have hrest : rest = [] := by
        simp only [List.length_cons] at hlen
        exact List.eq_nil_of_length_eq_zero (by omega)
      subst hrest
      exact ⟨List.Perm.refl _, List.pairwise_singleton _ _⟩
  | succ n ih =>
    intro suffix hlen
    cases suffix with
    | nil => simp at hlen
    | cons x rest =>
      have hrest : rest.length = n + 1 := by
        simp only [List.length_cons] at hlen
        omega
      have htail : (passList x [] rest).2.length = n + 1 := by
        rw [passList_length]
        simpa using hrest
      obtain ⟨hperm, hsorted⟩ := ih _ htail
      have hpass := passList_perm rest [] x
      simp only [List.nil_append] at hpass
      refine ⟨?_, ?_⟩
      · simp only [sortList]
        exact (List.Perm.cons _ hperm).trans hpass
      · simp only [sortList]
        refine List.pairwise_cons.2 ⟨?_, hsorted⟩
        intro d hd
        exact passList_min rest [] x (by simp) d (hperm.mem_iff.1 hd)

/-- C30. The exchange sort at the start of `generateBusReport` leaves the
array a permutation of its input, ordered by bus number plate ascending and,
among equal plates, by date ascending (strings compared as `strcmp` compares
them): of two buses of the result, the earlier one has the smaller plate, or
the same plate and a date not after the other's. -/
theorem sortBuses_sorted_perm (buses : List BusReservation) :
    (sortBuses buses).Perm buses ∧
      (sortBuses buses).Pairwise (fun x y =>
        x.busNumberPlate < y.busNumberPlate ∨
          (x.busNumberPlate = y.busNumberPlate ∧ x.date ≤ y.date)) := by
  cases buses with
  | nil => exact ⟨List.Perm.refl _, List.Pairwise.nil⟩
  | cons x rest =>
    have h := sortOuter_eq_sortList rest.length [] (x :: rest) rfl
    have e : sortBuses (x :: rest) = sortList rest.length (x :: rest) := by
      simpa [sortBuses] using h
    rw [e]
    exact sortList_sorted_perm rest.length (x :: rest) rfl

/-- Witness of C30: the sort on four buses, trips A, B and C and a second
bus on the plate of trip A with an earlier date. The result is ordered by
plate, then date. -/
theorem sortBuses_sorted_perm_witness :
    (sortBuses [tripA, tripB, tripC, { tripA with busID := 4, date := "2025-02-27" }]).map
        (fun bus => (bus.busNumberPlate, bus.date, bus.busID)) =
      [("JKL5678", "2025-03-05", 2), ("PQR4321", "2025-03-09", 3),
        ("WXY1234", "2025-02-27", 4), ("WXY1234", "2025-03-01", 1)] ∧
    ((sortBuses [tripA, tripB, tripC, { tripA with busID := 4, date := "2025-02-27" }]).Perm
        [tripA, tripB, tripC, { tripA with busID := 4, date := "2025-02-27" }] ∧
      (sortBuses [tripA, tripB, tripC, { tripA with busID := 4, date := "2025-02-27" }]).Pairwise
        (fun x y =>
          x.busNumberPlate < y.busNumberPlate ∨
            (x.busNumberPlate = y.busNumberPlate ∧ x.date ≤ y.date))) :=
  ⟨by decide!,
    sortBuses_sorted_perm [tripA, tripB, tripC, { tripA with busID := 4, date := "2025-02-27" }]⟩

end Assignment
